import Mathlib

/-!
# Port -B- controller: queues and byte steppers

A shallow embedding of `src/src/pBController.c` (with the constants of
`src/src/pBController.h`): the output byte queue, the input request queue, the
two steppers `pBSend` / `pBReceive`, and the life-cycle functions around them.

Conventions of the embedding.

* The C globals are the fields of `State`; every C function becomes a function
  from `State` to a result and a new `State`.
* The cursors `pOutItemsQueue`, `pOutNext`, `pInItemsQueue`, `pInNext` are kept
  as element offsets from `&aOutItemsQueue[0]` and `&aInItemsQueue[0]`.  A cursor
  into an array is never the null pointer, so the branch
  `if( !pOutItemsQueue ) _initOutItemsQueue();` of `pBPush` (taken only before the
  first `pBInit`) has no counterpart here.
* The arrays are lists.  A cell past the end of the list reads as zero (or as
  `null_in_item`), as a cell of a zero-initialised array that was never stored to does.
  A store past the end extends the list, also at or past the declared array size, so
  that an overrun of the C array can be exhibited: it shows as a cursor, an index or a
  list length.  In C such a store lands in whatever follows the array, and a read there
  returns whatever follows the array; the embedding says nothing about that.  It
  describes the C program up to the first access at or past the declared size of an
  array.  States before that point are the states `InsideArrays`; invariants of
  arbitrary runs are stated for runs that stay `InsideArrays`.
* The volatile registers `PB_STATUS` and `PB_RXHR` are answered by an oracle `Hw`
  indexed by the number of reads made so far; the stores to `PB_TXHR` and the
  stores through destination pointers are appended to the logs `txLog` and
  `memLog`.
* Diagnostic builds (`DEBUG`, `TRACE`, `PB_USE_LOGGER`, `PB_STATISTICS`,
  `PB_USE_DELAY`) only add logging, statistics counters and a delay; they and the
  platform primitives `DisableInt` / `EnableInt` are left out.
-/

set_option linter.unusedVariables false

namespace PBController

/-! ## Constants of `pBController.h` -/

def DEFAULT_TIMEOUT : Nat := 1000000
def IRQ_TIMEOUT : Nat := 0
def RXRDY : Nat := 0x02
def TXRDY : Nat := 0x20
def SPEED_19200 : Nat := 0x04
def SPEED_38400 : Nat := 0x02
def SPEED_115200 : Nat := 0x00
def MODE_RX : Int := -1
def MODE_NONE : Int := 0
def MODE_TX : Int := 1
def TX_ERROR_MASK : Nat := 0x04 ||| 0x08 ||| 0x10
def MAX_OUTPUT_ITEM_SIZE : Nat := 1024
def OUTPUT_SIZE : Nat := 10 * MAX_OUTPUT_ITEM_SIZE
def MAX_INPUT_ITEMS_COUNTER : Nat := 10
def SIZE_OFFSET : Nat := 2
def ENTER_CODE : Nat := 0x0D

/-! ## Build configuration and hardware oracle -/

/-- Modelled from the spec: the contents of the absent headers `config.h`, `pBCommon.h`
and `pBIRQ.h` that the controller uses.  The callback status codes (`PB_OK` is "item
complete / nothing to do", `PB_ERR_NONE` is "continue", the others are the errors
Undefined, Overflow, Empty, Busy and NotReady), the direction selectors passed to
`pBIsIRQEnabled`, the line terminator `NEW_LINE` (as bytes), and the conditional
compilation switches tested with `#ifdef` in `pBController.c`.  All of them are
parameters of the embedding. -/
structure Config where
  PB_OK : Int
  PB_ERR_NONE : Int
  PB_ERR_UNDEFINED : Int
  PB_ERR_OVERFLOW : Int
  PB_ERR_EMPTY : Int
  PB_ERR_IS_BUSY : Int
  PB_ERR_IS_NOT_READY : Int
  PB_EIRC : Int
  PB_EITR : Int
  NEW_LINE : List Nat
  PB_RING_QUEUE : Bool
  PB_USE_PORT_INTERRUPTS : Bool
  PB_CLEAN_REGISTER : Bool
  PB_NO_EMPTY_REQUEST : Bool
  PB_START_WITH_NEWLINE : Bool
  PB_CHECK_ERRORS : Bool
  deriving DecidableEq, Repr

/-- Modelled from the spec: one concrete configuration, used for examples.  The module
comment of `pBController.c` fixes the shape: the steppers return a "finalization code
(1/0) or an error as a negative value", the selectors are "1/0, EIRC/EITR", and
`IsNewLine` pushes the "standard line delimeters" `\n\r`.  The queues use the shifting
policy, which the spec names as the default. -/
def stdConfig : Config :=
  { PB_OK := 1, PB_ERR_NONE := 0, PB_ERR_UNDEFINED := -1, PB_ERR_OVERFLOW := -2,
    PB_ERR_EMPTY := -3, PB_ERR_IS_BUSY := -4, PB_ERR_IS_NOT_READY := -5,
    PB_EIRC := 1, PB_EITR := 0, NEW_LINE := [10, 13],
    PB_RING_QUEUE := false, PB_USE_PORT_INTERRUPTS := true, PB_CLEAN_REGISTER := true,
    PB_NO_EMPTY_REQUEST := false, PB_START_WITH_NEWLINE := false, PB_CHECK_ERRORS := true }

/-- The volatile registers read by the controller: `status n` and `rxd n` are the values
found in `BaseAddress[PB_STATUS]` and `BaseAddress[PB_RXHR]` at the read number `n`
(counted from zero, separately for each register). -/
structure Hw where
  status : Nat → Nat
  rxd : Nat → Nat

/-! ## Data model -/

/-- An input item: `TInItem` of `pBController.h`.  `pItem` is an address, `0` is null. -/
structure TInItem where
  pItem : Nat
  nMaxSize : Int
  deriving DecidableEq, Repr

def null_in_item : TInItem := { pItem := 0, nMaxSize := 0 }

/-- The globals of `pBController.c`, the two plain registers `CNR` and `IER`, the
trigger flag `isr_pb` of the interrupt handler, the read counters of the two volatile
registers and the two store logs. -/
structure State where
  CNR : Nat
  IER : Nat
  txLog : List Nat
  statusReads : Nat
  rxReads : Nat
  memLog : List (Nat × Nat)
  pb_cnr_saved : Nat
  pb_ier_saved : Nat
  isr_pb : Nat
  isr_pb_state : Nat
  rx : Nat
  port_mode : Int
  aInItemsQueue : List TInItem
  pInItemsQueue : Nat
  pInNext : Nat
  nInItems : Int
  aOutItemsQueue : List Nat
  pOutItemsQueue : Nat
  pOutNext : Nat
  nOutItems : Int
  deriving DecidableEq, Repr

/-! ## Array access -/

/-- Store the cells `vals` at offset `p` of `buf`; cells between the end of `buf` and
`p` are filled with `d`.  A store that ends past the end of the list makes the list
longer, whether or not the C array has a cell there: the length of the list records how
far the stores have reached.  Where the list has grown past the declared size of the
array the C program has stored into whatever follows the array, and the embedding no
longer describes it (see `InsideArrays`). -/
def pokes {α : Type} (d : α) (buf : List α) (p : Nat) (vals : List α) : List α :=
  (buf ++ List.replicate (p - buf.length) d).take p ++ vals ++ buf.drop (p + vals.length)

/-- Load `n` cells starting at offset `a`. -/
def peeks {α : Type} (d : α) (buf : List α) (a n : Nat) : List α :=
  ((buf ++ List.replicate (a + n - buf.length) d).drop a).take n

/-! ## The string library used by the queue (declared "External" in `pBController.h`) -/

/-- Modelled from the spec: the bytes of a C string, up to the first null.  The queue is
"a single contiguous byte buffer holding zero or more null-terminated items". -/
def cstr (s : List Nat) : List Nat := s.takeWhile (fun b => b != 0)

/-- Modelled from the spec: `strsize` of the absent string library, the "item length":
the number of bytes before the first null. -/
def strsize (s : List Nat) : Nat := (cstr s).length

/-- Modelled from the spec: `endswith` of the absent string library; "a line terminator
if not already present" is tested on the end of the item. -/
def endswith (s t : List Nat) : Bool := (cstr t).isSuffixOf (cstr s)

/-- Modelled from the spec: `stradd` of the absent string library, which "appends a line
terminator" to the item. -/
def stradd (s t : List Nat) : List Nat := cstr s ++ cstr t

/-- Modelled from the spec: `strin` of the absent string library, membership of a
character in a C string. -/
def strin (ch : Nat) (set : List Nat) : Bool := (cstr set).contains ch

/-- Modelled from the spec: `strpush` of the absent string library.  The push "appends
the item after the current tail" and "advances tail": the bytes of the item and its
null terminator are stored at the tail cursor `p`, and the result is the "next free
slot" behind the terminator. -/
def strpush (buf : List Nat) (p : Nat) (s : List Nat) : List Nat × Nat :=
  (pokes 0 buf p (cstr s ++ [0]), p + strsize s + 1)

/-- Modelled from the spec: `strshift` of the absent string library.  In the compaction
policy "the remaining bytes are shifted down to offset zero": the bytes from `src` up
to (not including) `stop` are moved to `dst`. -/
def strshift (buf : List Nat) (dst src stop : Nat) : List Nat :=
  pokes 0 buf dst (peeks 0 buf src (stop - src))

/-! ## Port state control (protected) -/

def SetPortSpeed (c : Config) (Speed : Nat) (st : State) : State :=
  let cnr := if c.PB_CLEAN_REGISTER then st.CNR &&& 0xF8 else st.CNR
  { st with CNR := (cnr ||| ((Speed &&& 0x06) ||| 0x01)) % 256 }

def SetPortLoop (c : Config) (IsLoop : Nat) (st : State) : State :=
  let cnr := if c.PB_CLEAN_REGISTER then st.CNR &&& 0xF6 else st.CNR
  { st with CNR := (cnr ||| ((if IsLoop ≠ 0 then 0x08 else 0x00) ||| 0x01)) % 256 }

def SetPortParity (c : Config) (Parity : Int) (st : State) : State :=
  let cnr := if c.PB_CLEAN_REGISTER then st.CNR &&& 0xEE else st.CNR
  { st with CNR := (cnr ||| ((if Parity ≠ 0 then 0x10 else 0x00) ||| 0x01)) % 256 }

def SetIRQStatus (c : Config) (mode IsEnable : Int) (st : State) : State :=
  if c.PB_USE_PORT_INTERRUPTS then
    if IsEnable ≠ 0 then
      { st with IER := (st.IER ||| (if mode ≠ 0 then 0x02 else 0x01)) % 256 }
    else
      { st with IER := st.IER &&& (if mode ≠ 0 then 0xFD else 0xFE) }
  else st

def GetIRQStatus (mode : Int) (st : State) : Nat :=
  st.IER &&& (if mode ≠ 0 then 0x02 else 0x01)

/-- Read `BaseAddress[PB_STATUS]` once. -/
def readStatus (hw : Hw) (st : State) : Nat × State :=
  (hw.status st.statusReads % 256, { st with statusReads := st.statusReads + 1 })

/-- Read `BaseAddress[PB_RXHR]` once. -/
def readRxd (hw : Hw) (st : State) : Nat × State :=
  (hw.rxd st.rxReads % 256, { st with rxReads := st.rxReads + 1 })

def GetPortErrorMask (hw : Hw) (status : Nat) (st : State) : Int × State :=
  if status ≠ 0 then (((status &&& TX_ERROR_MASK : Nat) : Int), st)
  else
    let r := readStatus hw st
    (((r.1 &&& TX_ERROR_MASK : Nat) : Int), r.2)

/-- The loop `while( STATUS & TXRDY ) { if( !( --Timeout ) ) return 0; } return 1;` of
`IsTXPortReady`, entered with `Timeout = n + 1`. -/
def txSpin (hw : Hw) : Nat → State → Nat × State
  | 0, st =>
    let r := readStatus hw st
    if r.1 &&& TXRDY ≠ 0 then (0, r.2) else (1, r.2)
  | n + 1, st =>
    let r := readStatus hw st
    if r.1 &&& TXRDY ≠ 0 then txSpin hw n r.2 else (1, r.2)

def IsTXPortReady (hw : Hw) (Timeout : Nat) (st : State) : Nat × State :=
  match Timeout with
  | 0 => (if st.isr_pb_state &&& TXRDY = 0 then 1 else 0, st)
  | n + 1 => txSpin hw n st

/-- The loop `while( !( STATUS & RXRDY ) ) { if( !( --Timeout ) ) return 0; } return 1;`
of `IsRXPortReady`, entered with `Timeout = n + 1`. -/
def rxSpin (hw : Hw) : Nat → State → Nat × State
  | 0, st =>
    let r := readStatus hw st
    if r.1 &&& RXRDY = 0 then (0, r.2) else (1, r.2)
  | n + 1, st =>
    let r := readStatus hw st
    if r.1 &&& RXRDY = 0 then rxSpin hw n r.2 else (1, r.2)

def IsRXPortReady (hw : Hw) (Timeout : Nat) (st : State) : Nat × State :=
  match Timeout with
  | 0 => (if st.isr_pb_state &&& RXRDY ≠ 0 then 1 else 0, st)
  | n + 1 => rxSpin hw n st

/-! ## Server control (private; the C names carry a leading underscore) -/

/-- The C function `_initInItemsQueue`. -/
def initInItemsQueue (st : State) : State :=
  { st with
    aInItemsQueue := (List.range MAX_INPUT_ITEMS_COUNTER).foldl
      (fun a i => pokes null_in_item a i [null_in_item]) st.aInItemsQueue
    pInItemsQueue := 0
    pInNext := 0
    nInItems := 0 }

/-- The C function `_initOutItemsQueue`. -/
def initOutItemsQueue (st : State) : State :=
  { st with
    aOutItemsQueue := pokes 0 st.aOutItemsQueue 0 [0]
    pOutItemsQueue := 0
    pOutNext := 0
    nOutItems := 0 }

/-- The C function `_initPortBController`. -/
def initPortBController (c : Config) (st : State) : State :=
  let st1 := { st with pb_cnr_saved := st.CNR }
  let st2 := SetPortParity c 1 st1
  let st3 := SetPortLoop c 0 st2
  let st4 := SetPortSpeed c SPEED_38400 st3
  { st4 with port_mode := MODE_NONE }

/-- The shift loop of `_termPortBController`:
`for( i=0; i<nInItems; i++ ) aInItemsQueue[i] = aInItemsQueue[i+1];`.  Its last round
reads the cell at index `n`.  With `n = MAX_INPUT_ITEMS_COUNTER` that cell lies behind
the table: in C it is whatever follows the array, here it is the list cell at that index
if the list has one and `null_in_item` otherwise.  The assignment
`aInItemsQueue[i] = null_in_item;` behind the loop stores at the same index `n`, so a
step that makes this read leaves the list longer than the table and the state is not
`InsideArrays`. -/
def shiftInItems (a : List TInItem) (n : Nat) : List TInItem :=
  (List.range n).foldl (fun q i => pokes null_in_item q i [q.getD (i + 1) null_in_item]) a

/-- The `MODE_TX` branch of `_termPortBController`. -/
def termOut (c : Config) (st : State) : State :=
  let st1 :=
    if st.nOutItems ≤ 1 then
      { st with pOutItemsQueue := 0, pOutNext := 0, nOutItems := 0 }
    else
      let st2 :=
        if st.pOutNext > st.pOutItemsQueue then
          if c.PB_RING_QUEUE then
            { st with pOutItemsQueue := st.pOutItemsQueue + 1 }
          else
            { st with
              aOutItemsQueue :=
                strshift st.aOutItemsQueue 0 (st.pOutItemsQueue + 1) st.pOutNext
              pOutNext := 0 + (st.pOutNext - (st.pOutItemsQueue + 1))
              pOutItemsQueue := 0 }
        else st
      { st2 with nOutItems := st2.nOutItems - 1 }
  if st1.pOutNext = st1.pOutItemsQueue then
    { st1 with aOutItemsQueue := pokes 0 st1.aOutItemsQueue 0 [0] }
  else st1

/-- The `MODE_RX` branch of `_termPortBController`. -/
def termIn (c : Config) (st : State) : State :=
  if st.nInItems ≤ 1 then
    { st with pInItemsQueue := 0, pInNext := 0, nInItems := 0 }
  else
    let st2 :=
      if st.pInNext > st.pInItemsQueue then
        if c.PB_RING_QUEUE then
          { st with pInItemsQueue := st.pInItemsQueue + 1 }
        else
          let n := st.nInItems.toNat
          { st with
            aInItemsQueue :=
              pokes null_in_item (shiftInItems st.aInItemsQueue n) n [null_in_item]
            pInItemsQueue := 0 }
      else st
    { st2 with nInItems := st2.nInItems - 1 }

/-- The C function `_termPortBController`: pop the served item off the queue of the active direction
and release the port. -/
def termPortBController (c : Config) (st : State) : State :=
  let st1 :=
    if st.port_mode = MODE_TX then termOut c st
    else if st.port_mode = MODE_RX then termIn c st
    else st
  { st1 with port_mode := MODE_NONE }

/-- The C function `_saveIERState`. -/
def saveIERState (st : State) : State :=
  let st1 := { st with pb_ier_saved := st.IER }
  if st1.pb_ier_saved ≠ 0 then { st1 with IER := 0 } else st1

/-- The C function `_restoreIERState`. -/
def restoreIERState (st : State) : State :=
  if st.IER ≠ st.pb_ier_saved then { st with IER := st.pb_ier_saved } else st

/-! ## Client interface (public) -/

def pBIsIRQEnabled (mode : Int) (st : State) : Int :=
  if GetIRQStatus mode st ≠ 0 then 1 else 0

/-- Modelled from the spec: the macro `pBEnableIRQ` of the absent `pBCommon.h`; `pBInit`
uses it to "apply the requested interrupt-enable state per direction". -/
def pBEnableIRQ (c : Config) (IsEIRCEnable IsEITREnable : Int) (st : State) : State :=
  SetIRQStatus c c.PB_EITR IsEITREnable (SetIRQStatus c c.PB_EIRC IsEIRCEnable st)

/-- The request at the head of the input queue, `*pInItemsQueue`. -/
def headItem (st : State) : TInItem :=
  st.aInItemsQueue.getD st.pInItemsQueue null_in_item

/-- The part of `pBReceive` behind the readiness checks: take one byte for the head
request. -/
def receiveByte (c : Config) (hw : Hw) (st : State) : Int × State :=
  let st1 := { st with port_mode := MODE_RX }
  let head := headItem st1
  let IsOverflow := decide (head.nMaxSize ≤ 1)
  let r := if IsOverflow then (ENTER_CODE, st1) else readRxd hw st1
  let Data := r.1
  let st2 := r.2
  if Data ≠ 0 then
    if Data = ENTER_CODE then
      let st3 :=
        if IsOverflow then st2 else { st2 with memLog := st2.memLog ++ [(head.pItem, 0)] }
      let st4 := { st3 with
        aInItemsQueue := pokes null_in_item st3.aInItemsQueue st3.pInItemsQueue
          [{ head with nMaxSize := head.nMaxSize - 1 }] }
      (c.PB_OK, termPortBController c st4)
    else
      let st3 := { st2 with
        memLog := st2.memLog ++ [(head.pItem, Data)]
        aInItemsQueue := pokes null_in_item st2.aInItemsQueue st2.pInItemsQueue
          [{ pItem := head.pItem + 1, nMaxSize := head.nMaxSize - 1 }] }
      (c.PB_ERR_NONE, st3)
  else (c.PB_ERR_NONE, st2)

/-- How the checks at the head of a stepper end: the call returns at once with a code,
or it goes on to transfer a byte. -/
inductive Gate where
  | leave (code : Int) (st : State)
  | pass (st : State)
  deriving DecidableEq, Repr

/-- The head of `pBReceive`, up to `port_mode = MODE_RX`: the empty-queue and direction
checks, then the trigger flag and captured reason (interrupts enabled) or the busy-wait
on `RXRDY` (interrupts disabled). -/
def receiveGate (c : Config) (hw : Hw) (st : State) : Gate :=
  if st.nInItems = 0 then Gate.leave c.PB_OK st
  else if st.port_mode = MODE_TX then Gate.leave c.PB_ERR_IS_BUSY st
  else if pBIsIRQEnabled c.PB_EIRC st ≠ 0 then
    if st.isr_pb = 0 then Gate.leave c.PB_ERR_NONE st
    else
      let st1 := { st with isr_pb := 0 }
      let r := IsRXPortReady hw IRQ_TIMEOUT st1
      if r.1 = 0 then Gate.leave c.PB_ERR_NONE r.2
      else
        let e := if c.PB_CHECK_ERRORS then GetPortErrorMask hw r.2.isr_pb_state r.2
                 else (0, r.2)
        if e.1 ≠ 0 then Gate.leave e.1 e.2
        else Gate.pass { e.2 with isr_pb_state := 0 }
  else
    let r := IsRXPortReady hw DEFAULT_TIMEOUT st
    if r.1 = 0 then Gate.leave c.PB_ERR_NONE r.2
    else Gate.pass r.2

def pBReceive (c : Config) (hw : Hw) (start : Int) (st : State) : Int × State :=
  match receiveGate c hw st with
  | Gate.leave code st1 => (code, st1)
  | Gate.pass st1 => receiveByte c hw st1

def pBInit (c : Config) (hw : Hw) (IsEIRCEnable IsEITREnable : Int) (st : State) :
    Int × State :=
  let st1 := initPortBController c st
  let st2 := initInItemsQueue st1
  let st3 := initOutItemsQueue st2
  let st4 := pBEnableIRQ c IsEIRCEnable IsEITREnable st3
  let e := GetPortErrorMask hw 0 st4
  (if e.1 ≠ 0 then 0 else 1, e.2)

def pBInRequest (c : Config) (hw : Hw) (sItem : Nat) (nMaxSize : Int) (st : State) :
    Int × State :=
  if sItem = 0 ∧ nMaxSize ≠ 0 then (c.PB_ERR_UNDEFINED, st)
  else
    let e := GetPortErrorMask hw 0 st
    if e.1 ≠ 0 then (e.1, e.2)
    else if e.2.nInItems ≥ (MAX_INPUT_ITEMS_COUNTER : Int) then (c.PB_ERR_OVERFLOW, e.2)
    else
      let st1 := { e.2 with
        aInItemsQueue := pokes null_in_item e.2.aInItemsQueue e.2.pInNext
          [{ pItem := sItem, nMaxSize := if nMaxSize > 0 then nMaxSize else 0 }]
        pInNext := e.2.pInNext + 1
        nInItems := e.2.nInItems + 1 }
      let r := pBReceive c hw 1 st1
      (if r.1 ≠ 0 then r.1 else c.PB_ERR_NONE, r.2)

/-- The test `i==0 || ( i==1 && strin(sItem[0], "\n\r\t\0") )` of `pBPush`. -/
def isEmptyRequest (sItem : List Nat) : Bool :=
  strsize sItem = 0 || (strsize sItem = 1 && strin (sItem.getD 0 0) [10, 13, 9, 0])

/-- The bytes that `pBPush` hands to `strpush`: the item, with `NEW_LINE` added by
`stradd` when `IsNewLine` is set and the item does not end with it already. -/
def pushedItem (c : Config) (sItem : List Nat) (IsNewLine : Int) : List Nat :=
  if IsNewLine ≠ 0 ∧ endswith sItem c.NEW_LINE = false then stradd sItem c.NEW_LINE
  else sItem

def pBPush (c : Config) (sItem : List Nat) (IsNewLine IsLog : Int) (st : State) :
    Int × State :=
  let i := strsize sItem
  if c.PB_NO_EMPTY_REQUEST = true ∧ isEmptyRequest sItem = true then (1, st)
  else
    let nSize := i + SIZE_OFFSET
    if nSize > MAX_OUTPUT_ITEM_SIZE ∨ nSize + strsize st.aOutItemsQueue > OUTPUT_SIZE then
      (0, st)
    else if nSize > SIZE_OFFSET then
      let r := strpush st.aOutItemsQueue st.pOutNext (pushedItem c sItem IsNewLine)
      (1, { st with aOutItemsQueue := r.1, pOutNext := r.2, nOutItems := st.nOutItems + 1 })
    else (1, st)

/-- The part of `pBSend` behind the choice of `Data`: claim the port, then either flush
(null byte) or wait for the transmitter and store the byte in `PB_TXHR`. -/
def sendByte (c : Config) (hw : Hw) (Data : Nat) (IsStart : Bool) (IsIRQEnabled : Int)
    (st : State) : Int × State :=
  let st1 := { st with port_mode := MODE_TX, isr_pb := 0 }
  if Data = 0 then (c.PB_OK, termPortBController c st1)
  else
    let r :=
      if IsIRQEnabled ≠ 0 then
        let q := IsTXPortReady hw IRQ_TIMEOUT st1
        (q.1, { q.2 with isr_pb_state := 0 })
      else IsTXPortReady hw DEFAULT_TIMEOUT st1
    let IsError : Int := if r.1 = 0 then c.PB_ERR_IS_NOT_READY else 0
    let st2 :=
      if IsError = 0 then
        { r.2 with
          txLog := r.2.txLog ++ [Data]
          pOutItemsQueue := if IsStart then r.2.pOutItemsQueue else r.2.pOutItemsQueue + 1 }
      else r.2
    (Int.lor IsError c.PB_ERR_NONE, st2)

def pBSend (c : Config) (hw : Hw) (start : Int) (st : State) : Int × State :=
  if st.nOutItems = 0 then (c.PB_OK, st)
  else if st.port_mode = MODE_RX then (c.PB_ERR_IS_BUSY, st)
  else
    let IsIRQEnabled := pBIsIRQEnabled c.PB_EITR st
    if c.PB_START_WITH_NEWLINE = true ∧ start ≠ 0 ∧ IsIRQEnabled ≠ 0 then
      sendByte c hw 10 true IsIRQEnabled st
    else if st.port_mode = MODE_TX ∧ IsIRQEnabled ≠ 0 ∧ st.isr_pb = 0 then
      (c.PB_ERR_NONE, st)
    else
      sendByte c hw (st.aOutItemsQueue.getD st.pOutItemsQueue 0) false IsIRQEnabled st

/-- The body of `pBOutRequest` behind `vsprintf`: `sItem` is the rendered string (the
formatting itself is outside the controller).  Check the port state, push the item with
the line terminator, then start transmitting with `pBSend(1)`. -/
def pBOutRequest (c : Config) (hw : Hw) (sItem : List Nat) (st : State) : Int × State :=
  let e := GetPortErrorMask hw 0 st
  if e.1 ≠ 0 then (e.1, e.2)
  else
    let r := pBPush c sItem 1 0 e.2
    if r.1 = 0 then (c.PB_ERR_OVERFLOW, r.2)
    else if r.2.nOutItems = 0 then (c.PB_ERR_EMPTY, r.2)
    else
      let q := pBSend c hw 1 r.2
      (if q.1 ≠ 0 then q.1 else c.PB_ERR_NONE, q.2)

/-- Modelled from the spec: the macro `pBDisableIRQ` of the absent `pBCommon.h`, as
`pBTerm` uses it: "force both interrupt-enable bits off". -/
def pBDisableIRQ (c : Config) (st : State) : State :=
  SetIRQStatus c c.PB_EITR 0 (SetIRQStatus c c.PB_EIRC 0 st)

def pBTerm (c : Config) (st : State) : State := pBDisableIRQ c st

/-- The C function `pBPrintf`; the `printf` between save and restore is console output
outside the controller. -/
def pBPrintf (st : State) : State := restoreIERState (saveIERState st)

/-- The C function `pBGetchar`; `ch` is what `getc(stdin)` delivers. -/
def pBGetchar (ch : Nat) (st : State) : Nat × State :=
  let st1 := saveIERState st
  let st2 := { st1 with rx := ch % 256 }
  let st3 := restoreIERState st2
  (st3.rx, st3)

/-! ## Runs: sequences of calls, used to state the queue properties -/

/-- Push the items in order with `pBPush(sItem, IsNewLine, 0)`; the return values in call
order and the final state. -/
def pushRun (c : Config) : List (List Nat × Int) → State → List Int × State
  | [], st => ([], st)
  | (s, nl) :: rest, st =>
    let r := pBPush c s nl 0 st
    let q := pushRun c rest r.2
    (r.1 :: q.1, q.2)

/-- Call `pBSend(0)` `n` times in a row; the return values in call order and the final
state. -/
def sendRun (c : Config) (hw : Hw) : Nat → State → List Int × State
  | 0, st => ([], st)
  | n + 1, st =>
    let r := pBSend c hw 0 st
    let q := sendRun c hw n r.2
    (r.1 :: q.1, q.2)

/-- What can happen to the receiving side between two moments: the client queues a
request, somebody calls the stepper, or the interrupt handler (outside the controller)
leaves a trigger flag and a captured reason byte. -/
inductive RxCall where
  | request (sItem : Nat) (nMaxSize : Int)
  | receive (start : Int)
  | irq (flag reason : Nat)
  deriving DecidableEq, Repr

/-- Run a sequence of receiving-side calls; the return values of the controller calls in
call order (an `irq` entry returns nothing) and the final state. -/
def rxRun (c : Config) (hw : Hw) : List RxCall → State → List Int × State
  | [], st => ([], st)
  | RxCall.request sItem nMaxSize :: rest, st =>
    let r := pBInRequest c hw sItem nMaxSize st
    let q := rxRun c hw rest r.2
    (r.1 :: q.1, q.2)
  | RxCall.receive start :: rest, st =>
    let r := pBReceive c hw start st
    let q := rxRun c hw rest r.2
    (r.1 :: q.1, q.2)
  | RxCall.irq flag reason :: rest, st =>
    rxRun c hw rest { st with isr_pb := flag, isr_pb_state := reason % 256 }

/-- One event in the life of the controller: a call of the client interface, or the
interrupt handler (outside the controller) leaving a trigger flag and a captured reason
byte. -/
inductive ApiCall where
  | init (IsEIRCEnable IsEITREnable : Int)
  | term
  | inRequest (sItem : Nat) (nMaxSize : Int)
  | outRequest (sItem : List Nat)
  | push (sItem : List Nat) (IsNewLine IsLog : Int)
  | send (start : Int)
  | receive (start : Int)
  | printf
  | getchar (ch : Nat)
  | irq (flag reason : Nat)
  deriving DecidableEq, Repr

/-- The state after one event. -/
def apiStep (c : Config) (hw : Hw) : ApiCall → State → State
  | ApiCall.init a b, st => (pBInit c hw a b st).2
  | ApiCall.term, st => pBTerm c st
  | ApiCall.inRequest sItem nMaxSize, st => (pBInRequest c hw sItem nMaxSize st).2
  | ApiCall.outRequest sItem, st => (pBOutRequest c hw sItem st).2
  | ApiCall.push sItem nl lg, st => (pBPush c sItem nl lg st).2
  | ApiCall.send start, st => (pBSend c hw start st).2
  | ApiCall.receive start, st => (pBReceive c hw start st).2
  | ApiCall.printf, st => pBPrintf st
  | ApiCall.getchar ch, st => (pBGetchar ch st).2
  | ApiCall.irq flag reason, st => { st with isr_pb := flag, isr_pb_state := reason % 256 }

/-- The state after a sequence of events. -/
def apiRun (c : Config) (hw : Hw) : List ApiCall → State → State
  | [], st => st
  | call :: rest, st => apiRun c hw rest (apiStep c hw call st)

/-- The byte last stored at address `a` through a destination pointer, if any. -/
def memAt (log : List (Nat × Nat)) (a : Nat) : Option Nat :=
  (log.reverse.find? (fun w => w.1 = a)).map (fun w => w.2)

/-- The bytes that a list of queued items occupies: every item followed by its null. -/
def packed (items : List (List Nat)) : List Nat := (items.map (fun q => q ++ [0])).flatten

/-- The items as `pBPush` queues them, in push order. -/
def queuedItems (c : Config) (items : List (List Nat × Int)) : List (List Nat) :=
  items.map (fun it => pushedItem c it.1 it.2)

/-- The number of `pBSend` calls that drain the items: one per byte and one per
terminating null. -/
def callsFor (items : List (List Nat)) : Nat := (items.map (fun q => q.length + 1)).sum

/-- The return values of the draining calls: `PB_ERR_NONE` for every byte of an item,
then `PB_OK` for its terminating null. -/
def codesFor (c : Config) (items : List (List Nat)) : List Int :=
  (items.map (fun q => List.replicate q.length c.PB_ERR_NONE ++ [c.PB_OK])).flatten

/-- The queue right after pushes onto a fresh queue: the items lie packed from the start
of the buffer up to the tail cursor, the head cursor is at the start. -/
def Pushed (items : List (List Nat)) (st : State) : Prop :=
  (∃ junk, st.aOutItemsQueue = packed items ++ junk) ∧
  st.pOutNext = (packed items).length ∧
  st.pOutItemsQueue = 0 ∧
  st.nOutItems = items.length ∧
  (items = [] → st.aOutItemsQueue.getD 0 0 = 0)

/-- The queue in the middle of a polled transmission: the head cursor stands in front of
the unsent bytes `cur` of the current item, the items `rest` follow it up to the tail
cursor. -/
def Sending (c : Config) (cur : List Nat) (rest : List (List Nat)) (st : State) : Prop :=
  (∃ done junk, st.aOutItemsQueue = done ++ (cur ++ 0 :: (packed rest ++ junk)) ∧
    st.pOutItemsQueue = done.length) ∧
  st.pOutNext = st.pOutItemsQueue + cur.length + 1 + (packed rest).length ∧
  st.nOutItems = rest.length + 1 ∧
  st.port_mode ≠ MODE_RX ∧
  pBIsIRQEnabled c.PB_EITR st = 0

/-! ## Line settings and received lines -/

/-- The three default settings applied to a register byte `x`, as `_initPortBController`
applies them in a `PB_CLEAN_REGISTER` build. -/
def cnrDefaults (x : Nat) : Nat :=
  (((((((x &&& 0xEE) ||| (0x10 ||| 0x01)) % 256) &&& 0xF6) ||| (0x00 ||| 0x01)) % 256
      &&& 0xF8) ||| ((SPEED_38400 &&& 0x06) ||| 0x01)) % 256

/-- The stores that receiving the line `l` makes through a cursor starting at `p`: the
bytes of the line at `p`, `p + 1`, ... and a null behind them. -/
def lineStores (p : Nat) : List Nat → List (Nat × Nat)
  | [] => [(p, 0)]
  | b :: l => (p, b) :: lineStores (p + 1) l

/-! ## Sample inputs -/

/-- The state of a program before `pBInit`: the zero-initialised globals. -/
def bootState : State :=
  { CNR := 0, IER := 0, txLog := [], statusReads := 0, rxReads := 0, memLog := [],
    pb_cnr_saved := 0, pb_ier_saved := 0, isr_pb := 0, isr_pb_state := 0, rx := 0,
    port_mode := 0, aInItemsQueue := [], pInItemsQueue := 0, pInNext := 0, nInItems := 0,
    aOutItemsQueue := [], pOutItemsQueue := 0, pOutNext := 0, nOutItems := 0 }

/-- Hardware that is always ready in both directions and reports no line error: `TXRDY`
clear, `RXRDY` set, and the receive register delivering the bytes of `line` and zeros
after them. -/
def readyHw (line : List Nat) : Hw :=
  { status := fun _ => RXRDY, rxd := fun n => line.getD n 0 }

/-- The state after `pBInit(0, 0)` from boot, on ready hardware. -/
def freshState : State := (pBInit stdConfig (readyHw []) 0 0 bootState).2

/-- A port in the middle of a transmission: `"ab"` was pushed and its first byte sent. -/
def txBusyState : State :=
  (sendRun stdConfig (readyHw []) 1 (pBPush stdConfig [97, 98] 0 0 freshState).2).2

/-- A port whose only output item `"a"` has been sent up to its terminating null. -/
def atNullState : State :=
  (sendRun stdConfig (readyHw []) 1 (pBPush stdConfig [97] 0 0 freshState).2).2

/-- Three requests of five bytes each; the third is queued after the first has completed
and while the second is pending. -/
def inputScenario : List RxCall :=
  [RxCall.request 100 5, RxCall.request 200 5, RxCall.request 300 5,
   RxCall.receive 0, RxCall.receive 0, RxCall.receive 0]

/-- A queue whose head request has reached the overflow boundary (remaining capacity 1). -/
def overflowHeadState : State :=
  { freshState with
    aInItemsQueue := [{ pItem := 100, nMaxSize := 1 }], pInNext := 1, nInItems := 1 }

/-- A queue whose head request still has room for four bytes and the terminator. -/
def roomyHeadState : State :=
  { freshState with
    aInItemsQueue := [{ pItem := 100, nMaxSize := 5 }], pInNext := 1, nInItems := 1 }

/-- A port in the middle of a reception (one byte of the request taken) with an output
item waiting. -/
def rxBusyState : State :=
  (pBPush stdConfig [120] 0 0 (pBInRequest stdConfig (readyHw [97]) 100 5 freshState).2).2

/-- A port in the middle of a transmission with an input request waiting. -/
def txBusyWithRequest : State :=
  (pBInRequest stdConfig (readyHw []) 100 5 txBusyState).2

/-- The state after `pBInit(1, 1)` from boot: both port interrupts enabled. -/
def irqState : State := (pBInit stdConfig (readyHw []) 1 1 bootState).2

/-- A pending request of size zero whose interrupt has fired: `pBInRequest(0, 0)` was made
with the receive interrupt enabled, then the handler left the trigger flag and the
reason `RXRDY`. -/
def zeroRequestState : State :=
  (rxRun stdConfig (readyHw []) [RxCall.request 0 0, RxCall.irq 1 RXRDY] irqState).2

/-- A request of five bytes waiting for its first interrupt. -/
def waitingRequestState : State :=
  (rxRun stdConfig (readyHw []) [RxCall.request 100 5] irqState).2

/-- Hardware whose transmitter never becomes ready: `TXRDY` (busy) is always set. -/
def busyHw : Hw := { status := fun _ => TXRDY, rxd := fun _ => 0 }

/-- Hardware whose receiver never has a byte: `RXRDY` is always clear. -/
def deafHw : Hw := { status := fun _ => 0, rxd := fun _ => 0 }

/-- Hardware that is ready in both directions and reports a parity error (bit `0x04`). -/
def errorHw : Hw := { status := fun _ => RXRDY ||| 0x04, rxd := fun _ => 97 }

/-- An idle port with `"ab"` queued, transmit interrupt disabled. -/
def queuedState : State := (pBPush stdConfig [97, 98] 0 0 freshState).2

/-- An idle port with `"ab"` queued, both interrupts enabled, no interrupt pending. -/
def irqQueuedState : State := (pBPush stdConfig [97, 98] 0 0 irqState).2

/-- An interrupt-driven transmission of `"ab"` after its first byte, no interrupt
pending. -/
def irqSendingState : State := (pBSend stdConfig (readyHw []) 0 irqQueuedState).2

/-- Hardware whose receiver is silent (and reports no line error) for the first `quiet`
status reads and ready ever after, delivering `bytes` in order. -/
def lineHw (quiet : Nat) (bytes : List Nat) : Hw :=
  { status := fun n => if n < quiet then 0 else RXRDY, rxd := fun n => bytes.getD n 0 }

/-- A pending request whose receive interrupt has fired with a parity error in the
captured reason byte (`RXRDY` and bit `0x04`). -/
def lineErrorState : State :=
  (rxRun stdConfig (readyHw []) [RxCall.request 100 5, RxCall.irq 1 (RXRDY ||| 0x04)]
    irqState).2

/-- A full slot table: ten requests made in interrupt mode with no interrupt pending. -/
def fullQueueState : State :=
  (rxRun stdConfig (readyHw []) (List.replicate 10 (RxCall.request 100 5)) irqState).2

/-- The build without `PB_CLEAN_REGISTER`: the line-setting functions only set bits. -/
def orOnlyConfig : Config := { stdConfig with PB_CLEAN_REGISTER := false }

/-- A boot state whose control register has every bit set (loopback on, speed field
`0x06`). -/
def loopedState : State := { bootState with CNR := 0xFF }

/-! ## Invariants and samples of the later claims -/

/-- The build without `PB_USE_PORT_INTERRUPTS`: `SetIRQStatus` has an empty body. -/
def noIrqConfig : Config := { stdConfig with PB_USE_PORT_INTERRUPTS := false }

/-- Hardware that is always ready and delivers the terminator byte at every read of the
receive register. -/
def terminatorHw : Hw := { status := fun _ => RXRDY, rxd := fun _ => ENTER_CODE }

/-- Two requests, then `k` rounds of: receive interrupt, `pBReceive(0)`, new request. -/
def tailDriftCalls (k : Nat) : List RxCall :=
  [RxCall.request 100 5, RxCall.request 200 5] ++
    (List.replicate k [RxCall.irq 1 RXRDY, RxCall.receive 0, RxCall.request 300 5]).flatten

/-- The shift loop of `_termPortBController` and the null-slot assignment behind it,
`for( i=0; i<nInItems; i++ ) aInItemsQueue[i] = aInItemsQueue[i+1];`
`aInItemsQueue[i] = null_in_item;`, together with the indices it reads and the indices
it writes, in order. -/
def shiftInItemsTraced (a : List TInItem) (n : Nat) : List TInItem × List Nat × List Nat :=
  let r := (List.range n).foldl
    (fun (s : List TInItem × List Nat × List Nat) i =>
      (pokes null_in_item s.1 i [s.1.getD (i + 1) null_in_item], s.2.1 ++ [i + 1],
        s.2.2 ++ [i]))
    (a, [], [])
  (pokes null_in_item r.1 n [null_in_item], r.2.1, r.2.2 ++ [n])

/-- The invariant of the input slot table.  The count of requests is not negative, the
tail cursor is at least the count of slots behind the head cursor, an empty queue has
both cursors together, the shifting policy keeps the head cursor at slot 0; no slot has
a remaining capacity below `-1`, and a remaining capacity below 0 is found only in the
slot of a completed request: in the head slot of an empty queue or (ring policy) outside
the slots between the head and the tail cursor. -/
def CapacityInv (c : Config) (st : State) : Prop :=
  0 ≤ st.nInItems ∧
  (st.pInItemsQueue : Int) + st.nInItems ≤ st.pInNext ∧
  (st.nInItems = 0 → st.pInNext = st.pInItemsQueue) ∧
  (c.PB_RING_QUEUE = false → st.pInItemsQueue = 0) ∧
  (∀ i, -1 ≤ (st.aInItemsQueue.getD i null_in_item).nMaxSize) ∧
  (∀ i, st.pInItemsQueue ≤ i → (c.PB_RING_QUEUE = true → i < st.pInNext) →
    ¬ (i = st.pInItemsQueue ∧ st.nInItems = 0) →
    0 ≤ (st.aInItemsQueue.getD i null_in_item).nMaxSize)

/-- Every cell stored so far and every cursor lie inside the declared arrays
`aInItemsQueue[MAX_INPUT_ITEMS_COUNTER]` and `aOutItemsQueue[OUTPUT_SIZE]`.  A store at or
past the declared size makes the list longer than the array (see `pokes`), and the shift
loop reads index `nInItems` only when the null-slot assignment behind it stores at that
same index.  On states of this kind the lists are the C arrays, and nothing that the C
program keeps next to them has been read or overwritten. -/
def InsideArrays (st : State) : Prop :=
  st.aInItemsQueue.length ≤ MAX_INPUT_ITEMS_COUNTER ∧
  st.pInItemsQueue < MAX_INPUT_ITEMS_COUNTER ∧
  st.pInNext ≤ MAX_INPUT_ITEMS_COUNTER ∧
  st.aOutItemsQueue.length ≤ OUTPUT_SIZE ∧
  st.pOutItemsQueue < OUTPUT_SIZE ∧
  st.pOutNext ≤ OUTPUT_SIZE

/-- A run of receiving-side calls that stays inside the arrays: the state it starts from
and the state after each of its calls are `InsideArrays`. -/
def rxRunInside (c : Config) (hw : Hw) (calls : List RxCall) (st : State) : Prop :=
  ∀ k, k ≤ calls.length → InsideArrays (rxRun c hw (calls.take k) st).2

/-- A run of interface events that stays inside the arrays: the state it starts from and
the state after each of its events are `InsideArrays`. -/
def apiRunInside (c : Config) (hw : Hw) (calls : List ApiCall) (st : State) : Prop :=
  ∀ k, k ≤ calls.length → InsideArrays (apiRun c hw (calls.take k) st)

/-- The build with `PB_NO_EMPTY_REQUEST`: `pBPush` skips an empty item and an item that is
a single `\n`, `\r` or `\t`. -/
def emptyDropConfig : Config := { stdConfig with PB_NO_EMPTY_REQUEST := true }

/-- Ten items of 1022 bytes pushed onto the fresh queue: 10230 of the 10240 bytes of
`aOutItemsQueue` are in use. -/
def nearlyFullState : State :=
  (pushRun stdConfig (List.replicate 10 (List.replicate 1022 65, 0)) freshState).2

theorem lor_zero_left (x : Int) : Int.lor 0 x = x := by
  cases x <;> simp [Int.lor, Nat.ldiff]

theorem pokes_zero_singleton {α : Type} (d v : α) (buf : List α) :
    pokes d buf 0 [v] = v :: buf.drop 1 := by
  simp [pokes]

theorem getD_pokes_self {α : Type} (d d' v : α) (buf : List α) (p : Nat) :
    (pokes d buf p [v]).getD p d' = v := by
  have hl : ((buf ++ List.replicate (p - buf.length) d).take p).length = p := by
    simp [List.length_take]; omega
  unfold pokes
  rw [List.append_assoc, List.getD_eq_getElem?_getD, List.getElem?_append_right (by omega)]
  simp [hl]

theorem strsize_cons_zero (l : List Nat) : strsize (0 :: l) = 0 := by
  simp [strsize, cstr]

theorem isEmptyRequest_false_of_big (s : List Nat) (h : 2 ≤ strsize s) :
    isEmptyRequest s = false := by
  unfold isEmptyRequest
  have h0 : strsize s ≠ 0 := by omega
  have h1 : strsize s ≠ 1 := by omega
  simp [h0, h1]

theorem pBInit_nOutItems (c : Config) (hw : Hw) (a b : Int) (st : State) :
    (pBInit c hw a b st).2.nOutItems = 0 := by
  simp only [pBInit, GetPortErrorMask, readStatus, pBEnableIRQ, SetIRQStatus,
    initOutItemsQueue, initInItemsQueue, initPortBController]
  split_ifs <;> rfl

theorem pBInit_port_mode (c : Config) (hw : Hw) (a b : Int) (st : State) :
    (pBInit c hw a b st).2.port_mode = MODE_NONE := by
  simp only [pBInit, GetPortErrorMask, readStatus, pBEnableIRQ, SetIRQStatus,
    initOutItemsQueue, initInItemsQueue, initPortBController]
  split_ifs <;> rfl

/-! ### Frame of the receive gate -/

theorem rxSpin_frame (hw : Hw) (n : Nat) (st : State) :
    ∃ k, (rxSpin hw n st).2 = { st with statusReads := k } := by
  induction n generalizing st with
  | zero => simp only [rxSpin, readStatus]; split_ifs <;> exact ⟨_, rfl⟩
  | succ n ih =>
    simp only [rxSpin, readStatus]
    split_ifs
    · obtain ⟨k, hk⟩ := ih { st with statusReads := st.statusReads + 1 }
      exact ⟨k, by rw [hk]⟩
    · exact ⟨_, rfl⟩

theorem IsRXPortReady_frame (hw : Hw) (T : Nat) (st : State) :
    ∃ k, (IsRXPortReady hw T st).2 = { st with statusReads := k } := by
  cases T with
  | zero => exact ⟨st.statusReads, rfl⟩
  | succ n => exact rxSpin_frame hw n st

theorem GetPortErrorMask_frame (hw : Hw) (s : Nat) (st : State) :
    ∃ k, (GetPortErrorMask hw s st).2 = { st with statusReads := k } := by
  simp only [GetPortErrorMask, readStatus]
  split_ifs
  · exact ⟨st.statusReads, rfl⟩
  · exact ⟨_, rfl⟩

/-- A receive gate that lets the call through has found a request and a port that is
not transmitting, and has touched nothing but the status read counter and the two
interrupt flags. -/
theorem receiveGate_pass (c : Config) (hw : Hw) (st st1 : State)
    (h : receiveGate c hw st = Gate.pass st1) :
    st.nInItems ≠ 0 ∧ st.port_mode ≠ MODE_TX ∧
    ∃ k f s, st1 = { st with statusReads := k, isr_pb := f, isr_pb_state := s } := by
  by_cases h1 : st.nInItems = 0
  · simp [receiveGate, h1] at h
  by_cases h2 : st.port_mode = MODE_TX
  · simp [receiveGate, h1, h2] at h
  refine ⟨h1, h2, ?_⟩
  by_cases h3 : pBIsIRQEnabled c.PB_EIRC st ≠ 0
  · by_cases h4 : st.isr_pb = 0
    · simp [receiveGate, h1, h2, h3, h4] at h
    · obtain ⟨k1, hk1⟩ := IsRXPortReady_frame hw IRQ_TIMEOUT { st with isr_pb := 0 }
      simp only [receiveGate, if_neg h1, if_neg h2, if_pos h3, if_neg h4] at h
      by_cases h5 : (IsRXPortReady hw IRQ_TIMEOUT { st with isr_pb := 0 }).1 = 0
      · simp [h5] at h
      · simp only [if_neg h5] at h
        by_cases h6 : c.PB_CHECK_ERRORS = true
        · obtain ⟨k2, hk2⟩ := GetPortErrorMask_frame hw
            (IsRXPortReady hw IRQ_TIMEOUT { st with isr_pb := 0 }).2.isr_pb_state
            (IsRXPortReady hw IRQ_TIMEOUT { st with isr_pb := 0 }).2
          simp only [if_pos h6] at h
          split_ifs at h
          simp only [Gate.pass.injEq] at h
          rw [← h, hk2, hk1]
          exact ⟨k2, 0, 0, rfl⟩
        · simp only [if_neg h6] at h
          split_ifs at h
          simp only [Gate.pass.injEq] at h
          rw [← h, hk1]
          exact ⟨k1, 0, 0, rfl⟩
  · obtain ⟨k1, hk1⟩ := IsRXPortReady_frame hw DEFAULT_TIMEOUT st
    simp only [receiveGate, if_neg h1, if_neg h2, if_neg h3] at h
    split_ifs at h
    simp only [Gate.pass.injEq] at h
    rw [← h, hk1]
    exact ⟨k1, st.isr_pb, st.isr_pb_state, rfl⟩

/-- A receive gate that turns the call away has touched nothing but the status read
counter and the trigger flag. -/
theorem receiveGate_leave (c : Config) (hw : Hw) (st st1 : State) (code : Int)
    (h : receiveGate c hw st = Gate.leave code st1) :
    ∃ k f, st1 = { st with statusReads := k, isr_pb := f } := by
  by_cases h1 : st.nInItems = 0
  · simp [receiveGate, h1] at h
    exact ⟨st.statusReads, st.isr_pb, by rw [← h.2]⟩
  by_cases h2 : st.port_mode = MODE_TX
  · simp [receiveGate, h1, h2] at h
    exact ⟨st.statusReads, st.isr_pb, by rw [← h.2]⟩
  by_cases h3 : pBIsIRQEnabled c.PB_EIRC st ≠ 0
  · by_cases h4 : st.isr_pb = 0
    · simp [receiveGate, h1, h2, h3, h4] at h
      exact ⟨st.statusReads, st.isr_pb, by rw [← h.2]⟩
    · obtain ⟨k1, hk1⟩ := IsRXPortReady_frame hw IRQ_TIMEOUT { st with isr_pb := 0 }
      simp only [receiveGate, if_neg h1, if_neg h2, if_pos h3, if_neg h4] at h
      by_cases h5 : (IsRXPortReady hw IRQ_TIMEOUT { st with isr_pb := 0 }).1 = 0
      · simp only [if_pos h5, Gate.leave.injEq] at h
        exact ⟨k1, 0, by rw [← h.2, hk1]⟩
      · simp only [if_neg h5] at h
        by_cases h6 : c.PB_CHECK_ERRORS = true
        · obtain ⟨k2, hk2⟩ := GetPortErrorMask_frame hw
            (IsRXPortReady hw IRQ_TIMEOUT { st with isr_pb := 0 }).2.isr_pb_state
            (IsRXPortReady hw IRQ_TIMEOUT { st with isr_pb := 0 }).2
          simp only [if_pos h6] at h
          split_ifs at h
          simp only [Gate.leave.injEq] at h
          exact ⟨k2, 0, by rw [← h.2, hk2, hk1]⟩
        · simp only [if_neg h6] at h
          split_ifs at h
          · simp only [Gate.leave.injEq] at h
            exact ⟨k1, 0, by rw [← h.2, hk1]⟩
  · obtain ⟨k1, hk1⟩ := IsRXPortReady_frame hw DEFAULT_TIMEOUT st
    simp only [receiveGate, if_neg h1, if_neg h2, if_neg h3] at h
    split_ifs at h
    simp only [Gate.leave.injEq] at h
    exact ⟨k1, st.isr_pb, by rw [← h.2, hk1]⟩

/-! ### The byte step of the receiver -/

theorem termPortBController_rx (c : Config) (st : State) (h : st.port_mode = MODE_RX) :
    termPortBController c st = { termIn c st with port_mode := MODE_NONE } := by
  simp [termPortBController, h, MODE_RX, MODE_TX]

theorem termIn_frame (c : Config) (st : State) :
    ∃ q h t n, termIn c st =
      { st with aInItemsQueue := q, pInItemsQueue := h, pInNext := t, nInItems := n } ∧
      (0 < st.nInItems → n = st.nInItems - 1) := by
  unfold termIn
  by_cases h1 : st.nInItems ≤ 1
  · rw [if_pos h1]
    exact ⟨st.aInItemsQueue, 0, 0, 0, rfl, fun h => by omega⟩
  · rw [if_neg h1]
    split_ifs
    · exact ⟨_, _, _, _, rfl, fun _ => rfl⟩
    · exact ⟨_, _, _, _, rfl, fun _ => rfl⟩
    · exact ⟨_, _, _, _, rfl, fun _ => rfl⟩

/-- The four ways a byte step can go: completion at the overflow boundary, a null byte
(ignored), a terminator byte (completion), any other byte (stored). -/
theorem receiveByte_cases (c : Config) (hw : Hw) (st : State) :
    (headItem st).nMaxSize ≤ 1 ∧
      receiveByte c hw st = (c.PB_OK, termPortBController c { st with
        port_mode := MODE_RX
        aInItemsQueue := pokes null_in_item st.aInItemsQueue st.pInItemsQueue
          [{ pItem := (headItem st).pItem, nMaxSize := (headItem st).nMaxSize - 1 }] }) ∨
    1 < (headItem st).nMaxSize ∧ hw.rxd st.rxReads % 256 = 0 ∧
      receiveByte c hw st = (c.PB_ERR_NONE,
        { st with port_mode := MODE_RX, rxReads := st.rxReads + 1 }) ∨
    1 < (headItem st).nMaxSize ∧ hw.rxd st.rxReads % 256 = ENTER_CODE ∧
      receiveByte c hw st = (c.PB_OK, termPortBController c { st with
        port_mode := MODE_RX
        rxReads := st.rxReads + 1
        memLog := st.memLog ++ [((headItem st).pItem, 0)]
        aInItemsQueue := pokes null_in_item st.aInItemsQueue st.pInItemsQueue
          [{ pItem := (headItem st).pItem, nMaxSize := (headItem st).nMaxSize - 1 }] }) ∨
    1 < (headItem st).nMaxSize ∧ hw.rxd st.rxReads % 256 ≠ 0 ∧
      hw.rxd st.rxReads % 256 ≠ ENTER_CODE ∧
      receiveByte c hw st = (c.PB_ERR_NONE, { st with
        port_mode := MODE_RX
        rxReads := st.rxReads + 1
        memLog := st.memLog ++ [((headItem st).pItem, hw.rxd st.rxReads % 256)]
        aInItemsQueue := pokes null_in_item st.aInItemsQueue st.pInItemsQueue
          [{ pItem := (headItem st).pItem + 1, nMaxSize := (headItem st).nMaxSize - 1 }] }) := by
  have hh : headItem { st with port_mode := MODE_RX } = headItem st := rfl
  by_cases h1 : (headItem st).nMaxSize ≤ 1
  · left
    refine ⟨h1, ?_⟩
    simp [receiveByte, hh, h1, ENTER_CODE]
  · right
    have h1' : 1 < (headItem st).nMaxSize := by omega
    by_cases h2 : hw.rxd st.rxReads % 256 = 0
    · left
      refine ⟨h1', h2, ?_⟩
      simp [receiveByte, hh, h1, readRxd, h2]
    · right
      by_cases h3 : hw.rxd st.rxReads % 256 = ENTER_CODE
      · left
        refine ⟨h1', h3, ?_⟩
        have h3' : hw.rxd st.rxReads % 256 = 13 := h3
        simp [receiveByte, hh, h1, readRxd, h3', ENTER_CODE]
      · right
        refine ⟨h1', h2, h3, ?_⟩
        have h3' : ¬ hw.rxd st.rxReads % 256 = 13 := h3
        simp [receiveByte, hh, h1, readRxd, h2, h3', ENTER_CODE]

/-! ### One request being served -/

theorem getD_mem_or_default {α : Type} (l : List α) (i : Nat) (d : α) :
    l.getD i d ∈ l ∨ l.getD i d = d := by
  rw [List.getD_eq_getElem?_getD]
  cases h : l[i]? with
  | none => right; rfl
  | some x => left; exact List.getElem?_mem h

theorem packed_nil : packed [] = [] := rfl

theorem packed_cons (q : List Nat) (items : List (List Nat)) :
    packed (q :: items) = q ++ 0 :: packed items := by
  simp [packed]

theorem packed_append (xs ys : List (List Nat)) :
    packed (xs ++ ys) = packed xs ++ packed ys := by
  simp [packed]

theorem cstr_of_nonzero (s : List Nat) (h : ∀ b ∈ s, b ≠ 0) : cstr s = s := by
  unfold cstr
  rw [List.takeWhile_eq_self_iff]
  intro b hb
  simpa using h b hb

theorem cstr_nonzero (s : List Nat) : ∀ b ∈ cstr s, b ≠ 0 := by
  intro b hb
  have := List.mem_takeWhile_imp hb
  simpa using this

theorem cstr_append_zero (a t : List Nat) (h : ∀ b ∈ a, b ≠ 0) : cstr (a ++ 0 :: t) = a := by
  induction a with
  | nil => simp [cstr]
  | cons x xs ih =>
    have hx : x ≠ 0 := h x (List.mem_cons_self _ _)
    have := ih (fun b hb => h b (List.mem_cons_of_mem _ hb))
    simp only [cstr] at this ⊢
    simp [List.takeWhile_cons, hx, this]

theorem strsize_append_zero (a t : List Nat) (h : ∀ b ∈ a, b ≠ 0) :
    strsize (a ++ 0 :: t) = a.length := by
  rw [strsize, cstr_append_zero a t h]

theorem pokes_at_end {α : Type} (d : α) (F j v : List α) :
    pokes d (F ++ j) F.length v = F ++ v ++ j.drop v.length := by
  unfold pokes
  have h1 : F.length - (F ++ j).length = 0 := by simp
  rw [h1]
  simp [List.take_append_eq_append_take, List.drop_append_eq_append_drop]

theorem pokes_zero {α : Type} (d : α) (buf v : List α) :
    pokes d buf 0 v = v ++ buf.drop v.length := by
  simp [pokes]

theorem peeks_mid {α : Type} (d : α) (a F j : List α) :
    peeks d (a ++ (F ++ j)) a.length F.length = F := by
  unfold peeks
  have h1 : a.length + F.length - (a ++ (F ++ j)).length = 0 := by simp
  rw [h1]
  simp

theorem getD_append_cons (a t : List Nat) (b : Nat) : (a ++ b :: t).getD a.length 0 = b := by
  rw [List.getD_eq_getElem?_getD, List.getElem?_append_right (le_refl _)]
  simp


theorem IsTXPortReady_ready (hw : Hw) (st : State)
    (h : hw.status st.statusReads % 256 &&& TXRDY = 0) :
    IsTXPortReady hw DEFAULT_TIMEOUT st = (1, { st with statusReads := st.statusReads + 1 }) := by
  have : DEFAULT_TIMEOUT = 999998 + 1 + 1 := rfl
  rw [this]
  simp [IsTXPortReady, txSpin, readStatus, h]

theorem pBSend_byte (c : Config) (hw : Hw) (st : State) (b : Nat)
    (hn : st.nOutItems ≠ 0) (hmode : st.port_mode ≠ MODE_RX)
    (hirq : pBIsIRQEnabled c.PB_EITR st = 0)
    (hb : st.aOutItemsQueue.getD st.pOutItemsQueue 0 = b) (hb0 : b ≠ 0)
    (hready : ∀ n, hw.status n % 256 &&& TXRDY = 0) :
    pBSend c hw 0 st = (c.PB_ERR_NONE,
      { st with port_mode := MODE_TX, isr_pb := 0, statusReads := st.statusReads + 1,
                txLog := st.txLog ++ [b], pOutItemsQueue := st.pOutItemsQueue + 1 }) := by
  have hr := IsTXPortReady_ready hw { st with port_mode := MODE_TX, isr_pb := 0 }
    (hready _)
  simp only [pBSend, if_neg hn, if_neg hmode, hirq, hb, sendByte, if_neg hb0, hr]
  simp [lor_zero_left]

theorem pBSend_flush (c : Config) (hw : Hw) (st : State)
    (hn : st.nOutItems ≠ 0) (hmode : st.port_mode ≠ MODE_RX)
    (hirq : pBIsIRQEnabled c.PB_EITR st = 0)
    (hb : st.aOutItemsQueue.getD st.pOutItemsQueue 0 = 0) :
    pBSend c hw 0 st = (c.PB_OK,
      { termOut c { st with port_mode := MODE_TX, isr_pb := 0 } with port_mode := MODE_NONE }) := by
  simp only [pBSend, if_neg hn, if_neg hmode, hirq, hb, sendByte]
  simp [termPortBController]

theorem sendRun_succ (c : Config) (hw : Hw) (n : Nat) (st : State) :
    sendRun c hw (n + 1) st =
      ((pBSend c hw 0 st).1 :: (sendRun c hw n (pBSend c hw 0 st).2).1,
       (sendRun c hw n (pBSend c hw 0 st).2).2) := rfl


theorem Sending_byte (c : Config) (hw : Hw) (st : State) (b : Nat) (cur : List Nat)
    (rest : List (List Nat)) (h : Sending c (b :: cur) rest st) (hb0 : b ≠ 0)
    (hready : ∀ n, hw.status n % 256 &&& TXRDY = 0) :
    (pBSend c hw 0 st).1 = c.PB_ERR_NONE ∧
    Sending c cur rest (pBSend c hw 0 st).2 ∧
    (pBSend c hw 0 st).2.txLog = st.txLog ++ [b] := by
  obtain ⟨⟨done, junk, hbuf, hhead⟩, hnext, hcount, hmode, hirq⟩ := h
  have hn : st.nOutItems ≠ 0 := by omega
  have hb : st.aOutItemsQueue.getD st.pOutItemsQueue 0 = b := by
    rw [hbuf, hhead]
    exact getD_append_cons done _ b
  rw [pBSend_byte c hw st b hn hmode hirq hb hb0 hready]
  refine ⟨rfl, ⟨⟨done ++ [b], junk, ?_, ?_⟩, ?_, hcount, ?_, hirq⟩, rfl⟩
  · show st.aOutItemsQueue = _
    rw [hbuf]; simp
  · show st.pOutItemsQueue + 1 = _
    rw [hhead]; simp
  · show st.pOutNext = st.pOutItemsQueue + 1 + cur.length + 1 + (packed rest).length
    rw [hnext]; simp only [List.length_cons]; omega
  · show MODE_TX ≠ MODE_RX
    decide

theorem Sending_flush_last (c : Config) (hw : Hw) (st : State) (h : Sending c [] [] st) :
    (pBSend c hw 0 st).1 = c.PB_OK ∧
    (pBSend c hw 0 st).2.nOutItems = 0 ∧
    (pBSend c hw 0 st).2.txLog = st.txLog := by
  obtain ⟨⟨done, junk, hbuf, hhead⟩, hnext, hcount, hmode, hirq⟩ := h
  have hn : st.nOutItems ≠ 0 := by rw [hcount]; simp
  have hb : st.aOutItemsQueue.getD st.pOutItemsQueue 0 = 0 := by
    rw [hbuf, hhead]
    exact getD_append_cons done _ 0
  rw [pBSend_flush c hw st hn hmode hirq hb]
  have h1 : st.nOutItems ≤ 1 := by rw [hcount]; simp
  simp [termOut, h1]

theorem Sending_flush_next (c : Config) (hw : Hw) (st : State) (r : List Nat)
    (rest : List (List Nat)) (h : Sending c [] (r :: rest) st) :
    (pBSend c hw 0 st).1 = c.PB_OK ∧
    Sending c r rest (pBSend c hw 0 st).2 ∧
    (pBSend c hw 0 st).2.txLog = st.txLog := by
  obtain ⟨⟨done, junk, hbuf, hhead⟩, hnext, hcount, hmode, hirq⟩ := h
  have hn : st.nOutItems ≠ 0 := by rw [hcount]; omega
  have hb : st.aOutItemsQueue.getD st.pOutItemsQueue 0 = 0 := by
    rw [hbuf, hhead]
    exact getD_append_cons done _ 0
  rw [pBSend_flush c hw st hn hmode hirq hb]
  have h1 : ¬ st.nOutItems ≤ 1 := by
    rw [hcount]; simp only [List.length_cons]; push_cast; omega
  have hlen : (packed (r :: rest)).length = r.length + 1 + (packed rest).length := by
    rw [packed_cons]; simp; omega
  have h2 : st.pOutNext > st.pOutItemsQueue := by
    rw [hnext]; simp only [List.length_nil]; omega
  simp only [List.nil_append] at hbuf
  by_cases hring : c.PB_RING_QUEUE = true
  · have h3 : ¬ (st.pOutNext = st.pOutItemsQueue + 1) := by
      rw [hnext, hlen]; simp only [List.length_nil]; omega
    simp only [termOut, if_neg h1, if_pos h2, if_pos hring, if_neg h3]
    refine ⟨trivial, ⟨⟨done ++ [0], junk, ?_, ?_⟩, ?_, ?_, ?_, hirq⟩, trivial⟩
    · show st.aOutItemsQueue = _
      rw [hbuf, packed_cons]; simp
    · show st.pOutItemsQueue + 1 = _
      rw [hhead]; simp
    · show st.pOutNext = st.pOutItemsQueue + 1 + r.length + 1 + (packed rest).length
      rw [hnext, hlen]; simp only [List.length_nil]; omega
    · show st.nOutItems - 1 = _
      rw [hcount]; simp only [List.length_cons]; push_cast; omega
    · show MODE_NONE ≠ MODE_RX
      decide
  · have hshift : strshift st.aOutItemsQueue 0 (st.pOutItemsQueue + 1) st.pOutNext =
        packed (r :: rest) ++ st.aOutItemsQueue.drop (packed (r :: rest)).length := by
      have hsub : st.pOutNext - (st.pOutItemsQueue + 1) = (packed (r :: rest)).length := by
        rw [hnext, hlen]; simp only [List.length_nil]; omega
      have hpk : peeks 0 st.aOutItemsQueue (st.pOutItemsQueue + 1)
          (packed (r :: rest)).length = packed (r :: rest) := by
        have e : st.aOutItemsQueue = (done ++ [0]) ++ (packed (r :: rest) ++ junk) := by
          rw [hbuf]; simp
        have e2 : st.pOutItemsQueue + 1 = (done ++ [0]).length := by rw [hhead]; simp
        rw [e2]
        conv_lhs => rw [e]
        exact peeks_mid 0 _ _ _
      unfold strshift
      rw [hsub, hpk, pokes_zero]
    have h3 : ¬ (0 + (st.pOutNext - (st.pOutItemsQueue + 1)) = 0) := by
      rw [hnext, hlen]; simp only [List.length_nil]; omega
    simp only [termOut, if_neg h1, if_pos h2, if_neg hring, if_neg h3, hshift]
    refine ⟨trivial, ⟨⟨[], st.aOutItemsQueue.drop (packed (r :: rest)).length, ?_, rfl⟩,
      ?_, ?_, ?_, hirq⟩, trivial⟩
    · show packed (r :: rest) ++ _ = _
      rw [packed_cons]; simp
    · show 0 + (st.pOutNext - (st.pOutItemsQueue + 1)) = 0 + r.length + 1 + (packed rest).length
      rw [hnext, hlen]; simp only [List.length_nil]; omega
    · show st.nOutItems - 1 = _
      rw [hcount]; simp only [List.length_cons]; push_cast; omega
    · show MODE_NONE ≠ MODE_RX
      decide


theorem callsFor_cons (q : List Nat) (items : List (List Nat)) :
    callsFor (q :: items) = callsFor items + q.length + 1 := by
  simp [callsFor]; omega

theorem codesFor_cons_cons (c : Config) (b : Nat) (q : List Nat) (items : List (List Nat)) :
    codesFor c ((b :: q) :: items) = c.PB_ERR_NONE :: codesFor c (q :: items) := by
  simp [codesFor, List.replicate_succ]

theorem codesFor_nil_cons (c : Config) (items : List (List Nat)) :
    codesFor c ([] :: items) = c.PB_OK :: codesFor c items := by
  simp [codesFor]

/-- One more byte in front of an item that drains. -/
theorem drain_step (c : Config) (hw : Hw)
    (hready : ∀ n, hw.status n % 256 &&& TXRDY = 0) (rest : List (List Nat))
    (b : Nat) (cur : List Nat)
    (ih : ∀ (st : State), Sending c cur rest st → (∀ x ∈ cur, x ≠ 0) →
      (sendRun c hw (callsFor (cur :: rest)) st).1 = codesFor c (cur :: rest) ∧
      (sendRun c hw (callsFor (cur :: rest)) st).2.txLog
        = st.txLog ++ (cur :: rest).flatten ∧
      (sendRun c hw (callsFor (cur :: rest)) st).2.nOutItems = 0)
    (st : State) (hs : Sending c (b :: cur) rest st) (hnz : ∀ x ∈ b :: cur, x ≠ 0) :
    (sendRun c hw (callsFor ((b :: cur) :: rest)) st).1 = codesFor c ((b :: cur) :: rest) ∧
    (sendRun c hw (callsFor ((b :: cur) :: rest)) st).2.txLog
      = st.txLog ++ ((b :: cur) :: rest).flatten ∧
    (sendRun c hw (callsFor ((b :: cur) :: rest)) st).2.nOutItems = 0 := by
  have hb0 : b ≠ 0 := hnz b (List.mem_cons_self _ _)
  obtain ⟨hcode, hs', hlog⟩ := Sending_byte c hw st b cur rest hs hb0 hready
  obtain ⟨i1, i2, i3⟩ := ih _ hs' (fun x hx => hnz x (List.mem_cons_of_mem _ hx))
  have hcalls : callsFor ((b :: cur) :: rest) = callsFor (cur :: rest) + 1 := by
    simp only [callsFor_cons, List.length_cons]; omega
  rw [hcalls, sendRun_succ, codesFor_cons_cons]
  refine ⟨?_, ?_, i3⟩
  · show _ :: _ = _
    rw [hcode, i1]
  · show (sendRun c hw (callsFor (cur :: rest)) (pBSend c hw 0 st).2).2.txLog = _
    rw [i2, hlog]
    simp

/-- Draining the queue in polled mode on a transmitter that is always ready: the items
leave in queue order, each byte once, one `PB_OK` per item. -/
theorem sendRun_drain (c : Config) (hw : Hw)
    (hready : ∀ n, hw.status n % 256 &&& TXRDY = 0) (rest : List (List Nat)) :
    (∀ r ∈ rest, ∀ b ∈ r, b ≠ 0) →
    ∀ (cur : List Nat) (st : State), Sending c cur rest st →
      (∀ b ∈ cur, b ≠ 0) →
      (sendRun c hw (callsFor (cur :: rest)) st).1 = codesFor c (cur :: rest) ∧
      (sendRun c hw (callsFor (cur :: rest)) st).2.txLog
        = st.txLog ++ (cur :: rest).flatten ∧
      (sendRun c hw (callsFor (cur :: rest)) st).2.nOutItems = 0 := by
  induction rest with
  | nil =>
    intro _ cur
    induction cur with
    | nil =>
      intro st hs _
      obtain ⟨h1, h2, h3⟩ := Sending_flush_last c hw st hs
      have hcalls : callsFor [([] : List Nat)] = 0 + 1 := rfl
      rw [hcalls, sendRun_succ, codesFor_nil_cons]
      refine ⟨?_, ?_, ?_⟩
      · show _ :: _ = _
        rw [h1]; rfl
      · show (pBSend c hw 0 st).2.txLog = _
        rw [h3]; simp
      · exact h2
    | cons b cur ih => exact drain_step c hw hready [] b cur ih
  | cons r rest ihr =>
    intro hrest cur
    induction cur with
    | nil =>
      intro st hs _
      obtain ⟨h1, h2, h3⟩ := Sending_flush_next c hw st r rest hs
      obtain ⟨i1, i2, i3⟩ := ihr (fun x hx => hrest x (List.mem_cons_of_mem _ hx)) r _ h2
        (hrest r (List.mem_cons_self _ _))
      have hcalls : callsFor ([] :: r :: rest) = callsFor (r :: rest) + 1 := by
        simp only [callsFor_cons, List.length_nil]
      rw [hcalls, sendRun_succ, codesFor_nil_cons]
      refine ⟨?_, ?_, i3⟩
      · show _ :: _ = _
        rw [h1, i1]
      · show (sendRun c hw (callsFor (r :: rest)) (pBSend c hw 0 st).2).2.txLog = _
        rw [i2, h3]
        simp
    | cons b cur ih => exact drain_step c hw hready (r :: rest) b cur ih


theorem strsize_of_getD_zero (buf : List Nat) (h : buf.getD 0 0 = 0) : strsize buf = 0 := by
  cases buf with
  | nil => rfl
  | cons x t =>
    have : x = 0 := by simpa using h
    rw [this]; exact strsize_cons_zero t

theorem pushedItem_shape (c : Config) (s : List Nat) (nl : Int) (hsz : ∀ b ∈ s, b ≠ 0) :
    (∀ b ∈ pushedItem c s nl, b ≠ 0) ∧ s.length ≤ (pushedItem c s nl).length := by
  unfold pushedItem
  split_ifs
  · unfold stradd
    rw [cstr_of_nonzero s hsz]
    refine ⟨?_, by simp⟩
    intro b hb
    rcases List.mem_append.1 hb with hb | hb
    · exact hsz b hb
    · exact cstr_nonzero _ b hb
  · exact ⟨hsz, le_refl _⟩

theorem Pushed_push (c : Config) (st : State) (items : List (List Nat)) (s : List Nat)
    (nl : Int) (h : Pushed items st) (hitems : ∀ q ∈ items, ∀ b ∈ q, b ≠ 0)
    (hs0 : s ≠ []) (hsz : ∀ b ∈ s, b ≠ 0)
    (hsize : strsize s + SIZE_OFFSET ≤ MAX_OUTPUT_ITEM_SIZE)
    (hreq : c.PB_NO_EMPTY_REQUEST = true → isEmptyRequest s = false)
    (hfit : (packed (items ++ [pushedItem c s nl])).length ≤ OUTPUT_SIZE) :
    (pBPush c s nl 0 st).1 = 1 ∧
    Pushed (items ++ [pushedItem c s nl]) (pBPush c s nl 0 st).2 ∧
    ∃ b p n, (pBPush c s nl 0 st).2 =
      { st with aOutItemsQueue := b, pOutNext := p, nOutItems := n } := by
  obtain ⟨⟨junk, hbuf⟩, hnext, hhead, hcount, hempty⟩ := h
  obtain ⟨hqz, hlen⟩ := pushedItem_shape c s nl hsz
  have hss : strsize s = s.length := by rw [strsize, cstr_of_nonzero s hsz]
  have hpos : 0 < s.length := List.length_pos.2 hs0
  have hfit' : (packed items).length + (pushedItem c s nl).length + 1 ≤ OUTPUT_SIZE := by
    rw [packed_append, packed_cons, packed_nil] at hfit
    simp at hfit; omega
  have hg0 : ¬ (c.PB_NO_EMPTY_REQUEST = true ∧ isEmptyRequest s = true) := by
    rintro ⟨h1, h2⟩
    rw [hreq h1] at h2
    exact Bool.false_ne_true h2
  have hg2 : strsize s + SIZE_OFFSET + strsize st.aOutItemsQueue ≤ OUTPUT_SIZE := by
    cases items with
    | nil =>
      rw [strsize_of_getD_zero _ (hempty rfl)]
      simp only [SIZE_OFFSET, MAX_OUTPUT_ITEM_SIZE, OUTPUT_SIZE] at hsize ⊢
      omega
    | cons q1 tl =>
      have hb2 : st.aOutItemsQueue = q1 ++ 0 :: (packed tl ++ junk) := by
        rw [hbuf, packed_cons]; simp
      rw [hb2, strsize_append_zero q1 _ (hitems q1 (List.mem_cons_self _ _))]
      rw [packed_cons] at hfit'
      simp only [SIZE_OFFSET] at hsize ⊢
      simp at hfit'
      omega
  have hg : ¬ (strsize s + SIZE_OFFSET > MAX_OUTPUT_ITEM_SIZE ∨
      strsize s + SIZE_OFFSET + strsize st.aOutItemsQueue > OUTPUT_SIZE) := by
    rintro (h | h) <;> omega
  have hg3 : strsize s + SIZE_OFFSET > SIZE_OFFSET := by omega
  have hq : cstr (pushedItem c s nl) = pushedItem c s nl := cstr_of_nonzero _ hqz
  have hsq : strsize (pushedItem c s nl) = (pushedItem c s nl).length := by rw [strsize, hq]
  have e : pBPush c s nl 0 st = (1, { st with
      aOutItemsQueue := pokes 0 st.aOutItemsQueue st.pOutNext (pushedItem c s nl ++ [0])
      pOutNext := st.pOutNext + (pushedItem c s nl).length + 1
      nOutItems := st.nOutItems + 1 }) := by
    simp only [pBPush, if_neg hg0, if_neg hg, if_pos hg3, strpush, hq, hsq]
  rw [e]
  refine ⟨rfl, ⟨⟨junk.drop ((pushedItem c s nl).length + 1), ?_⟩, ?_, hhead, ?_, ?_⟩,
    ⟨_, _, _, rfl⟩⟩
  · show pokes 0 st.aOutItemsQueue st.pOutNext _ = _
    rw [hbuf, hnext, pokes_at_end, packed_append, packed_cons, packed_nil]
    simp
  · show st.pOutNext + _ + 1 = _
    rw [hnext, packed_append, packed_cons, packed_nil]
    simp; omega
  · show st.nOutItems + 1 = _
    rw [hcount]; simp
  · intro hnil
    simp at hnil


theorem packed_length_append_le (xs ys : List (List Nat)) :
    (packed xs).length ≤ (packed (xs ++ ys)).length := by
  rw [packed_append]; simp

theorem pushRun_ok (c : Config) (its : List (List Nat × Int)) :
    ∀ (acc : List (List Nat)) (st : State), Pushed acc st →
      (∀ q ∈ acc, ∀ b ∈ q, b ≠ 0) →
      (∀ it ∈ its, it.1 ≠ [] ∧ (∀ b ∈ it.1, b ≠ 0) ∧
        strsize it.1 + SIZE_OFFSET ≤ MAX_OUTPUT_ITEM_SIZE ∧
        (c.PB_NO_EMPTY_REQUEST = true → isEmptyRequest it.1 = false)) →
      (packed (acc ++ queuedItems c its)).length ≤ OUTPUT_SIZE →
      (pushRun c its st).1 = List.replicate its.length 1 ∧
      Pushed (acc ++ queuedItems c its) (pushRun c its st).2 ∧
      (∀ q ∈ acc ++ queuedItems c its, ∀ b ∈ q, b ≠ 0) ∧
      ∃ b p n, (pushRun c its st).2 =
        { st with aOutItemsQueue := b, pOutNext := p, nOutItems := n } := by
  induction its with
  | nil =>
    intro acc st h hacc _ _
    simp only [queuedItems, List.map_nil, List.append_nil]
    exact ⟨rfl, h, hacc, ⟨_, _, _, rfl⟩⟩
  | cons it rest ih =>
    intro acc st h hacc hits hfit
    obtain ⟨hs0, hsz, hsize, hreq⟩ := hits it (List.mem_cons_self _ _)
    have hq : queuedItems c (it :: rest) = pushedItem c it.1 it.2 :: queuedItems c rest := rfl
    have hassoc : acc ++ queuedItems c (it :: rest) =
        (acc ++ [pushedItem c it.1 it.2]) ++ queuedItems c rest := by
      rw [hq]; simp
    have hfit1 : (packed (acc ++ [pushedItem c it.1 it.2])).length ≤ OUTPUT_SIZE := by
      have := packed_length_append_le (acc ++ [pushedItem c it.1 it.2]) (queuedItems c rest)
      rw [← hassoc] at this
      omega
    obtain ⟨p1, p2, b1, n1, m1, p3⟩ :=
      Pushed_push c st acc it.1 it.2 h hacc hs0 hsz hsize hreq hfit1
    have hacc' : ∀ q ∈ acc ++ [pushedItem c it.1 it.2], ∀ b ∈ q, b ≠ 0 := by
      intro q hq' b hb
      rcases List.mem_append.1 hq' with hq' | hq'
      · exact hacc q hq' b hb
      · simp only [List.mem_singleton] at hq'
        subst hq'
        exact (pushedItem_shape c it.1 it.2 hsz).1 b hb
    obtain ⟨i1, i2, i3, b2, n2, m2, i4⟩ := ih (acc ++ [pushedItem c it.1 it.2]) _ p2 hacc'
      (fun x hx => hits x (List.mem_cons_of_mem _ hx)) (by rw [← hassoc]; exact hfit)
    have hrun : pushRun c (it :: rest) st =
        ((pBPush c it.1 it.2 0 st).1 :: (pushRun c rest (pBPush c it.1 it.2 0 st).2).1,
         (pushRun c rest (pBPush c it.1 it.2 0 st).2).2) := rfl
    rw [hrun, hassoc]
    refine ⟨?_, i2, i3, ⟨b2, n2, m2, ?_⟩⟩
    · show _ :: _ = _
      rw [p1, i1]; rfl
    · show (pushRun c rest (pBPush c it.1 it.2 0 st).2).2 = _
      rw [i4, p3]

/-! ## Busy-waits that run out -/

theorem lor_zero_right (x : Int) : Int.lor x 0 = x := by
  cases x <;> simp [Int.lor, Nat.ldiff]

theorem txSpin_busy (hw : Hw) (n : Nat) :
    ∀ (st : State), (∀ i, i ≤ n → hw.status (st.statusReads + i) % 256 &&& TXRDY ≠ 0) →
      txSpin hw n st = (0, { st with statusReads := st.statusReads + (n + 1) }) := by
  induction n with
  | zero =>
    intro st h
    have h0 := h 0 (le_refl _)
    simp only [Nat.add_zero] at h0
    simp [txSpin, readStatus, h0]
  | succ n ih =>
    intro st h
    have h0 := h 0 (Nat.zero_le _)
    simp only [Nat.add_zero] at h0
    have hrest : ∀ i, i ≤ n →
        hw.status (({ st with statusReads := st.statusReads + 1 } : State).statusReads + i)
          % 256 &&& TXRDY ≠ 0 := by
      intro i hi
      have := h (i + 1) (by omega)
      simpa [Nat.add_assoc, Nat.add_comm 1 i] using this
    simp only [txSpin, readStatus, if_pos h0]
    rw [ih _ hrest]
    simp [Nat.add_assoc, Nat.add_comm 1]

theorem rxSpin_deaf (hw : Hw) (n : Nat) :
    ∀ (st : State), (∀ i, i ≤ n → hw.status (st.statusReads + i) % 256 &&& RXRDY = 0) →
      rxSpin hw n st = (0, { st with statusReads := st.statusReads + (n + 1) }) := by
  induction n with
  | zero =>
    intro st h
    have h0 := h 0 (le_refl _)
    simp only [Nat.add_zero] at h0
    simp [rxSpin, readStatus, h0]
  | succ n ih =>
    intro st h
    have h0 := h 0 (Nat.zero_le _)
    simp only [Nat.add_zero] at h0
    have hrest : ∀ i, i ≤ n →
        hw.status (({ st with statusReads := st.statusReads + 1 } : State).statusReads + i)
          % 256 &&& RXRDY = 0 := by
      intro i hi
      have := h (i + 1) (by omega)
      simpa [Nat.add_assoc, Nat.add_comm 1 i] using this
    simp only [rxSpin, readStatus, if_pos h0]
    rw [ih _ hrest]
    simp [Nat.add_assoc, Nat.add_comm 1]

theorem IsTXPortReady_busy (hw : Hw) (st : State)
    (h : ∀ i, i < DEFAULT_TIMEOUT → hw.status (st.statusReads + i) % 256 &&& TXRDY ≠ 0) :
    IsTXPortReady hw DEFAULT_TIMEOUT st =
      (0, { st with statusReads := st.statusReads + DEFAULT_TIMEOUT }) := by
  have e : DEFAULT_TIMEOUT = 999999 + 1 := rfl
  have := txSpin_busy hw 999999 st (fun i hi => h i (by rw [e]; omega))
  rw [e]
  exact this

theorem IsRXPortReady_deaf (hw : Hw) (st : State)
    (h : ∀ i, i < DEFAULT_TIMEOUT → hw.status (st.statusReads + i) % 256 &&& RXRDY = 0) :
    IsRXPortReady hw DEFAULT_TIMEOUT st =
      (0, { st with statusReads := st.statusReads + DEFAULT_TIMEOUT }) := by
  have e : DEFAULT_TIMEOUT = 999999 + 1 := rfl
  have := rxSpin_deaf hw 999999 st (fun i hi => h i (by rw [e]; omega))
  rw [e]
  exact this

/-- A polled `pBReceive` whose receiver stays silent for the whole busy-wait gives up:
it returns `PB_ERR_NONE` and only the status reads are spent. -/
theorem pBReceive_polled_timeout (c : Config) (hw : Hw) (start : Int) (st : State)
    (hirq : pBIsIRQEnabled c.PB_EIRC st = 0) (hn : 0 < st.nInItems)
    (hmode : st.port_mode ≠ MODE_TX)
    (hdeaf : ∀ i, i < DEFAULT_TIMEOUT →
      hw.status (st.statusReads + i) % 256 &&& RXRDY = 0) :
    pBReceive c hw start st =
      (c.PB_ERR_NONE, { st with statusReads := st.statusReads + DEFAULT_TIMEOUT }) := by
  have h0 : st.nInItems ≠ 0 := by omega
  simp [pBReceive, receiveGate, h0, hmode, hirq, IsRXPortReady_deaf hw st hdeaf]

/-! ## What each call can touch -/

theorem foldl_pokes_fill {α : Type} (d : α) (n : Nat) (a : List α) :
    (List.range n).foldl (fun q i => pokes d q i [d]) a = List.replicate n d ++ a.drop n := by
  induction n with
  | zero => simp
  | succ n ih =>
    rw [List.range_succ, List.foldl_append, ih]
    simp only [List.foldl_cons, List.foldl_nil]
    have hlen : (List.replicate n d).length = n := List.length_replicate _ _
    have := pokes_at_end d (List.replicate n d) (a.drop n) [d]
    rw [hlen] at this
    rw [this, List.replicate_succ', List.drop_drop]
    simp [Nat.add_comm]

theorem initInItemsQueue_slots (st : State) :
    (initInItemsQueue st).aInItemsQueue =
      List.replicate MAX_INPUT_ITEMS_COUNTER null_in_item
        ++ st.aInItemsQueue.drop MAX_INPUT_ITEMS_COUNTER := by
  simp only [initInItemsQueue]
  exact foldl_pokes_fill null_in_item MAX_INPUT_ITEMS_COUNTER st.aInItemsQueue

theorem GetPortErrorMask_zero (hw : Hw) (st : State) :
    GetPortErrorMask hw 0 st =
      (((hw.status st.statusReads % 256 &&& TX_ERROR_MASK : Nat) : Int),
        { st with statusReads := st.statusReads + 1 }) := by
  simp [GetPortErrorMask, readStatus]

theorem SetIRQStatus_frame (c : Config) (mode e : Int) (st : State) :
    ∃ ier, SetIRQStatus c mode e st = { st with IER := ier } := by
  unfold SetIRQStatus
  split_ifs
  all_goals exact ⟨_, rfl⟩

theorem pBEnableIRQ_frame (c : Config) (a b : Int) (st : State) :
    ∃ ier, pBEnableIRQ c a b st = { st with IER := ier } := by
  obtain ⟨i1, h1⟩ := SetIRQStatus_frame c c.PB_EIRC a st
  obtain ⟨i2, h2⟩ := SetIRQStatus_frame c c.PB_EITR b (SetIRQStatus c c.PB_EIRC a st)
  unfold pBEnableIRQ
  rw [h2, h1]
  exact ⟨i2, rfl⟩

theorem initPortBController_frame (c : Config) (st : State) :
    initPortBController c st =
      { st with CNR := (initPortBController c st).CNR, pb_cnr_saved := st.CNR,
                port_mode := MODE_NONE } := rfl

/-- What `pBInit` leaves behind, field by field. -/
theorem pBInit_state (c : Config) (hw : Hw) (a b : Int) (st : State) :
    ∃ ier, (pBInit c hw a b st).2 =
      { st with
        CNR := (initPortBController c st).CNR
        IER := ier
        statusReads := st.statusReads + 1
        pb_cnr_saved := st.CNR
        port_mode := MODE_NONE
        aInItemsQueue := List.replicate MAX_INPUT_ITEMS_COUNTER null_in_item
          ++ st.aInItemsQueue.drop MAX_INPUT_ITEMS_COUNTER
        pInItemsQueue := 0
        pInNext := 0
        nInItems := 0
        aOutItemsQueue := 0 :: st.aOutItemsQueue.drop 1
        pOutItemsQueue := 0
        pOutNext := 0
        nOutItems := 0 } := by
  have h1 := initInItemsQueue_slots (initPortBController c st)
  have h2 : (initPortBController c st).aInItemsQueue = st.aInItemsQueue := rfl
  rw [h2] at h1
  obtain ⟨ier, hi⟩ := pBEnableIRQ_frame c a b
    (initOutItemsQueue (initInItemsQueue (initPortBController c st)))
  refine ⟨ier, ?_⟩
  simp only [pBInit, GetPortErrorMask_zero, hi]
  simp only [initOutItemsQueue, pokes_zero_singleton]
  rw [State.mk.injEq]
  refine ⟨rfl, rfl, rfl, rfl, rfl, rfl, rfl, rfl, rfl, rfl, rfl, rfl, h1, rfl, rfl, rfl,
    rfl, rfl, rfl, rfl⟩

theorem and_mask_mod (x m : Nat) (hm : m &&& 255 = m) : x &&& m = x % 256 &&& m := by
  have h : x % 256 = x &&& 255 := by
    have := Nat.and_pow_two_sub_one_eq_mod x 8
    simpa using this.symm
  rw [h, Nat.and_assoc]
  have : 255 &&& m = m := by rw [Nat.and_comm]; exact hm
  rw [this]

set_option maxRecDepth 100000 in
theorem cnrDefaults_bits : ∀ x, x < 256 →
    cnrDefaults x &&& 0x10 = 0x10 ∧ cnrDefaults x &&& 0x08 = 0 ∧
    cnrDefaults x &&& 0x06 = SPEED_38400 ∧ cnrDefaults x &&& 0x01 = 0x01 := by
  decide

theorem initPortBController_CNR (c : Config) (st : State) (h : c.PB_CLEAN_REGISTER = true) :
    (initPortBController c st).CNR = cnrDefaults (st.CNR % 256) := by
  simp only [initPortBController, SetPortSpeed, SetPortLoop, SetPortParity, h, if_true,
    cnrDefaults]
  rw [and_mask_mod st.CNR 0xEE (by decide)]
  simp

/-! ## Polled reception, byte by byte -/

theorem getD_pokes_other {α : Type} (d v : α) (buf : List α) (p i : Nat) (h : i ≠ p) :
    (pokes d buf p [v]).getD i d = buf.getD i d := by
  have hl : ((buf ++ List.replicate (p - buf.length) d).take p).length = p := by
    simp [List.length_take]; omega
  unfold pokes
  rw [List.append_assoc]
  rcases Nat.lt_or_gt_of_ne h with hlt | hgt
  · rw [List.getD_eq_getElem?_getD, List.getElem?_append_left (by omega),
      List.getElem?_take_of_lt hlt]
    by_cases hb : i < buf.length
    · rw [List.getElem?_append_left hb, ← List.getD_eq_getElem?_getD]
    · have hge : buf.length ≤ i := Nat.le_of_not_lt hb
      rw [List.getElem?_append_right hge, List.getD_eq_default _ _ hge,
        List.getElem?_replicate]
      split_ifs <;> rfl
  · rw [List.getD_eq_getElem?_getD, List.getElem?_append_right (by omega), hl]
    have : i - p = (i - p - 1) + 1 := by omega
    rw [this]
    simp only [List.singleton_append, List.getElem?_cons_succ, List.length_singleton,
      List.getElem?_drop]
    rw [List.getD_eq_getElem?_getD]
    congr 2
    omega

theorem IsRXPortReady_ready (hw : Hw) (st : State)
    (h : hw.status st.statusReads % 256 &&& RXRDY ≠ 0) :
    IsRXPortReady hw DEFAULT_TIMEOUT st = (1, { st with statusReads := st.statusReads + 1 }) := by
  have : DEFAULT_TIMEOUT = 999998 + 1 + 1 := rfl
  rw [this]
  simp [IsRXPortReady, rxSpin, readStatus, h]

/-- A polled `pBReceive` whose receiver is ready at the first poll goes on to the byte
step. -/
theorem receiveGate_polled_ready (c : Config) (hw : Hw) (st : State)
    (hn : st.nInItems ≠ 0) (hmode : st.port_mode ≠ MODE_TX)
    (hirq : pBIsIRQEnabled c.PB_EIRC st = 0)
    (hready : hw.status st.statusReads % 256 &&& RXRDY ≠ 0) :
    receiveGate c hw st = Gate.pass { st with statusReads := st.statusReads + 1 } := by
  simp [receiveGate, hn, hmode, hirq, IsRXPortReady_ready hw st hready]

theorem pBReceive_store (c : Config) (hw : Hw) (start : Int) (st : State) (p : Nat)
    (m : Int) (b : Nat)
    (hn : st.nInItems ≠ 0) (hmode : st.port_mode ≠ MODE_TX)
    (hirq : pBIsIRQEnabled c.PB_EIRC st = 0)
    (hready : hw.status st.statusReads % 256 &&& RXRDY ≠ 0)
    (hhead : headItem st = { pItem := p, nMaxSize := m }) (hroom : 1 < m)
    (hb : hw.rxd st.rxReads % 256 = b) (hb0 : b ≠ 0) (hbe : b ≠ ENTER_CODE) :
    pBReceive c hw start st = (c.PB_ERR_NONE, { st with
      port_mode := MODE_RX
      statusReads := st.statusReads + 1
      rxReads := st.rxReads + 1
      memLog := st.memLog ++ [(p, b)]
      aInItemsQueue := pokes null_in_item st.aInItemsQueue st.pInItemsQueue
        [{ pItem := p + 1, nMaxSize := m - 1 }] }) := by
  have hg := receiveGate_polled_ready c hw st hn hmode hirq hready
  have hh : headItem { st with statusReads := st.statusReads + 1 } = ⟨p, m⟩ := hhead
  simp only [pBReceive, hg]
  rcases receiveByte_cases c hw { st with statusReads := st.statusReads + 1 } with
    ⟨h, _⟩ | ⟨_, h, _⟩ | ⟨_, h, _⟩ | ⟨_, _, _, h⟩
  · rw [hh] at h; simp only at h; omega
  · exact absurd (h.symm.trans hb).symm hb0
  · exact absurd (h.symm.trans hb).symm hbe
  · rw [h, hh]
    simp only [hb]

theorem pBReceive_terminator (c : Config) (hw : Hw) (start : Int) (st : State) (p : Nat)
    (m : Int)
    (hn : st.nInItems ≠ 0) (hmode : st.port_mode ≠ MODE_TX)
    (hirq : pBIsIRQEnabled c.PB_EIRC st = 0)
    (hready : hw.status st.statusReads % 256 &&& RXRDY ≠ 0)
    (hhead : headItem st = { pItem := p, nMaxSize := m }) (hroom : 1 < m)
    (hb : hw.rxd st.rxReads % 256 = ENTER_CODE) :
    pBReceive c hw start st = (c.PB_OK, termPortBController c { st with
      port_mode := MODE_RX
      statusReads := st.statusReads + 1
      rxReads := st.rxReads + 1
      memLog := st.memLog ++ [(p, 0)]
      aInItemsQueue := pokes null_in_item st.aInItemsQueue st.pInItemsQueue
        [{ pItem := p, nMaxSize := m - 1 }] }) := by
  have hg := receiveGate_polled_ready c hw st hn hmode hirq hready
  have hh : headItem { st with statusReads := st.statusReads + 1 } = ⟨p, m⟩ := hhead
  simp only [pBReceive, hg]
  rcases receiveByte_cases c hw { st with statusReads := st.statusReads + 1 } with
    ⟨h, _⟩ | ⟨_, h, _⟩ | ⟨_, _, h⟩ | ⟨_, _, h, _⟩
  · rw [hh] at h; simp only at h; omega
  · rw [show hw.rxd st.rxReads % 256 = ENTER_CODE from hb] at h
    exact absurd h (by decide)
  · rw [h, hh]
  · exact absurd hb h

theorem pokes_pokes_same {α : Type} (d : α) (buf : List α) (p : Nat) (x y : α) :
    pokes d (pokes d buf p [x]) p [y] = pokes d buf p [y] := by
  have hl : ((buf ++ List.replicate (p - buf.length) d).take p).length = p := by
    simp [List.length_take]; omega
  have e : pokes d buf p [x] =
      (buf ++ List.replicate (p - buf.length) d).take p ++ ([x] ++ buf.drop (p + 1)) := by
    simp [pokes]
  have e2 := pokes_at_end d ((buf ++ List.replicate (p - buf.length) d).take p)
    ([x] ++ buf.drop (p + 1)) [y]
  rw [hl] at e2
  rw [e, e2]
  simp [pokes]

/-! ## Two queued requests, two lines -/

theorem rx_serve_line (c : Config) (hw : Hw) : ∀ (l : List Nat) (p : Nat) (m : Int)
    (st : State), st.nInItems ≠ 0 → st.port_mode ≠ MODE_TX →
    pBIsIRQEnabled c.PB_EIRC st = 0 →
    (∀ i, i ≤ l.length → hw.status (st.statusReads + i) % 256 &&& RXRDY ≠ 0) →
    headItem st = { pItem := p, nMaxSize := m } → (l.length : Int) + 2 ≤ m →
    (∀ b, b ∈ l → b ≠ 0 ∧ b ≠ ENTER_CODE) →
    (∀ i, i ≤ l.length → hw.rxd (st.rxReads + i) % 256 = (l ++ [ENTER_CODE]).getD i 0) →
    rxRun c hw (List.replicate (l.length + 1) (RxCall.receive 0)) st =
      (List.replicate l.length c.PB_ERR_NONE ++ [c.PB_OK],
       termPortBController c { st with
         port_mode := MODE_RX
         statusReads := st.statusReads + (l.length + 1)
         rxReads := st.rxReads + (l.length + 1)
         memLog := st.memLog ++ lineStores p l
         aInItemsQueue := pokes null_in_item st.aInItemsQueue st.pInItemsQueue
           [{ pItem := p + l.length, nMaxSize := m - l.length - 1 }] }) := by
  intro l
  induction l with
  | nil =>
    intro p m st hn hmode hirq hst hhead hroom _ hrx
    have h1 := pBReceive_terminator c hw 0 st p m hn hmode hirq (hst 0 (Nat.le_refl _))
      hhead (by simp at hroom; omega) (hrx 0 (Nat.le_refl _))
    simp only [List.length_nil, List.replicate, rxRun, h1, lineStores]
    simp
  | cons b l ih =>
    intro p m st hn hmode hirq hst hhead hroom hl hrx
    have hlen : (b :: l).length = l.length + 1 := rfl
    have hb := hl b (List.mem_cons_self _ _)
    have h1 := pBReceive_store c hw 0 st p m b hn hmode hirq (hst 0 (Nat.zero_le _))
      hhead (by rw [hlen] at hroom; push_cast at hroom; omega)
      (by have := hrx 0 (Nat.zero_le _); simpa using this) hb.1 hb.2
    have h2 := ih (p + 1) (m - 1) { st with
      port_mode := MODE_RX
      statusReads := st.statusReads + 1
      rxReads := st.rxReads + 1
      memLog := st.memLog ++ [(p, b)]
      aInItemsQueue := pokes null_in_item st.aInItemsQueue st.pInItemsQueue
        [{ pItem := p + 1, nMaxSize := m - 1 }] } hn (by show MODE_RX ≠ MODE_TX; decide) hirq
      (fun i hi => by
        have := hst (i + 1) (by rw [hlen]; omega)
        rw [show st.statusReads + 1 + i = st.statusReads + (i + 1) by omega]
        exact this)
      (getD_pokes_self _ _ _ _ _)
      (by rw [hlen] at hroom; push_cast at hroom; omega)
      (fun x hx => hl x (List.mem_cons_of_mem _ hx))
      (fun i hi => by
        have := hrx (i + 1) (by rw [hlen]; omega)
        rw [show st.rxReads + 1 + i = st.rxReads + (i + 1) by omega]
        simpa using this)
    rw [hlen, List.replicate_succ, rxRun]
    simp only [h1]
    rw [h2]
    simp only [pokes_pokes_same, lineStores, List.replicate_succ, List.cons_append,
      List.append_assoc, List.singleton_append]
    have e1 : st.statusReads + 1 + (l.length + 1) = st.statusReads + (l.length + 1 + 1) := by
      omega
    have e2 : st.rxReads + 1 + (l.length + 1) = st.rxReads + (l.length + 1 + 1) := by omega
    have e3 : p + 1 + l.length = p + (l.length + 1) := by omega
    have e4 : m - 1 - (l.length : Int) - 1 = m - ((l.length + 1 : Nat) : Int) - 1 := by
      push_cast; omega
    rw [e1, e2, e3, e4]
    simp only [List.nil_append]

theorem rxRun_append (c : Config) (hw : Hw) : ∀ (xs ys : List RxCall) (st : State),
    rxRun c hw (xs ++ ys) st =
      ((rxRun c hw xs st).1 ++ (rxRun c hw ys (rxRun c hw xs st).2).1,
       (rxRun c hw ys (rxRun c hw xs st).2).2) := by
  intro xs
  induction xs with
  | nil => intro ys st; simp [rxRun]
  | cons x xs ih =>
    intro ys st
    cases x with
    | request s n => simp only [List.cons_append, rxRun, List.append_eq, ih]
    | receive s => simp only [List.cons_append, rxRun, List.append_eq, ih]
    | irq f r => simp only [List.cons_append, rxRun, List.append_eq, ih]

/-- A request made while the polled receiver stays silent is queued and returns
`PB_ERR_NONE`: one status read for the line check, then a busy-wait that runs out. -/
theorem pBInRequest_queued (c : Config) (hw : Hw) (buf : Nat) (n : Int) (st : State)
    (hbuf : buf ≠ 0) (hfree : st.nInItems < MAX_INPUT_ITEMS_COUNTER) (hn : 0 ≤ st.nInItems)
    (hmode : st.port_mode ≠ MODE_TX) (hirq : pBIsIRQEnabled c.PB_EIRC st = 0)
    (hline : hw.status st.statusReads % 256 &&& TX_ERROR_MASK = 0)
    (hdeaf : ∀ i, i < DEFAULT_TIMEOUT →
      hw.status (st.statusReads + 1 + i) % 256 &&& RXRDY = 0) :
    pBInRequest c hw buf n st = (c.PB_ERR_NONE, { st with
      statusReads := st.statusReads + 1 + DEFAULT_TIMEOUT
      aInItemsQueue := pokes null_in_item st.aInItemsQueue st.pInNext
        [{ pItem := buf, nMaxSize := if n > 0 then n else 0 }]
      pInNext := st.pInNext + 1
      nInItems := st.nInItems + 1 }) := by
  have h1 := pBReceive_polled_timeout c hw 1 { st with
      statusReads := st.statusReads + 1
      aInItemsQueue := pokes null_in_item st.aInItemsQueue st.pInNext
        [{ pItem := buf, nMaxSize := if n > 0 then n else 0 }]
      pInNext := st.pInNext + 1
      nInItems := st.nInItems + 1 } hirq (by show 0 < st.nInItems + 1; omega) hmode hdeaf
  have hfull : ¬ (st.nInItems ≥ (MAX_INPUT_ITEMS_COUNTER : Int)) := by omega
  simp only [pBInRequest, GetPortErrorMask_zero, hline]
  simp only [hbuf, false_and, if_false, Nat.cast_zero, ne_eq, not_true_eq_false, hfull, h1,
    ite_self]

theorem memAt_append (old new : List (Nat × Nat)) (a : Nat) :
    memAt (old ++ new) a = (memAt new a).or (memAt old a) := by
  unfold memAt
  rw [List.reverse_append, List.find?_append]
  cases List.find? (fun w => decide (w.1 = a)) new.reverse <;> simp

theorem memAt_lineStores_none : ∀ (l : List Nat) (p a : Nat),
    a < p ∨ p + l.length < a → memAt (lineStores p l) a = none := by
  intro l
  induction l with
  | nil =>
    intro p a h
    have : ¬ p = a := by simp at h; omega
    simp [lineStores, memAt, this]
  | cons b l ih =>
    intro p a h
    have h1 : ¬ p = a := by simp at h; omega
    have h2 := ih (p + 1) a (by simp at h; omega)
    have e : lineStores p (b :: l) = [(p, b)] ++ lineStores (p + 1) l := rfl
    rw [e, memAt_append, h2]
    simp [memAt, h1]

theorem memAt_lineStores : ∀ (l : List Nat) (p i : Nat), i ≤ l.length →
    memAt (lineStores p l) (p + i) = some ((l ++ [0]).getD i 0) := by
  intro l
  induction l with
  | nil =>
    intro p i h
    have : i = 0 := by simpa using h
    subst this
    simp [lineStores, memAt]
  | cons b l ih =>
    intro p i h
    have e : lineStores p (b :: l) = [(p, b)] ++ lineStores (p + 1) l := rfl
    rw [e, memAt_append]
    cases i with
    | zero =>
      rw [memAt_lineStores_none l (p + 1) (p + 0) (Or.inl (by omega))]
      simp [memAt]
    | succ i =>
      have := ih (p + 1) i (by simpa using h)
      rw [show p + (i + 1) = p + 1 + i by omega, this]
      simp

theorem shiftInItems_two_head (a : List TInItem) :
    (pokes null_in_item (shiftInItems a 2) 2 [null_in_item]).getD 0 null_in_item
      = a.getD 1 null_in_item := by
  have e : shiftInItems a 2 =
      pokes null_in_item (pokes null_in_item a 0 [a.getD 1 null_in_item]) 1
        [(pokes null_in_item a 0 [a.getD 1 null_in_item]).getD 2 null_in_item] := rfl
  rw [e, getD_pokes_other _ _ _ 2 0 (by decide), getD_pokes_other _ _ _ 1 0 (by decide),
    getD_pokes_self]

/-- Completing the first of two queued requests leaves the second one at the head, under
either queue policy. -/
theorem termPortBController_rx_next (c : Config) (X : State) (hm : X.port_mode = MODE_RX)
    (hn : X.nInItems = 2) (ht : X.pInNext = 2) (hh : X.pInItemsQueue = 0) :
    ∃ A q, termPortBController c X = { X with
        port_mode := MODE_NONE
        aInItemsQueue := A
        pInItemsQueue := q
        nInItems := 1 } ∧
      A.getD q null_in_item = X.aInItemsQueue.getD 1 null_in_item := by
  have h1 : ¬ X.nInItems ≤ 1 := by omega
  have h2 : X.pInNext > X.pInItemsQueue := by omega
  have h3 : X.port_mode ≠ MODE_TX := by rw [hm]; decide
  cases hr : c.PB_RING_QUEUE
  · refine ⟨pokes null_in_item (shiftInItems X.aInItemsQueue 2) 2 [null_in_item], 0, ?_,
      shiftInItems_two_head _⟩
    simp [termPortBController, termIn, hm, h1, h2, hr, hn, MODE_RX, MODE_TX]
  · refine ⟨X.aInItemsQueue, 1, ?_, rfl⟩
    simp [termPortBController, termIn, hm, h1, hr, hn, hh, ht, MODE_RX, MODE_TX]

/-- Completing the only queued request empties the queue and resets both cursors. -/
theorem termPortBController_rx_only (c : Config) (X : State) (hm : X.port_mode = MODE_RX)
    (hn : X.nInItems = 1) :
    termPortBController c X = { X with
      port_mode := MODE_NONE
      pInItemsQueue := 0
      pInNext := 0
      nInItems := 0 } := by
  simp [termPortBController, termIn, hm, hn, MODE_RX, MODE_TX]

/-- Two requests at the head of the queue, served by polled `pBReceive(0)` calls while
the lines `l1` and `l2`, each followed by the terminator, arrive one byte per call. -/
theorem rxRun_two_lines (c : Config) (hw : Hw) (buf1 buf2 : Nat) (m1 m2 : Int)
    (l1 l2 : List Nat) (s : State)
    (hn : s.nInItems = 2) (ht : s.pInNext = 2) (hh : s.pInItemsQueue = 0)
    (hmode : s.port_mode ≠ MODE_TX) (hirq : pBIsIRQEnabled c.PB_EIRC s = 0)
    (hhead : headItem s = { pItem := buf1, nMaxSize := m1 })
    (hnext : s.aInItemsQueue.getD 1 null_in_item = { pItem := buf2, nMaxSize := m2 })
    (hl1 : ∀ b, b ∈ l1 → b ≠ 0 ∧ b ≠ ENTER_CODE)
    (hl2 : ∀ b, b ∈ l2 → b ≠ 0 ∧ b ≠ ENTER_CODE)
    (hm1 : (l1.length : Int) + 2 ≤ m1) (hm2 : (l2.length : Int) + 2 ≤ m2)
    (hready : ∀ i, i < l1.length + 1 + (l2.length + 1) →
      hw.status (s.statusReads + i) % 256 &&& RXRDY ≠ 0)
    (hrx : ∀ i, i < l1.length + 1 + (l2.length + 1) →
      hw.rxd (s.rxReads + i) % 256 = (l1 ++ [ENTER_CODE] ++ (l2 ++ [ENTER_CODE])).getD i 0) :
    ∃ F, rxRun c hw (List.replicate (l1.length + 1 + (l2.length + 1)) (RxCall.receive 0)) s =
        (List.replicate l1.length c.PB_ERR_NONE ++ [c.PB_OK] ++
          (List.replicate l2.length c.PB_ERR_NONE ++ [c.PB_OK]), F) ∧
      F.memLog = s.memLog ++ lineStores buf1 l1 ++ lineStores buf2 l2 ∧
      F.nInItems = 0 ∧ F.pInNext = 0 ∧ F.pInItemsQueue = 0 ∧ F.port_mode = MODE_NONE := by
  have hlen1 : (l1 ++ [ENTER_CODE]).length = l1.length + 1 := by simp
  have hserve1 := rx_serve_line c hw l1 buf1 m1 s (by rw [hn]; decide) hmode hirq
    (fun i hi => hready i (by omega)) hhead hm1 hl1
    (fun i hi => by
      rw [hrx i (by omega), List.getD_append _ _ _ _ (by rw [hlen1]; omega)])
  obtain ⟨A, q, hY, hA⟩ := termPortBController_rx_next c { s with
      port_mode := MODE_RX
      statusReads := s.statusReads + (l1.length + 1)
      rxReads := s.rxReads + (l1.length + 1)
      memLog := s.memLog ++ lineStores buf1 l1
      aInItemsQueue := pokes null_in_item s.aInItemsQueue s.pInItemsQueue
        [{ pItem := buf1 + l1.length, nMaxSize := m1 - l1.length - 1 }] } rfl hn ht hh
  rw [hY] at hserve1
  have hA2 : A.getD q null_in_item = { pItem := buf2, nMaxSize := m2 } := by
    rw [hA, ← hnext]
    show (pokes null_in_item s.aInItemsQueue s.pInItemsQueue _).getD 1 null_in_item = _
    rw [hh]
    exact getD_pokes_other _ _ _ 0 1 (by decide)
  have hserve2 := rx_serve_line c hw l2 buf2 m2 { s with
      port_mode := MODE_NONE
      statusReads := s.statusReads + (l1.length + 1)
      rxReads := s.rxReads + (l1.length + 1)
      memLog := s.memLog ++ lineStores buf1 l1
      aInItemsQueue := A
      pInItemsQueue := q
      nInItems := 1 } (by show (1 : Int) ≠ 0; decide) (by show MODE_NONE ≠ MODE_TX; decide)
    hirq
    (fun i hi => by
      have := hready (l1.length + 1 + i) (by omega)
      rw [← Nat.add_assoc] at this
      exact this)
    hA2 hm2 hl2
    (fun i hi => by
      have := hrx (l1.length + 1 + i) (by omega)
      rw [← Nat.add_assoc] at this
      rw [show s.rxReads + (l1.length + 1) + i = s.rxReads + (l1.length + 1) + i from rfl]
      rw [this, List.getD_append_right _ _ _ _ (by rw [hlen1]; omega), hlen1]
      congr 1
      omega)
  rw [termPortBController_rx_only c _ rfl rfl] at hserve2
  have hrun := rxRun_append c hw (List.replicate (l1.length + 1) (RxCall.receive 0))
    (List.replicate (l2.length + 1) (RxCall.receive 0)) s
  rw [hserve1] at hrun
  simp only [] at hrun
  rw [hserve2, ← List.replicate_add] at hrun
  exact ⟨_, hrun, rfl, rfl, rfl, rfl, rfl⟩

/-! ## Interrupt suspension and busy-waits -/

theorem restore_save_IER (st : State) :
    (saveIERState st).IER = 0 ∧
    (saveIERState st).pb_ier_saved = st.IER ∧
    restoreIERState (saveIERState st) = { st with pb_ier_saved := st.IER } := by
  by_cases h : st.IER = 0
  · simp [saveIERState, restoreIERState, h]
  · have h2 : ¬ (0 = st.IER) := fun e => h e.symm
    simp [saveIERState, restoreIERState, h, h2]

theorem pBPrintf_eq (st : State) : pBPrintf st = { st with pb_ier_saved := st.IER } :=
  (restore_save_IER st).2.2

theorem pBGetchar_eq (ch : Nat) (st : State) :
    pBGetchar ch st = (ch % 256, { st with pb_ier_saved := st.IER, rx := ch % 256 }) := by
  by_cases h : st.IER = 0
  · simp [saveIERState, restoreIERState, pBGetchar, h]
  · have h2 : ¬ (0 = st.IER) := fun e => h e.symm
    simp [saveIERState, restoreIERState, pBGetchar, h, h2]

/-- What the busy-wait of `IsTXPortReady` does, entered with `Timeout = n + 1`: it reads
the status register `k` times, `1 ≤ k ≤ n + 1`, every read but the last shows the
transmitter busy, and it answers 0 when all `n + 1` reads were busy and 1 at the first
read that is not. -/
theorem txSpin_spec (hw : Hw) (n : Nat) : ∀ (st : State),
    ∃ k, 1 ≤ k ∧ k ≤ n + 1 ∧
      (txSpin hw n st).2 = { st with statusReads := st.statusReads + k } ∧
      (∀ i, i + 1 < k → hw.status (st.statusReads + i) % 256 &&& TXRDY ≠ 0) ∧
      (((txSpin hw n st).1 = 0 ∧ k = n + 1 ∧
          hw.status (st.statusReads + n) % 256 &&& TXRDY ≠ 0) ∨
       ((txSpin hw n st).1 = 1 ∧
          hw.status (st.statusReads + (k - 1)) % 256 &&& TXRDY = 0)) := by
  induction n with
  | zero =>
    intro st
    refine ⟨1, le_refl _, le_refl _, ?_, fun i hi => by omega, ?_⟩
    · simp only [txSpin, readStatus]; split_ifs <;> rfl
    · by_cases h : hw.status st.statusReads % 256 &&& TXRDY ≠ 0
      · left; simp [txSpin, readStatus, h]
      · right
        have h2 : hw.status st.statusReads % 256 &&& TXRDY = 0 := by simpa using h
        simp [txSpin, readStatus, h2]
  | succ n ih =>
    intro st
    by_cases h : hw.status st.statusReads % 256 &&& TXRDY ≠ 0
    · obtain ⟨k, hk1, hk2, hst, hbusy, hres⟩ := ih { st with statusReads := st.statusReads + 1 }
      have e : txSpin hw (n + 1) st = txSpin hw n { st with statusReads := st.statusReads + 1 } := by
        simp only [txSpin, readStatus, if_pos h]
      refine ⟨k + 1, by omega, by omega, ?_, ?_, ?_⟩
      · rw [e, hst]
        show ({ st with statusReads := st.statusReads + 1 + k } : State) = _
        rw [Nat.add_assoc, Nat.add_comm 1 k]
      · intro i hi
        cases i with
        | zero => exact h
        | succ i =>
          have := hbusy i (by omega)
          rw [show st.statusReads + (i + 1) = st.statusReads + 1 + i by omega]
          exact this
      · rw [e]
        rcases hres with ⟨h0, hk, hb⟩ | ⟨h1, hb⟩
        · left
          refine ⟨h0, by omega, ?_⟩
          rw [show st.statusReads + (n + 1) = st.statusReads + 1 + n by omega]
          exact hb
        · right
          refine ⟨h1, ?_⟩
          rw [show st.statusReads + (k + 1 - 1) = st.statusReads + 1 + (k - 1) by omega]
          exact hb
    · have h2 : hw.status st.statusReads % 256 &&& TXRDY = 0 := by simpa using h
      refine ⟨1, le_refl _, by omega, ?_, fun i hi => by omega, Or.inr ⟨?_, h2⟩⟩
      · simp [txSpin, readStatus, h2]
      · simp [txSpin, readStatus, h2]

theorem rxSpin_spec (hw : Hw) (n : Nat) : ∀ (st : State),
    ∃ k, 1 ≤ k ∧ k ≤ n + 1 ∧
      (rxSpin hw n st).2 = { st with statusReads := st.statusReads + k } ∧
      (∀ i, i + 1 < k → hw.status (st.statusReads + i) % 256 &&& RXRDY = 0) ∧
      (((rxSpin hw n st).1 = 0 ∧ k = n + 1 ∧
          hw.status (st.statusReads + n) % 256 &&& RXRDY = 0) ∨
       ((rxSpin hw n st).1 = 1 ∧
          hw.status (st.statusReads + (k - 1)) % 256 &&& RXRDY ≠ 0)) := by
  induction n with
  | zero =>
    intro st
    refine ⟨1, le_refl _, le_refl _, ?_, fun i hi => by omega, ?_⟩
    · simp only [rxSpin, readStatus]; split_ifs <;> rfl
    · by_cases h : hw.status st.statusReads % 256 &&& RXRDY = 0
      · left; simp [rxSpin, readStatus, h]
      · right; simp [rxSpin, readStatus, h]
  | succ n ih =>
    intro st
    by_cases h : hw.status st.statusReads % 256 &&& RXRDY = 0
    · obtain ⟨k, hk1, hk2, hst, hbusy, hres⟩ := ih { st with statusReads := st.statusReads + 1 }
      have e : rxSpin hw (n + 1) st = rxSpin hw n { st with statusReads := st.statusReads + 1 } := by
        simp only [rxSpin, readStatus, if_pos h]
      refine ⟨k + 1, by omega, by omega, ?_, ?_, ?_⟩
      · rw [e, hst]
        show ({ st with statusReads := st.statusReads + 1 + k } : State) = _
        rw [Nat.add_assoc, Nat.add_comm 1 k]
      · intro i hi
        cases i with
        | zero => exact h
        | succ i =>
          have := hbusy i (by omega)
          rw [show st.statusReads + (i + 1) = st.statusReads + 1 + i by omega]
          exact this
      · rw [e]
        rcases hres with ⟨h0, hk, hb⟩ | ⟨h1, hb⟩
        · left
          refine ⟨h0, by omega, ?_⟩
          rw [show st.statusReads + (n + 1) = st.statusReads + 1 + n by omega]
          exact hb
        · right
          refine ⟨h1, ?_⟩
          rw [show st.statusReads + (k + 1 - 1) = st.statusReads + 1 + (k - 1) by omega]
          exact hb
    · refine ⟨1, le_refl _, by omega, ?_, fun i hi => by omega, Or.inr ⟨?_, h⟩⟩
      · simp [rxSpin, readStatus, h]
      · simp [rxSpin, readStatus, h]

/-! ## Bits of the interrupt-enable register -/

theorem and_or_bit_mod (x b m : Nat) (hm : m &&& 255 = m) :
    (x ||| b) % 256 &&& m = (x % 256 ||| b) % 256 &&& m := by
  rw [← and_mask_mod (x ||| b) m hm, ← and_mask_mod (x % 256 ||| b) m hm]
  apply Nat.eq_of_testBit_eq
  intro i
  simp only [Nat.testBit_and, Nat.testBit_or]
  by_cases hi : i < 8
  · have : (x % 256).testBit i = x.testBit i := by
      have := Nat.testBit_mod_two_pow x 8 i
      simpa [hi] using this
    rw [this]
  · have hmi : m.testBit i = false := by
      have h1 : (m &&& 255).testBit i = false := by
        rw [Nat.testBit_and]
        have : (255 : Nat).testBit i = false := by
          apply Nat.testBit_lt_two_pow
          calc 255 < 2 ^ 8 := by decide
            _ ≤ 2 ^ i := Nat.pow_le_pow_right (by decide) (by omega)
        rw [this, Bool.and_false]
      rwa [hm] at h1
    simp [hmi]

set_option maxRecDepth 100000 in
theorem ier_bits : ∀ x, x < 256 →
    (x ||| 2) % 256 &&& 2 ≠ 0 ∧ (x ||| 2) % 256 &&& 1 = x &&& 1 ∧
    (x ||| 2) % 256 &&& 0xFD = x &&& 0xFD ∧
    (x ||| 1) % 256 &&& 1 ≠ 0 ∧ (x ||| 1) % 256 &&& 2 = x &&& 2 ∧
    (x ||| 1) % 256 &&& 0xFE = x &&& 0xFE ∧
    x &&& 0xFD &&& 2 = 0 ∧ x &&& 0xFD &&& 1 = x &&& 1 ∧ x &&& 0xFD &&& 0xFD = x &&& 0xFD ∧
    x &&& 0xFE &&& 1 = 0 ∧ x &&& 0xFE &&& 2 = x &&& 2 ∧ x &&& 0xFE &&& 0xFE = x &&& 0xFE := by
  decide

/-! ## The traced shift loop -/

theorem shiftInItemsTraced_fold (a : List TInItem) (n : Nat) :
    (List.range n).foldl
      (fun (s : List TInItem × List Nat × List Nat) i =>
        (pokes null_in_item s.1 i [s.1.getD (i + 1) null_in_item], s.2.1 ++ [i + 1],
          s.2.2 ++ [i]))
      (a, [], [])
    = (shiftInItems a n, (List.range n).map (fun i => i + 1), List.range n) := by
  induction n with
  | zero => simp [shiftInItems]
  | succ n ih =>
    rw [List.range_succ, List.foldl_append, ih]
    simp [shiftInItems, List.range_succ, List.foldl_append]

theorem shiftInItemsTraced_eq (a : List TInItem) (n : Nat) :
    shiftInItemsTraced a n =
      (pokes null_in_item (shiftInItems a n) n [null_in_item],
        (List.range n).map (fun i => i + 1), List.range n ++ [n]) := by
  simp only [shiftInItemsTraced, shiftInItemsTraced_fold]

theorem SetIRQStatus_IER (c : Config) (mode e : Int) (st : State)
    (huse : c.PB_USE_PORT_INTERRUPTS = true) :
    (SetIRQStatus c mode e st).IER =
      if e ≠ 0 then (st.IER ||| (if mode ≠ 0 then 0x02 else 0x01)) % 256
      else st.IER &&& (if mode ≠ 0 then 0xFD else 0xFE) := by
  unfold SetIRQStatus
  rw [if_pos huse]
  split_ifs <;> rfl

theorem pBIsIRQEnabled_eq (mode : Int) (st : State) :
    pBIsIRQEnabled mode st = if st.IER &&& (if mode ≠ 0 then 0x02 else 0x01) ≠ 0 then 1 else 0 :=
  rfl

/-! ## Pushing an item -/

theorem getD_pokes_below {α : Type} (d : α) (buf v : List α) (p i : Nat) (h : i < p) :
    (pokes d buf p v).getD i d = buf.getD i d := by
  have hl : ((buf ++ List.replicate (p - buf.length) d).take p).length = p := by
    simp [List.length_take]; omega
  unfold pokes
  rw [List.append_assoc, List.getD_eq_getElem?_getD, List.getElem?_append_left (by omega),
    List.getElem?_take_of_lt h]
  by_cases hi : i < buf.length
  · rw [List.getElem?_append_left hi, List.getD_eq_getElem?_getD]
  · have hge : buf.length ≤ i := by omega
    rw [List.getElem?_append_right hge, List.getD_eq_default _ _ hge,
      List.getElem?_replicate]
    split_ifs <;> rfl

theorem getD_pokes_inside {α : Type} (d : α) (buf v : List α) (p j : Nat)
    (h : j < v.length) :
    (pokes d buf p v).getD (p + j) d = v.getD j d := by
  have hl : ((buf ++ List.replicate (p - buf.length) d).take p).length = p := by
    simp [List.length_take]; omega
  unfold pokes
  rw [List.append_assoc, List.getD_eq_getElem?_getD, List.getElem?_append_right (by omega),
    hl, Nat.add_sub_cancel_left, List.getElem?_append_left h, List.getD_eq_getElem?_getD]

theorem cstr_stradd (s t : List Nat) : cstr (stradd s t) = cstr s ++ cstr t := by
  apply cstr_of_nonzero
  intro b hb
  rcases List.mem_append.1 hb with hb | hb
  · exact cstr_nonzero _ b hb
  · exact cstr_nonzero _ b hb

theorem endswith_stradd (s t : List Nat) : endswith (stradd s t) t = true := by
  unfold endswith
  rw [cstr_stradd]
  exact List.isSuffixOf_iff_suffix.2 (List.suffix_append _ _)

/-! ## The remaining capacity of the input slots -/

theorem shiftInItems_succ (a : List TInItem) (n : Nat) :
    shiftInItems a (n + 1) =
      pokes null_in_item (shiftInItems a n) n [(shiftInItems a n).getD (n + 1) null_in_item] := by
  simp [shiftInItems, List.range_succ, List.foldl_append]

theorem shiftInItems_getD (a : List TInItem) (n : Nat) : ∀ i,
    (shiftInItems a n).getD i null_in_item =
      if i < n then a.getD (i + 1) null_in_item else a.getD i null_in_item := by
  induction n with
  | zero => intro i; simp [shiftInItems]
  | succ n ih =>
    intro i
    rw [shiftInItems_succ]
    by_cases hi : i = n
    · subst hi
      rw [getD_pokes_self, ih, if_neg (by omega), if_pos (by omega)]
    · rw [getD_pokes_other _ _ _ _ _ hi, ih]
      by_cases h1 : i < n
      · rw [if_pos h1, if_pos (by omega)]
      · rw [if_neg h1, if_neg (by omega)]

theorem shifted_getD (a : List TInItem) (n i : Nat) :
    (pokes null_in_item (shiftInItems a n) n [null_in_item]).getD i null_in_item =
      if i < n then a.getD (i + 1) null_in_item
      else if i = n then null_in_item else a.getD i null_in_item := by
  by_cases hi : i = n
  · subst hi
    rw [getD_pokes_self, if_neg (by omega), if_pos rfl]
  · rw [getD_pokes_other _ _ _ _ _ hi, shiftInItems_getD, if_neg hi]

theorem CapacityInv_frame (c : Config) (st st2 : State) (h : CapacityInv c st)
    (ha : st2.aInItemsQueue = st.aInItemsQueue) (hh : st2.pInItemsQueue = st.pInItemsQueue)
    (ht : st2.pInNext = st.pInNext) (hn : st2.nInItems = st.nInItems) :
    CapacityInv c st2 := by
  unfold CapacityInv
  rw [ha, hh, ht, hn]
  exact h

/-- Storing a slot with a remaining capacity that is not negative keeps the invariant. -/
theorem CapacityInv_poke (c : Config) (st st2 : State) (k : Nat) (v : TInItem)
    (h : CapacityInv c st) (hv : 0 ≤ v.nMaxSize)
    (ha : st2.aInItemsQueue = pokes null_in_item st.aInItemsQueue k [v])
    (hh : st2.pInItemsQueue = st.pInItemsQueue)
    (ht : st2.pInNext = st.pInNext) (hn : st2.nInItems = st.nInItems) :
    CapacityInv c st2 := by
  obtain ⟨h1, h2, h3, h4, h5, h6⟩ := h
  unfold CapacityInv
  rw [ha, hh, ht, hn]
  refine ⟨h1, h2, h3, h4, ?_, ?_⟩
  · intro i
    by_cases hi : i = k
    · subst hi; rw [getD_pokes_self]; omega
    · rw [getD_pokes_other _ _ _ _ _ hi]; exact h5 i
  · intro i a b d
    by_cases hi : i = k
    · subst hi; rw [getD_pokes_self]; exact hv
    · rw [getD_pokes_other _ _ _ _ _ hi]; exact h6 i a b d

/-- Queuing a request keeps the invariant. -/
theorem CapacityInv_push (c : Config) (st st2 : State) (v : TInItem)
    (h : CapacityInv c st) (hv : 0 ≤ v.nMaxSize)
    (ha : st2.aInItemsQueue = pokes null_in_item st.aInItemsQueue st.pInNext [v])
    (hh : st2.pInItemsQueue = st.pInItemsQueue)
    (ht : st2.pInNext = st.pInNext + 1) (hn : st2.nInItems = st.nInItems + 1) :
    CapacityInv c st2 := by
  obtain ⟨h1, h2, h3, h4, h5, h6⟩ := h
  unfold CapacityInv
  rw [ha, hh, ht, hn]
  refine ⟨by omega, by push_cast; omega, fun h0 => by omega, h4, ?_, ?_⟩
  · intro i
    by_cases hi : i = st.pInNext
    · subst hi; rw [getD_pokes_self]; omega
    · rw [getD_pokes_other _ _ _ _ _ hi]; exact h5 i
  · intro i a b d
    by_cases hi : i = st.pInNext
    · subst hi; rw [getD_pokes_self]; exact hv
    · rw [getD_pokes_other _ _ _ _ _ hi]
      refine h6 i a (fun hr => ?_) ?_
      · have := b hr; omega
      · rintro ⟨e1, e2⟩
        exact hi (by rw [e1, h3 e2])

/-- Completing the head request (its slot decremented once more, to no less than `-1`)
and taking it off the queue keeps the invariant. -/
theorem CapacityInv_term (c : Config) (st X : State) (v : TInItem)
    (h : CapacityInv c st) (hne : st.nInItems ≠ 0) (hv : -1 ≤ v.nMaxSize)
    (ha : X.aInItemsQueue = pokes null_in_item st.aInItemsQueue st.pInItemsQueue [v])
    (hh : X.pInItemsQueue = st.pInItemsQueue)
    (ht : X.pInNext = st.pInNext) (hn : X.nInItems = st.nInItems) :
    CapacityInv c (termIn c X) := by
  obtain ⟨h1, h2, h3, h4, h5, h6⟩ := h
  have hL : ∀ i, i ≠ st.pInItemsQueue →
      X.aInItemsQueue.getD i null_in_item = st.aInItemsQueue.getD i null_in_item := by
    intro i hi; rw [ha, getD_pokes_other _ _ _ _ _ hi]
  have hLh : X.aInItemsQueue.getD st.pInItemsQueue null_in_item = v := by
    rw [ha, getD_pokes_self]
  have hLall : ∀ i, -1 ≤ (X.aInItemsQueue.getD i null_in_item).nMaxSize := by
    intro i
    by_cases hi : i = st.pInItemsQueue
    · rw [hi, hLh]; exact hv
    · rw [hL i hi]; exact h5 i
  unfold termIn
  by_cases hc1 : X.nInItems ≤ 1
  · rw [if_pos hc1]
    refine ⟨le_refl _, by simp, fun _ => rfl, fun _ => rfl, hLall, ?_⟩
    intro i a b d
    show 0 ≤ (X.aInItemsQueue.getD i null_in_item).nMaxSize
    cases hr : c.PB_RING_QUEUE
    · have hz := h4 hr
      have hi : i ≠ st.pInItemsQueue := by
        intro e
        exact d ⟨by rw [e, hz], rfl⟩
      rw [hL i hi]
      exact h6 i (by omega) (fun hr2 => by rw [hr] at hr2; exact absurd hr2 (by decide))
        (fun e => hi e.1)
    · have := b hr
      exact absurd this (by show ¬ i < 0; omega)
  · rw [if_neg hc1]
    have hgt : X.pInNext > X.pInItemsQueue := by rw [ht, hh]; rw [hn] at hc1; omega
    rw [if_pos hgt]
    cases hr : c.PB_RING_QUEUE
    · have hz := h4 hr
      simp only [Bool.false_eq_true, if_false]
      refine ⟨by show 0 ≤ X.nInItems - 1; omega, ?_, ?_, fun _ => rfl, ?_, ?_⟩
      · show ((0 : Nat) : Int) + (X.nInItems - 1) ≤ X.pInNext
        rw [hn, ht]; omega
      · intro e
        have : X.nInItems - 1 = 0 := e
        omega
      · intro i
        show -1 ≤ ((pokes null_in_item (shiftInItems X.aInItemsQueue X.nInItems.toNat)
          X.nInItems.toNat [null_in_item]).getD i null_in_item).nMaxSize
        rw [shifted_getD]
        split_ifs
        · exact hLall _
        · decide
        · exact hLall _
      · intro i a b d
        show 0 ≤ ((pokes null_in_item (shiftInItems X.aInItemsQueue X.nInItems.toNat)
          X.nInItems.toNat [null_in_item]).getD i null_in_item).nMaxSize
        have hliv : ∀ j, j ≠ 0 → 0 ≤ (X.aInItemsQueue.getD j null_in_item).nMaxSize := by
          intro j hj
          rw [hL j (by rw [hz]; exact hj)]
          exact h6 j (by omega) (fun hr2 => by rw [hr] at hr2; exact absurd hr2 (by decide))
            (fun e => hj (by rw [e.1, hz]))
        rw [shifted_getD]
        split_ifs with q1 q2
        · exact hliv _ (by omega)
        · decide
        · exact hliv _ (by
            intro e
            rw [e] at q1
            rw [hn] at q1 hc1
            omega)
    · simp only [if_true]
      refine ⟨by show 0 ≤ X.nInItems - 1; omega, ?_, ?_, fun hr2 => by
        rw [hr] at hr2; exact absurd hr2 (by decide), hLall, ?_⟩
      · show ((X.pInItemsQueue + 1 : Nat) : Int) + (X.nInItems - 1) ≤ X.pInNext
        rw [hn, ht, hh]; push_cast; omega
      · intro e
        have : X.nInItems - 1 = 0 := e
        omega
      · intro i a b d
        have a2 : X.pInItemsQueue + 1 ≤ i := a
        have b2 : i < X.pInNext := b hr
        show 0 ≤ (X.aInItemsQueue.getD i null_in_item).nMaxSize
        rw [hh] at a2
        rw [ht] at b2
        rw [hL i (by omega)]
        exact h6 i (by omega) (fun _ => b2) (fun e => by omega)

theorem CapacityInv_head (c : Config) (st : State) (h : CapacityInv c st)
    (hne : st.nInItems ≠ 0) : 0 ≤ (headItem st).nMaxSize := by
  obtain ⟨h1, h2, _, _, _, h6⟩ := h
  exact h6 st.pInItemsQueue (le_refl _) (fun _ => by omega) (fun e => hne e.2)

theorem CapacityInv_receiveByte (c : Config) (hw : Hw) (st : State)
    (h : CapacityInv c st) (hne : st.nInItems ≠ 0) :
    CapacityInv c (receiveByte c hw st).2 := by
  have hhead := CapacityInv_head c st h hne
  have hv : -1 ≤ (headItem st).nMaxSize - 1 := by omega
  rcases receiveByte_cases c hw st with ⟨_, e⟩ | ⟨_, _, e⟩ | ⟨_, _, e⟩ | ⟨hm, _, _, e⟩
  · rw [e, termPortBController_rx _ _ rfl]
    have ht := CapacityInv_term c st { st with
        port_mode := MODE_RX
        aInItemsQueue := pokes null_in_item st.aInItemsQueue st.pInItemsQueue
          [{ pItem := (headItem st).pItem, nMaxSize := (headItem st).nMaxSize - 1 }] }
      _ h hne hv rfl rfl rfl rfl
    exact CapacityInv_frame c _ _ ht rfl rfl rfl rfl
  · rw [e]
    exact CapacityInv_frame c st _ h rfl rfl rfl rfl
  · rw [e, termPortBController_rx _ _ rfl]
    have ht := CapacityInv_term c st { st with
        port_mode := MODE_RX
        rxReads := st.rxReads + 1
        memLog := st.memLog ++ [((headItem st).pItem, 0)]
        aInItemsQueue := pokes null_in_item st.aInItemsQueue st.pInItemsQueue
          [{ pItem := (headItem st).pItem, nMaxSize := (headItem st).nMaxSize - 1 }] }
      _ h hne hv rfl rfl rfl rfl
    exact CapacityInv_frame c _ _ ht rfl rfl rfl rfl
  · rw [e]
    exact CapacityInv_poke c st _ st.pInItemsQueue
      { pItem := (headItem st).pItem + 1, nMaxSize := (headItem st).nMaxSize - 1 } h
      (by show 0 ≤ (headItem st).nMaxSize - 1; omega) rfl rfl rfl rfl

theorem CapacityInv_pBReceive (c : Config) (hw : Hw) (start : Int) (st : State)
    (h : CapacityInv c st) : CapacityInv c (pBReceive c hw start st).2 := by
  unfold pBReceive
  cases hg : receiveGate c hw st with
  | leave code st1 =>
    obtain ⟨k, f, e⟩ := receiveGate_leave c hw st st1 code hg
    show CapacityInv c st1
    rw [e]
    exact CapacityInv_frame c st _ h rfl rfl rfl rfl
  | pass st1 =>
    obtain ⟨hne, _, k, f, s, e⟩ := receiveGate_pass c hw st st1 hg
    show CapacityInv c (receiveByte c hw st1).2
    have h1 : CapacityInv c st1 := by
      rw [e]; exact CapacityInv_frame c st _ h rfl rfl rfl rfl
    exact CapacityInv_receiveByte c hw st1 h1 (by rw [e]; exact hne)

theorem CapacityInv_pBInRequest (c : Config) (hw : Hw) (buf : Nat) (n : Int) (st : State)
    (h : CapacityInv c st) : CapacityInv c (pBInRequest c hw buf n st).2 := by
  unfold pBInRequest
  by_cases h1 : buf = 0 ∧ n ≠ 0
  · rw [if_pos h1]; exact h
  · rw [if_neg h1]
    obtain ⟨k, hk⟩ := GetPortErrorMask_frame hw 0 st
    have hE : CapacityInv c (GetPortErrorMask hw 0 st).2 := by
      rw [hk]; exact CapacityInv_frame c st _ h rfl rfl rfl rfl
    simp only []
    by_cases he : (GetPortErrorMask hw 0 st).1 ≠ 0
    · rw [if_pos he]; exact hE
    rw [if_neg he]
    by_cases hf : (GetPortErrorMask hw 0 st).2.nInItems ≥ (MAX_INPUT_ITEMS_COUNTER : Int)
    · rw [if_pos hf]; exact hE
    rw [if_neg hf]
    have hv : (0 : Int) ≤ (if n > 0 then n else 0) := by
      split_ifs <;> omega
    have hp := CapacityInv_push c (GetPortErrorMask hw 0 st).2
      { (GetPortErrorMask hw 0 st).2 with
        aInItemsQueue := pokes null_in_item (GetPortErrorMask hw 0 st).2.aInItemsQueue
          (GetPortErrorMask hw 0 st).2.pInNext
          [{ pItem := buf, nMaxSize := if n > 0 then n else 0 }]
        pInNext := (GetPortErrorMask hw 0 st).2.pInNext + 1
        nInItems := (GetPortErrorMask hw 0 st).2.nInItems + 1 }
      { pItem := buf, nMaxSize := if n > 0 then n else 0 } hE hv rfl rfl rfl rfl
    exact CapacityInv_pBReceive c hw 1 _ hp

theorem CapacityInv_rxRun (c : Config) (hw : Hw) (calls : List RxCall) :
    ∀ (st : State), CapacityInv c st → CapacityInv c (rxRun c hw calls st).2 := by
  induction calls with
  | nil => intro st h; exact h
  | cons x xs ih =>
    intro st h
    cases x with
    | request s n =>
      exact ih _ (CapacityInv_pBInRequest c hw s n st h)
    | receive s =>
      exact ih _ (CapacityInv_pBReceive c hw s st h)
    | irq f r =>
      exact ih _ (CapacityInv_frame c st _ h rfl rfl rfl rfl)

theorem CapacityInv_pBInit (c : Config) (hw : Hw) (a b : Int) (st : State)
    (hst : ∀ slot ∈ st.aInItemsQueue.drop MAX_INPUT_ITEMS_COUNTER, 0 ≤ slot.nMaxSize) :
    CapacityInv c (pBInit c hw a b st).2 := by
  obtain ⟨ier, e⟩ := pBInit_state c hw a b st
  rw [e]
  have hall : ∀ i, 0 ≤ ((List.replicate MAX_INPUT_ITEMS_COUNTER null_in_item ++
      st.aInItemsQueue.drop MAX_INPUT_ITEMS_COUNTER).getD i null_in_item).nMaxSize := by
    intro i
    rcases getD_mem_or_default (List.replicate MAX_INPUT_ITEMS_COUNTER null_in_item ++
      st.aInItemsQueue.drop MAX_INPUT_ITEMS_COUNTER) i null_in_item with hm | hd
    · rcases List.mem_append.1 hm with h1 | h2
      · rw [(List.mem_replicate.1 h1).2]; decide
      · exact hst _ h2
    · rw [hd]; decide
  refine ⟨le_refl _, by simp, fun _ => rfl, fun _ => rfl, ?_, ?_⟩
  · intro i
    have := hall i
    show -1 ≤ ((List.replicate MAX_INPUT_ITEMS_COUNTER null_in_item ++
      st.aInItemsQueue.drop MAX_INPUT_ITEMS_COUNTER).getD i null_in_item).nMaxSize
    omega
  · intro i _ _ _
    exact hall i

/-! ## The layout of the output queue under the shifting policy -/

theorem rxRunInside_start (c : Config) (hw : Hw) (calls : List RxCall) (st : State)
    (h : rxRunInside c hw calls st) : InsideArrays st := by
  have := h 0 (Nat.zero_le _)
  simpa [rxRun] using this

theorem rxRunInside_final (c : Config) (hw : Hw) (calls : List RxCall) (st : State)
    (h : rxRunInside c hw calls st) : InsideArrays (rxRun c hw calls st).2 := by
  have := h calls.length (le_refl _)
  simpa using this

theorem apiRunInside_final (c : Config) (hw : Hw) (calls : List ApiCall) (st : State)
    (h : apiRunInside c hw calls st) : InsideArrays (apiRun c hw calls st) := by
  have := h calls.length (le_refl _)
  simpa using this

theorem pBInit_inside_table (c : Config) (hw : Hw) (a b : Int) (st : State)
    (h : InsideArrays (pBInit c hw a b st).2) :
    st.aInItemsQueue.drop MAX_INPUT_ITEMS_COUNTER = [] ∧
    (pBInit c hw a b st).2.aInItemsQueue
      = List.replicate MAX_INPUT_ITEMS_COUNTER null_in_item := by
  obtain ⟨ier, e⟩ := pBInit_state c hw a b st
  have h1 := h.1
  rw [e] at h1
  have hd : st.aInItemsQueue.drop MAX_INPUT_ITEMS_COUNTER = [] := by
    apply List.eq_nil_of_length_eq_zero
    simp only [List.length_append, List.length_replicate] at h1
    omega
  refine ⟨hd, ?_⟩
  rw [e]
  show List.replicate MAX_INPUT_ITEMS_COUNTER null_in_item ++
    st.aInItemsQueue.drop MAX_INPUT_ITEMS_COUNTER = _
  rw [hd, List.append_nil]

theorem pBPush_queued (c : Config) (s : List Nat) (nl lg : Int) (st : State)
    (hne : 0 < strsize s)
    (hreq : c.PB_NO_EMPTY_REQUEST = true → isEmptyRequest s = false)
    (hsize : strsize s + SIZE_OFFSET ≤ MAX_OUTPUT_ITEM_SIZE)
    (hfit : strsize s + SIZE_OFFSET + strsize st.aOutItemsQueue ≤ OUTPUT_SIZE) :
    pBPush c s nl lg st = (1, { st with
      aOutItemsQueue := pokes 0 st.aOutItemsQueue st.pOutNext
        (cstr (pushedItem c s nl) ++ [0])
      pOutNext := st.pOutNext + (cstr (pushedItem c s nl)).length + 1
      nOutItems := st.nOutItems + 1 }) := by
  have hg0 : ¬ (c.PB_NO_EMPTY_REQUEST = true ∧ isEmptyRequest s = true) := by
    rintro ⟨h1, h2⟩
    rw [hreq h1] at h2
    exact Bool.false_ne_true h2
  have hg : ¬ (strsize s + SIZE_OFFSET > MAX_OUTPUT_ITEM_SIZE ∨
      strsize s + SIZE_OFFSET + strsize st.aOutItemsQueue > OUTPUT_SIZE) := by
    rintro (h | h) <;> omega
  have hg3 : strsize s + SIZE_OFFSET > SIZE_OFFSET := by omega
  simp only [pBPush, if_neg hg0, if_neg hg, if_pos hg3, strpush]
  rfl

theorem pBPush_too_large (c : Config) (s : List Nat) (nl lg : Int) (st : State)
    (h : strsize s + SIZE_OFFSET > MAX_OUTPUT_ITEM_SIZE) :
    pBPush c s nl lg st = (0, st) := by
  have hreq : ¬ (c.PB_NO_EMPTY_REQUEST = true ∧ isEmptyRequest s = true) := by
    rintro ⟨_, h2⟩
    have := isEmptyRequest_false_of_big s (by
      simp only [SIZE_OFFSET, MAX_OUTPUT_ITEM_SIZE] at h; omega)
    simp [this] at h2
  simp only [pBPush, if_neg hreq, if_pos (Or.inl h)]

theorem cstr_head_of_strsize (s : List Nat) (h : 0 < strsize s) :
    (cstr s).getD 0 0 = s.getD 0 0 := by
  cases s with
  | nil => simp [strsize, cstr] at h
  | cons x xs =>
    by_cases hx : x = 0
    · subst hx
      rw [strsize_cons_zero] at h
      omega
    · have hb : (x != 0) = true := by simp [hx]
      simp [cstr, List.takeWhile, hb]

theorem isEmptyRequest_stradd (s t : List Nat) (hne : 0 < strsize s)
    (h : isEmptyRequest s = false) : isEmptyRequest (stradd s t) = false := by
  have hsz : strsize (stradd s t) = strsize s + strsize t := by
    unfold strsize
    rw [cstr_stradd, List.length_append]
  by_cases h2 : 2 ≤ strsize (stradd s t)
  · exact isEmptyRequest_false_of_big _ h2
  · have h1 : strsize s = 1 := by omega
    have ht : strsize t = 0 := by omega
    have hct : cstr t = [] := List.eq_nil_of_length_eq_zero ht
    have e : stradd s t = cstr s := by
      unfold stradd
      rw [hct, List.append_nil]
    have hs1 : strsize (cstr s) = 1 := by
      rw [← e, hsz, h1, ht]
    unfold isEmptyRequest at h ⊢
    rw [e, hs1, cstr_head_of_strsize s hne]
    rw [h1] at h
    exact h

/-! ## The claims -/

/-- C1 (counterexample): in a `PB_NO_EMPTY_REQUEST` build the non-empty item `"\n"` is
pushed onto the freshly initialised queue with `pBPush` returning 1, yet nothing is
queued: the following `pBSend(0)` calls return `PB_OK` at once and store no byte in the
transmit register. -/
theorem skipped_item_not_transmitted :
    ([10] : List Nat) ≠ [] ∧
    (pushRun emptyDropConfig [([10], 0)]
      (pBInit emptyDropConfig (readyHw []) 0 0 bootState).2).1 = [1] ∧
    (pushRun emptyDropConfig [([10], 0)]
      (pBInit emptyDropConfig (readyHw []) 0 0 bootState).2).2.nOutItems = 0 ∧
    (sendRun emptyDropConfig (readyHw []) 2
      (pushRun emptyDropConfig [([10], 0)]
        (pBInit emptyDropConfig (readyHw []) 0 0 bootState).2).2).1
      = [emptyDropConfig.PB_OK, emptyDropConfig.PB_OK] ∧
    (sendRun emptyDropConfig (readyHw []) 2
      (pushRun emptyDropConfig [([10], 0)]
        (pBInit emptyDropConfig (readyHw []) 0 0 bootState).2).2).2.txLog = [] := by
  decide

/-- C1 (amended): output FIFO order.  Take a freshly initialised output queue, a port that
is not receiving, the transmit interrupt disabled and a transmitter that is ready on
every poll.  Push any list of non-empty items (C strings) that pass the item size check,
are not skipped as empty requests by a `PB_NO_EMPTY_REQUEST` build, and fit
`aOutItemsQueue` together with their terminating nulls: every `pBPush` returns 1, and the
following `pBSend(0)` calls store in the transmit register exactly the bytes of item 1,
then of item 2, ... in push order, each byte once.  Every call that sends a byte returns
`PB_ERR_NONE`, the call that reaches the terminating null of an item stores nothing and
returns `PB_OK`, and after the last `PB_OK` `nOutItems` is 0. -/
theorem output_fifo_order (c : Config) (hw : Hw) (st0 : State)
    (items : List (List Nat × Int))
    (hfresh : st0.aOutItemsQueue.getD 0 0 = 0 ∧ st0.pOutItemsQueue = 0 ∧
      st0.pOutNext = 0 ∧ st0.nOutItems = 0)
    (hmode : st0.port_mode ≠ MODE_RX)
    (hirq : pBIsIRQEnabled c.PB_EITR st0 = 0)
    (hready : ∀ n, hw.status n % 256 &&& TXRDY = 0)
    (hitems : ∀ it ∈ items, it.1 ≠ [] ∧ (∀ b ∈ it.1, b ≠ 0) ∧
      strsize it.1 + SIZE_OFFSET ≤ MAX_OUTPUT_ITEM_SIZE ∧
      (c.PB_NO_EMPTY_REQUEST = true → isEmptyRequest it.1 = false))
    (hfit : (packed (queuedItems c items)).length ≤ OUTPUT_SIZE) :
    (pushRun c items st0).1 = List.replicate items.length 1 ∧
    (sendRun c hw (callsFor (queuedItems c items)) (pushRun c items st0).2).1
      = codesFor c (queuedItems c items) ∧
    (sendRun c hw (callsFor (queuedItems c items)) (pushRun c items st0).2).2.txLog
      = st0.txLog ++ (queuedItems c items).flatten ∧
    (sendRun c hw (callsFor (queuedItems c items)) (pushRun c items st0).2).2.nOutItems
      = 0 := by
  obtain ⟨hf1, hf2, hf3, hf4⟩ := hfresh
  have hP0 : Pushed [] st0 := ⟨⟨st0.aOutItemsQueue, rfl⟩, hf3, hf2, by simpa using hf4,
    fun _ => hf1⟩
  obtain ⟨r1, r2, r3, b, p, n, r4⟩ := pushRun_ok c items [] st0 hP0 (by simp) hitems
    (by simpa using hfit)
  simp only [List.nil_append] at r2 r3
  refine ⟨r1, ?_⟩
  cases hq : queuedItems c items with
  | nil =>
    have hn : (pushRun c items st0).2.nOutItems = 0 := by
      rw [hq] at r2; simpa using r2.2.2.2.1
    have ht : (pushRun c items st0).2.txLog = st0.txLog := by rw [r4]
    simp [callsFor, codesFor, sendRun, hn, ht]
  | cons q1 rest =>
    rw [hq] at r2 r3
    obtain ⟨⟨junk, hbuf⟩, hnext, hhead, hcount, _⟩ := r2
    have hS : Sending c q1 rest (pushRun c items st0).2 := by
      refine ⟨⟨[], junk, ?_, hhead⟩, ?_, ?_, ?_, ?_⟩
      · rw [hbuf, packed_cons]; simp
      · rw [hnext, hhead, packed_cons]; simp; omega
      · rw [hcount]; simp
      · rw [r4]; exact hmode
      · rw [r4]; exact hirq
    obtain ⟨d1, d2, d3⟩ := sendRun_drain c hw hready rest
      (fun r hr => r3 r (List.mem_cons_of_mem _ hr)) q1 _ hS (r3 q1 (List.mem_cons_self _ _))
    refine ⟨d1, ?_, d3⟩
    rw [d2, r4]


theorem output_fifo_order_witness :
    (pushRun stdConfig [([97, 98, 99], 1), ([100], 0)] freshState).1
      = List.replicate [(([97, 98, 99] : List Nat), (1 : Int)), ([100], 0)].length 1 ∧
    (sendRun stdConfig (readyHw [])
        (callsFor (queuedItems stdConfig [([97, 98, 99], 1), ([100], 0)]))
        (pushRun stdConfig [([97, 98, 99], 1), ([100], 0)] freshState).2).1
      = codesFor stdConfig (queuedItems stdConfig [([97, 98, 99], 1), ([100], 0)]) ∧
    (sendRun stdConfig (readyHw [])
        (callsFor (queuedItems stdConfig [([97, 98, 99], 1), ([100], 0)]))
        (pushRun stdConfig [([97, 98, 99], 1), ([100], 0)] freshState).2).2.txLog
      = freshState.txLog ++ (queuedItems stdConfig [([97, 98, 99], 1), ([100], 0)]).flatten ∧
    (sendRun stdConfig (readyHw [])
        (callsFor (queuedItems stdConfig [([97, 98, 99], 1), ([100], 0)]))
        (pushRun stdConfig [([97, 98, 99], 1), ([100], 0)] freshState).2).2.nOutItems
      = 0 :=
  output_fifo_order stdConfig (readyHw []) freshState [([97, 98, 99], 1), ([100], 0)]
    (by decide) (by decide) (by decide)
    (fun _ => (by decide : RXRDY % 256 &&& TXRDY = 0)) (by decide) (by decide)


/-- C2 (evaluation at the failing input): three requests are accepted on ready hardware
that delivers the lines `"a"`, `"b"`, `"c"`.  The first two lines are stored in the
first two buffers; the third "completion" is reported for an empty slot without reading
a byte, no byte is ever stored at the third buffer (address 300), and the queue ends
empty although the third line was never read. -/
theorem input_request_dropped :
    (rxRun stdConfig (readyHw [97, 13, 98, 13, 99, 13]) inputScenario freshState).1
      = [0, 1, 0, 1, 1, 1] ∧
    (rxRun stdConfig (readyHw [97, 13, 98, 13, 99, 13]) inputScenario freshState).2.memLog
      = [(100, 97), (101, 0), (200, 98), (201, 0)] ∧
    (rxRun stdConfig (readyHw [97, 13, 98, 13, 99, 13]) inputScenario freshState).2.nInItems
      = 0 ∧
    (rxRun stdConfig (readyHw [97, 13, 98, 13, 99, 13]) inputScenario freshState).2.rxReads
      = 4 := by
  decide

set_option maxRecDepth 1000000 in
/-- C3 (evaluation at the failing input): eleven items of 1022 bytes are all accepted by
`pBPush` on a freshly initialised queue, and the tail cursor `pOutNext` ends at offset
11253, beyond the `OUTPUT_SIZE = 10240` bytes of `aOutItemsQueue`. -/
theorem output_tail_overruns_capacity :
    (pushRun stdConfig (List.replicate 11 (List.replicate 1022 65, 0)) freshState).1
      = List.replicate 11 1 ∧
    (pushRun stdConfig (List.replicate 11 (List.replicate 1022 65, 0)) freshState).2.pOutNext
      = 11253 ∧
    OUTPUT_SIZE = 10240 := by
  decide

set_option maxRecDepth 1000000 in
/-- C4 (code bug): an item whose size plus `SIZE_OFFSET` exceeds `MAX_OUTPUT_ITEM_SIZE` is
refused with 0 and the state unchanged, for every item and state.  The test against the
capacity of `aOutItemsQueue` does not measure the bytes in use: with ten items of 1022
bytes queued the tail cursor is at 10230 and `strsize(aOutItemsQueue)` is 1022, the
length of the head item.  A further item of 1022 bytes has size 1024 with `SIZE_OFFSET`;
together with the 10230 bytes in use that exceeds `OUTPUT_SIZE`, yet `pBPush` returns 1,
stores the item and its null at the tail cursor, moves the tail cursor to 11253 and
counts eleven items. -/
theorem push_accepted_past_capacity :
    (∀ (c : Config) (s : List Nat) (IsNewLine IsLog : Int) (st : State),
      strsize s + SIZE_OFFSET > MAX_OUTPUT_ITEM_SIZE →
      pBPush c s IsNewLine IsLog st = (0, st)) ∧
    nearlyFullState.pOutNext = 10230 ∧
    nearlyFullState.nOutItems = 10 ∧
    strsize nearlyFullState.aOutItemsQueue = 1022 ∧
    strsize (List.replicate 1022 65) + SIZE_OFFSET + nearlyFullState.pOutNext > OUTPUT_SIZE ∧
    pBPush stdConfig (List.replicate 1022 65) 0 0 nearlyFullState =
      (1, { nearlyFullState with
        aOutItemsQueue := pokes 0 nearlyFullState.aOutItemsQueue nearlyFullState.pOutNext
          (cstr (pushedItem stdConfig (List.replicate 1022 65) 0) ++ [0])
        pOutNext := nearlyFullState.pOutNext
          + (cstr (pushedItem stdConfig (List.replicate 1022 65) 0)).length + 1
        nOutItems := nearlyFullState.nOutItems + 1 }) ∧
    (pBPush stdConfig (List.replicate 1022 65) 0 0 nearlyFullState).2.pOutNext = 11253 ∧
    (pBPush stdConfig (List.replicate 1022 65) 0 0 nearlyFullState).2.nOutItems = 11 := by
  refine ⟨pBPush_too_large, by decide, by decide, by decide, by decide, ?_, by decide,
    by decide⟩
  exact pBPush_queued stdConfig (List.replicate 1022 65) 0 0 nearlyFullState (by decide)
    (by decide) (by decide) (by decide)

set_option maxRecDepth 100000 in
theorem push_accepted_past_capacity_witness :
    pBPush stdConfig (List.replicate 1023 66) 1 0 freshState = (0, freshState) :=
  push_accepted_past_capacity.1 stdConfig (List.replicate 1023 66) 1 0 freshState
    (by decide)

/-- C5: flush postcondition.  When a `pBSend` call finds the null byte under the head
cursor in a state with `nOutItems = n ≥ 1`, it returns `PB_OK`, leaves `nOutItems = n - 1`
and `port_mode = MODE_NONE`; and if `n = 1` both cursors are back at the start of the
buffer, whose first byte is the null terminator (the queue holds zero bytes). -/
theorem flush_postcondition (c : Config) (hw : Hw) (start : Int) (st : State) (n : Int)
    (hn : st.nOutItems = n) (h1 : 1 ≤ n)
    (hmode : st.port_mode ≠ MODE_RX)
    (hstart : ¬ (c.PB_START_WITH_NEWLINE = true ∧ start ≠ 0 ∧
      pBIsIRQEnabled c.PB_EITR st ≠ 0))
    (hwait : ¬ (st.port_mode = MODE_TX ∧ pBIsIRQEnabled c.PB_EITR st ≠ 0 ∧ st.isr_pb = 0))
    (hnull : st.aOutItemsQueue.getD st.pOutItemsQueue 0 = 0) :
    (pBSend c hw start st).1 = c.PB_OK ∧
    (pBSend c hw start st).2.nOutItems = n - 1 ∧
    (pBSend c hw start st).2.port_mode = MODE_NONE ∧
    (n = 1 → (pBSend c hw start st).2.pOutItemsQueue = 0 ∧
      (pBSend c hw start st).2.pOutNext = 0 ∧
      (pBSend c hw start st).2.aOutItemsQueue.getD 0 0 = 0 ∧
      strsize (pBSend c hw start st).2.aOutItemsQueue = 0) := by
  have hne : st.nOutItems ≠ 0 := by omega
  have e : pBSend c hw start st =
      (c.PB_OK, termPortBController c { st with port_mode := MODE_TX, isr_pb := 0 }) := by
    simp only [pBSend, if_neg hne, if_neg hmode, if_neg hstart, if_neg hwait, hnull, sendByte,
      if_true]
  rw [e]
  refine ⟨rfl, ?_, rfl, ?_⟩
  · simp only [termPortBController, termOut, if_true]
    by_cases hle : st.nOutItems ≤ 1
    · have : n = 1 := by omega
      simp [hle, this]
    · simp only [hle, if_false]
      split_ifs <;> simp [hn]
  · intro h
    have hle : st.nOutItems ≤ 1 := by omega
    simp [termPortBController, termOut, hle, pokes_zero_singleton, strsize_cons_zero]

theorem flush_postcondition_witness :
    (pBSend stdConfig (readyHw []) 0 atNullState).1 = stdConfig.PB_OK ∧
    (pBSend stdConfig (readyHw []) 0 atNullState).2.nOutItems = 1 - 1 ∧
    (pBSend stdConfig (readyHw []) 0 atNullState).2.port_mode = MODE_NONE ∧
    (pBSend stdConfig (readyHw []) 0 atNullState).2.pOutItemsQueue = 0 ∧
    (pBSend stdConfig (readyHw []) 0 atNullState).2.pOutNext = 0 ∧
    (pBSend stdConfig (readyHw []) 0 atNullState).2.aOutItemsQueue.getD 0 0 = 0 ∧
    strsize (pBSend stdConfig (readyHw []) 0 atNullState).2.aOutItemsQueue = 0 :=
  have h := flush_postcondition stdConfig (readyHw []) 0 atNullState 1
    (by decide) (by decide) (by decide) (by decide) (by decide) (by decide)
  ⟨h.1, h.2.1, h.2.2.1, h.2.2.2 rfl⟩

/-- C6: stepping an empty queue is a no-op.  With `nOutItems = 0`, `pBSend(start)` returns
`PB_OK` and leaves the whole state unchanged; likewise `pBReceive(start)` with
`nInItems = 0`; and right after `pBInit(0,0)` (from any prior state, on any hardware)
`pBSend` returns `PB_OK`, changes nothing, and the direction is idle. -/
theorem empty_queue_step_is_noop (c : Config) (hw : Hw) (start : Int) (st : State) :
    (st.nOutItems = 0 → pBSend c hw start st = (c.PB_OK, st)) ∧
    (st.nInItems = 0 → pBReceive c hw start st = (c.PB_OK, st)) ∧
    (∀ hw0 : Hw,
      pBSend c hw start (pBInit c hw0 0 0 st).2 = (c.PB_OK, (pBInit c hw0 0 0 st).2) ∧
      (pBSend c hw start (pBInit c hw0 0 0 st).2).2.port_mode = MODE_NONE) := by
  refine ⟨fun h => by simp [pBSend, h], fun h => by simp [pBReceive, receiveGate, h],
    fun hw0 => ?_⟩
  have h := pBInit_nOutItems c hw0 0 0 st
  have e : pBSend c hw start (pBInit c hw0 0 0 st).2 =
      (c.PB_OK, (pBInit c hw0 0 0 st).2) := by
    simp [pBSend, h]
  exact ⟨e, by rw [e]; exact pBInit_port_mode c hw0 0 0 st⟩

theorem empty_queue_step_is_noop_witness :
    pBSend stdConfig (readyHw []) 1 freshState = (stdConfig.PB_OK, freshState) ∧
    pBReceive stdConfig (readyHw []) 0 freshState = (stdConfig.PB_OK, freshState) :=
  ⟨(empty_queue_step_is_noop stdConfig (readyHw []) 1 freshState).1 (by decide),
   (empty_queue_step_is_noop stdConfig (readyHw []) 0 freshState).2.1 (by decide)⟩

/-- C7: stepper mutual exclusion.  With `port_mode = MODE_RX` and `nOutItems > 0`,
`pBSend` returns `PB_ERR_IS_BUSY` and the whole state is unchanged; with
`port_mode = MODE_TX` and `nInItems > 0`, `pBReceive` returns `PB_ERR_IS_BUSY` and the
whole state is unchanged. -/
theorem stepper_mutual_exclusion (c : Config) (hw : Hw) (start : Int) (st : State) :
    (st.port_mode = MODE_RX → 0 < st.nOutItems →
      pBSend c hw start st = (c.PB_ERR_IS_BUSY, st)) ∧
    (st.port_mode = MODE_TX → 0 < st.nInItems →
      pBReceive c hw start st = (c.PB_ERR_IS_BUSY, st)) := by
  constructor
  · intro hm hn
    have : st.nOutItems ≠ 0 := by omega
    simp [pBSend, hm, this]
  · intro hm hn
    have : st.nInItems ≠ 0 := by omega
    simp [pBReceive, receiveGate, hm, this]

theorem stepper_mutual_exclusion_witness :
    pBSend stdConfig (readyHw []) 0 rxBusyState = (stdConfig.PB_ERR_IS_BUSY, rxBusyState) ∧
    pBReceive stdConfig (readyHw []) 0 txBusyWithRequest
      = (stdConfig.PB_ERR_IS_BUSY, txBusyWithRequest) :=
  ⟨(stepper_mutual_exclusion stdConfig (readyHw []) 0 rxBusyState).1
      (by decide) (by decide),
   (stepper_mutual_exclusion stdConfig (readyHw []) 0 txBusyWithRequest).2
      (by decide) (by decide)⟩

/-- C8 (counterexample): on a port that is transmitting, `pBInRequest` with a free slot
and valid arguments returns `PB_ERR_IS_BUSY`, but the input queue is not left unchanged:
the request is in the queue afterwards. -/
theorem pBInRequest_while_transmitting_is_queued :
    (pBInRequest stdConfig (readyHw []) 100 5 txBusyState).1 = stdConfig.PB_ERR_IS_BUSY ∧
    txBusyState.port_mode = MODE_TX ∧
    ¬ ((pBInRequest stdConfig (readyHw []) 100 5 txBusyState).2.aInItemsQueue
          = txBusyState.aInItemsQueue ∧
       (pBInRequest stdConfig (readyHw []) 100 5 txBusyState).2.pInNext
          = txBusyState.pInNext ∧
       (pBInRequest stdConfig (readyHw []) 100 5 txBusyState).2.nInItems
          = txBusyState.nInItems) := by
  decide

/-- C8 (amended): an input request made while the port is transmitting fails fast with
`PB_ERR_IS_BUSY` and makes no receive step, yet it is queued.  For every state with
`port_mode = MODE_TX`, no hardware error bit set and a free input slot, `pBInRequest(buf, n)`
with valid arguments returns `PB_ERR_IS_BUSY`; the slot under the tail cursor now holds
`(buf, max(n, 0))`, `pInNext` and `nInItems` have advanced by one, one status read was made,
and everything else (output queue, `port_mode`, receive register, destination buffers)
is unchanged. -/
theorem pBInRequest_while_transmitting (c : Config) (hw : Hw) (sItem : Nat) (nMaxSize : Int)
    (st : State)
    (hmode : st.port_mode = MODE_TX)
    (herr : (hw.status st.statusReads % 256) &&& TX_ERROR_MASK = 0)
    (hfree : 0 ≤ st.nInItems ∧ st.nInItems < (MAX_INPUT_ITEMS_COUNTER : Int))
    (hargs : ¬ (sItem = 0 ∧ nMaxSize ≠ 0))
    (hbusy : c.PB_ERR_IS_BUSY ≠ 0) :
    pBInRequest c hw sItem nMaxSize st =
      (c.PB_ERR_IS_BUSY,
        { st with
          statusReads := st.statusReads + 1
          aInItemsQueue := pokes null_in_item st.aInItemsQueue st.pInNext
            [{ pItem := sItem, nMaxSize := if nMaxSize > 0 then nMaxSize else 0 }]
          pInNext := st.pInNext + 1
          nInItems := st.nInItems + 1 }) := by
  have h1 : ¬ (st.nInItems ≥ (MAX_INPUT_ITEMS_COUNTER : Int)) := by omega
  have h2 : st.nInItems + 1 ≠ 0 := by omega
  simp only [pBInRequest, if_neg hargs, GetPortErrorMask, readStatus, herr]
  simp [h1, h2, pBReceive, receiveGate, hmode, hbusy]

theorem pBInRequest_while_transmitting_witness :
    pBInRequest stdConfig (readyHw []) 100 5 txBusyState =
      (stdConfig.PB_ERR_IS_BUSY,
        { txBusyState with
          statusReads := txBusyState.statusReads + 1
          aInItemsQueue := pokes null_in_item txBusyState.aInItemsQueue txBusyState.pInNext
            [{ pItem := 100, nMaxSize := if (5 : Int) > 0 then 5 else 0 }]
          pInNext := txBusyState.pInNext + 1
          nInItems := txBusyState.nInItems + 1 }) :=
  pBInRequest_while_transmitting stdConfig (readyHw []) 100 5 txBusyState
    (by decide) (by decide) (by decide) (by decide) (by decide)

/-- C10 (counterexample): a `pBReceive` call that completes a request at the overflow
boundary and a call that completes a request on a received terminator byte return the
same value. -/
theorem overflow_completion_same_code :
    (headItem overflowHeadState).nMaxSize ≤ 1 ∧
    1 < (headItem roomyHeadState).nMaxSize ∧
    (readyHw [13]).rxd roomyHeadState.rxReads % 256 = ENTER_CODE ∧
    (pBReceive stdConfig (readyHw [13]) 0 overflowHeadState).2.nInItems = 0 ∧
    (pBReceive stdConfig (readyHw [13]) 0 roomyHeadState).2.nInItems = 0 ∧
    (pBReceive stdConfig (readyHw [13]) 0 overflowHeadState).1 =
      (pBReceive stdConfig (readyHw [13]) 0 roomyHeadState).1 := by
  decide

/-- C10 (amended): overflowed completions are not marked in the return value.  Of two
`pBReceive` calls that get past the readiness checks, the one that completes the head
request at the overflow boundary and the one that completes it on a received terminator
byte both return `PB_OK`; they differ in their effect only: the first reads no byte and
stores nothing, the second reads one byte and stores a null at the destination cursor. -/
theorem completion_codes_agree (c : Config) (hw : Hw) (start : Int) (st st1 : State)
    (hgate : receiveGate c hw st = Gate.pass st1) :
    ((headItem st).nMaxSize ≤ 1 →
      (pBReceive c hw start st).1 = c.PB_OK ∧
      (pBReceive c hw start st).2.memLog = st.memLog ∧
      (pBReceive c hw start st).2.rxReads = st.rxReads) ∧
    (1 < (headItem st).nMaxSize → hw.rxd st.rxReads % 256 = ENTER_CODE →
      (pBReceive c hw start st).1 = c.PB_OK ∧
      (pBReceive c hw start st).2.memLog = st.memLog ++ [((headItem st).pItem, 0)] ∧
      (pBReceive c hw start st).2.rxReads = st.rxReads + 1) := by
  obtain ⟨_, _, k, f, s, hst1⟩ := receiveGate_pass c hw st st1 hgate
  have hh : headItem st1 = headItem st := by rw [hst1]; rfl
  have hm : st1.memLog = st.memLog := by rw [hst1]
  have hr : st1.rxReads = st.rxReads := by rw [hst1]
  have e : pBReceive c hw start st = receiveByte c hw st1 := by
    simp only [pBReceive, hgate]
  rw [e]
  constructor
  · intro hov
    rcases receiveByte_cases c hw st1 with ⟨_, h⟩ | ⟨h, _⟩ | ⟨h, _⟩ | ⟨h, _⟩
    · rw [h, termPortBController_rx _ _ rfl]
      obtain ⟨q, hd, t, n, ht, _⟩ := termIn_frame c { st1 with
        port_mode := MODE_RX
        aInItemsQueue := pokes null_in_item st1.aInItemsQueue st1.pInItemsQueue
          [{ pItem := (headItem st1).pItem, nMaxSize := (headItem st1).nMaxSize - 1 }] }
      rw [ht]
      exact ⟨rfl, hm, hr⟩
    all_goals (rw [hh] at h; omega)
  · intro hroom henter
    rw [← hr] at henter
    rcases receiveByte_cases c hw st1 with ⟨h, _⟩ | ⟨_, h, _⟩ | ⟨_, _, h⟩ | ⟨_, _, h, _⟩
    · rw [hh] at h; omega
    · rw [henter] at h; simp [ENTER_CODE] at h
    · rw [h, termPortBController_rx _ _ rfl]
      obtain ⟨q, hd, t, n, ht, _⟩ := termIn_frame c { st1 with
        port_mode := MODE_RX
        rxReads := st1.rxReads + 1
        memLog := st1.memLog ++ [((headItem st1).pItem, 0)]
        aInItemsQueue := pokes null_in_item st1.aInItemsQueue st1.pInItemsQueue
          [{ pItem := (headItem st1).pItem, nMaxSize := (headItem st1).nMaxSize - 1 }] }
      rw [ht]
      refine ⟨rfl, ?_, ?_⟩
      · show st1.memLog ++ [((headItem st1).pItem, 0)] = _
        rw [hm, hh]
      · show st1.rxReads + 1 = _
        rw [hr]
    · exact absurd henter h

theorem completion_codes_agree_witness :
    ((pBReceive stdConfig (readyHw [13]) 0 overflowHeadState).1 = stdConfig.PB_OK ∧
      (pBReceive stdConfig (readyHw [13]) 0 overflowHeadState).2.memLog
        = overflowHeadState.memLog ∧
      (pBReceive stdConfig (readyHw [13]) 0 overflowHeadState).2.rxReads
        = overflowHeadState.rxReads) ∧
    ((pBReceive stdConfig (readyHw [13]) 0 roomyHeadState).1 = stdConfig.PB_OK ∧
      (pBReceive stdConfig (readyHw [13]) 0 roomyHeadState).2.memLog
        = roomyHeadState.memLog ++ [((headItem roomyHeadState).pItem, 0)] ∧
      (pBReceive stdConfig (readyHw [13]) 0 roomyHeadState).2.rxReads
        = roomyHeadState.rxReads + 1) :=
  ⟨(completion_codes_agree stdConfig (readyHw [13]) 0 overflowHeadState
      { overflowHeadState with statusReads := overflowHeadState.statusReads + 1 }
      (by decide)).1 (by decide),
   (completion_codes_agree stdConfig (readyHw [13]) 0 roomyHeadState
      { roomyHeadState with statusReads := roomyHeadState.statusReads + 1 }
      (by decide)).2 (by decide) (by decide)⟩

/-- C11: zero-size input request.  When the head request has remaining capacity 0 (it
was pushed with `maxSize = 0`, the buffer possibly null) and a `pBReceive` call gets
past its readiness checks (the receiver is found ready), the call returns `PB_OK`, takes
the request off the queue (`nInItems` one less), releases the port (`MODE_NONE`), stores
nothing through the destination pointer and reads no byte from the receive register. -/
theorem zero_size_request (c : Config) (hw : Hw) (start : Int) (st st1 : State)
    (hgate : receiveGate c hw st = Gate.pass st1)
    (hzero : (headItem st).nMaxSize = 0) (hpos : 0 < st.nInItems) :
    (pBReceive c hw start st).1 = c.PB_OK ∧
    (pBReceive c hw start st).2.nInItems = st.nInItems - 1 ∧
    (pBReceive c hw start st).2.port_mode = MODE_NONE ∧
    (pBReceive c hw start st).2.memLog = st.memLog ∧
    (pBReceive c hw start st).2.rxReads = st.rxReads := by
  obtain ⟨_, _, k, f, s, hst1⟩ := receiveGate_pass c hw st st1 hgate
  have hh : headItem st1 = headItem st := by rw [hst1]; rfl
  have e : pBReceive c hw start st = receiveByte c hw st1 := by
    simp only [pBReceive, hgate]
  rw [e]
  rcases receiveByte_cases c hw st1 with ⟨_, h⟩ | ⟨h, _⟩ | ⟨h, _⟩ | ⟨h, _⟩
  · rw [h, termPortBController_rx _ _ rfl]
    obtain ⟨q, hd, t, m, ht, hm⟩ := termIn_frame c { st1 with
      port_mode := MODE_RX
      aInItemsQueue := pokes null_in_item st1.aInItemsQueue st1.pInItemsQueue
        [{ pItem := (headItem st1).pItem, nMaxSize := (headItem st1).nMaxSize - 1 }] }
    rw [ht]
    refine ⟨rfl, ?_, rfl, ?_, ?_⟩
    · show m = _
      have : st1.nInItems = st.nInItems := by rw [hst1]
      rw [← this]
      exact hm (by show 0 < st1.nInItems; omega)
    · show st1.memLog = _
      rw [hst1]
    · show st1.rxReads = _
      rw [hst1]
  all_goals (rw [hh] at h; omega)

theorem zero_size_request_witness :
    (pBReceive stdConfig (readyHw []) 0 zeroRequestState).1 = stdConfig.PB_OK ∧
    (pBReceive stdConfig (readyHw []) 0 zeroRequestState).2.nInItems
      = zeroRequestState.nInItems - 1 ∧
    (pBReceive stdConfig (readyHw []) 0 zeroRequestState).2.port_mode = MODE_NONE ∧
    (pBReceive stdConfig (readyHw []) 0 zeroRequestState).2.memLog
      = zeroRequestState.memLog ∧
    (pBReceive stdConfig (readyHw []) 0 zeroRequestState).2.rxReads
      = zeroRequestState.rxReads :=
  zero_size_request stdConfig (readyHw []) 0 zeroRequestState
    { zeroRequestState with isr_pb := 0, isr_pb_state := 0 }
    (by decide) (by decide) (by decide)

/-- C12: two queued input requests, polled mode.  On an empty input queue the requests
`(buf1, m1)` and `(buf2, m2)` are made while the receiver is silent (each `pBInRequest`
runs out its busy-wait, so no byte is received before both are queued); then the bytes
of `l1`, the terminator, the bytes of `l2` and the terminator arrive, one per
`pBReceive(0)` call.  With `l1`, `l2` free of zero and terminator bytes, `|l_i| ≤ m_i - 2`
and the two buffers apart: both requests return `PB_ERR_NONE`, every byte call returns
`PB_ERR_NONE` and the two terminator calls return `PB_OK` (exactly two `PB_OK`), `buf1`
holds `l1` followed by a null, `buf2` holds `l2` followed by a null, nothing else is
stored, and `nInItems` is 0 at the end with the port idle.  Holds for both queue
policies. -/
theorem two_queued_requests (c : Config) (hw : Hw) (buf1 buf2 : Nat) (m1 m2 : Int)
    (l1 l2 : List Nat) (st : State)
    (hcodes : c.PB_ERR_NONE ≠ c.PB_OK)
    (hempty : st.nInItems = 0 ∧ st.pInNext = 0 ∧ st.pInItemsQueue = 0)
    (hmode : st.port_mode ≠ MODE_TX)
    (hirq : pBIsIRQEnabled c.PB_EIRC st = 0)
    (hbuf : buf1 ≠ 0 ∧ buf2 ≠ 0)
    (hl1 : ∀ b, b ∈ l1 → b ≠ 0 ∧ b ≠ ENTER_CODE)
    (hl2 : ∀ b, b ∈ l2 → b ≠ 0 ∧ b ≠ ENTER_CODE)
    (hm1 : (l1.length : Int) ≤ m1 - 2) (hm2 : (l2.length : Int) ≤ m2 - 2)
    (hdisj : buf1 + l1.length < buf2 ∨ buf2 + l2.length < buf1)
    (hquiet : ∀ i, i < 2 * (DEFAULT_TIMEOUT + 1) →
      hw.status (st.statusReads + i) % 256 &&& RXRDY = 0 ∧
      hw.status (st.statusReads + i) % 256 &&& TX_ERROR_MASK = 0)
    (hready : ∀ i, i < l1.length + 1 + (l2.length + 1) →
      hw.status (st.statusReads + 2 * (DEFAULT_TIMEOUT + 1) + i) % 256 &&& RXRDY ≠ 0)
    (hrx : ∀ i, i < l1.length + 1 + (l2.length + 1) →
      hw.rxd (st.rxReads + i) % 256 = (l1 ++ [ENTER_CODE] ++ (l2 ++ [ENTER_CODE])).getD i 0) :
    (rxRun c hw (RxCall.request buf1 m1 :: RxCall.request buf2 m2 ::
        List.replicate (l1.length + 1 + (l2.length + 1)) (RxCall.receive 0)) st).1
      = c.PB_ERR_NONE :: c.PB_ERR_NONE ::
        (List.replicate l1.length c.PB_ERR_NONE ++ [c.PB_OK] ++
          (List.replicate l2.length c.PB_ERR_NONE ++ [c.PB_OK])) ∧
    ((rxRun c hw (RxCall.request buf1 m1 :: RxCall.request buf2 m2 ::
        List.replicate (l1.length + 1 + (l2.length + 1)) (RxCall.receive 0)) st).1.count
      c.PB_OK = 2) ∧
    (∀ i, i ≤ l1.length →
      memAt (rxRun c hw (RxCall.request buf1 m1 :: RxCall.request buf2 m2 ::
        List.replicate (l1.length + 1 + (l2.length + 1)) (RxCall.receive 0)) st).2.memLog
        (buf1 + i) = some ((l1 ++ [0]).getD i 0)) ∧
    (∀ i, i ≤ l2.length →
      memAt (rxRun c hw (RxCall.request buf1 m1 :: RxCall.request buf2 m2 ::
        List.replicate (l1.length + 1 + (l2.length + 1)) (RxCall.receive 0)) st).2.memLog
        (buf2 + i) = some ((l2 ++ [0]).getD i 0)) ∧
    (rxRun c hw (RxCall.request buf1 m1 :: RxCall.request buf2 m2 ::
        List.replicate (l1.length + 1 + (l2.length + 1)) (RxCall.receive 0)) st).2.memLog
      = st.memLog ++ lineStores buf1 l1 ++ lineStores buf2 l2 ∧
    (rxRun c hw (RxCall.request buf1 m1 :: RxCall.request buf2 m2 ::
        List.replicate (l1.length + 1 + (l2.length + 1)) (RxCall.receive 0)) st).2.nInItems
      = 0 ∧
    (rxRun c hw (RxCall.request buf1 m1 :: RxCall.request buf2 m2 ::
        List.replicate (l1.length + 1 + (l2.length + 1)) (RxCall.receive 0)) st).2.port_mode
      = MODE_NONE := by
  obtain ⟨h0n, h0t, h0h⟩ := hempty
  have hp1 : m1 > 0 := by omega
  have hp2 : m2 > 0 := by omega
  have hT : DEFAULT_TIMEOUT = 1000000 := rfl
  have hq1 := pBInRequest_queued c hw buf1 m1 st hbuf.1 (by rw [h0n]; decide)
    (by rw [h0n]) hmode hirq (hquiet 0 (by omega)).2
    (fun i hi => by
      have := (hquiet (1 + i) (by omega)).1
      rw [← Nat.add_assoc] at this
      exact this)
  simp only [hp1, if_true] at hq1
  have hq2 := pBInRequest_queued c hw buf2 m2 { st with
      statusReads := st.statusReads + 1 + DEFAULT_TIMEOUT
      aInItemsQueue := pokes null_in_item st.aInItemsQueue st.pInNext
        [{ pItem := buf1, nMaxSize := m1 }]
      pInNext := st.pInNext + 1
      nInItems := st.nInItems + 1 } hbuf.2
    (by show st.nInItems + 1 < _; rw [h0n]; decide)
    (by show 0 ≤ st.nInItems + 1; omega) hmode hirq
    (by
      have := (hquiet (1 + DEFAULT_TIMEOUT) (by omega)).2
      rw [← Nat.add_assoc] at this
      exact this)
    (fun i hi => by
      have := (hquiet (1 + DEFAULT_TIMEOUT + 1 + i) (by omega)).1
      rw [← Nat.add_assoc, ← Nat.add_assoc, ← Nat.add_assoc] at this
      exact this)
  simp only [hp2, if_true] at hq2
  obtain ⟨F, hF, hlog, hnF, _, _, hmF⟩ := rxRun_two_lines c hw buf1 buf2 m1 m2 l1 l2
    { st with
      statusReads := st.statusReads + 1 + DEFAULT_TIMEOUT + 1 + DEFAULT_TIMEOUT
      aInItemsQueue := pokes null_in_item
        (pokes null_in_item st.aInItemsQueue st.pInNext [{ pItem := buf1, nMaxSize := m1 }])
        (st.pInNext + 1) [{ pItem := buf2, nMaxSize := m2 }]
      pInNext := st.pInNext + 1 + 1
      nInItems := st.nInItems + 1 + 1 }
    (by show st.nInItems + 1 + 1 = 2; omega) (by show st.pInNext + 1 + 1 = 2; omega) h0h
    hmode hirq
    (by
      show (pokes null_in_item (pokes null_in_item st.aInItemsQueue st.pInNext _)
        (st.pInNext + 1) _).getD st.pInItemsQueue null_in_item = _
      rw [h0t, h0h, getD_pokes_other _ _ _ (0 + 1) 0 (by decide), getD_pokes_self])
    (by
      show (pokes null_in_item (pokes null_in_item st.aInItemsQueue st.pInNext _)
        (st.pInNext + 1) _).getD 1 null_in_item = _
      rw [h0t]
      exact getD_pokes_self _ _ _ _ _)
    hl1 hl2 (by omega) (by omega)
    (fun i hi => by
      have := hready i hi
      rw [show st.statusReads + 2 * (DEFAULT_TIMEOUT + 1) + i
        = st.statusReads + 1 + DEFAULT_TIMEOUT + 1 + DEFAULT_TIMEOUT + i by omega] at this
      exact this)
    hrx
  have hrun : rxRun c hw (RxCall.request buf1 m1 :: RxCall.request buf2 m2 ::
      List.replicate (l1.length + 1 + (l2.length + 1)) (RxCall.receive 0)) st
      = (c.PB_ERR_NONE :: c.PB_ERR_NONE ::
          (List.replicate l1.length c.PB_ERR_NONE ++ [c.PB_OK] ++
            (List.replicate l2.length c.PB_ERR_NONE ++ [c.PB_OK])), F) := by
    generalize List.replicate (l1.length + 1 + (l2.length + 1)) (RxCall.receive 0) = rest
      at hF
    simp only [rxRun, hq1, hq2, hF]
  have hlogF : F.memLog = st.memLog ++ lineStores buf1 l1 ++ lineStores buf2 l2 := hlog
  rw [hrun]
  refine ⟨rfl, ?_, ?_, ?_, hlogF, hnF, hmF⟩
  · have hne : ¬ (c.PB_ERR_NONE == c.PB_OK) = true := by simpa using hcodes
    simp [List.count_cons, List.count_append, List.count_replicate, hne]
  · intro i hi
    show memAt F.memLog (buf1 + i) = _
    rw [hlogF, memAt_append, memAt_append,
      memAt_lineStores_none l2 buf2 (buf1 + i) (by omega), memAt_lineStores l1 buf1 i hi]
    rfl
  · intro i hi
    show memAt F.memLog (buf2 + i) = _
    rw [hlogF, memAt_append, memAt_lineStores l2 buf2 i hi]
    rfl

theorem two_queued_requests_witness :
    (rxRun stdConfig
        (lineHw (freshState.statusReads + 2 * (DEFAULT_TIMEOUT + 1))
          [97, 98, 13, 120, 121, 122, 13])
        (RxCall.request 100 5 :: RxCall.request 200 5 ::
          List.replicate ([97, 98].length + 1 + ([120, 121, 122].length + 1))
            (RxCall.receive 0)) freshState).1
      = stdConfig.PB_ERR_NONE :: stdConfig.PB_ERR_NONE ::
        (List.replicate [97, 98].length stdConfig.PB_ERR_NONE ++ [stdConfig.PB_OK] ++
          (List.replicate [120, 121, 122].length stdConfig.PB_ERR_NONE
            ++ [stdConfig.PB_OK])) ∧
    (rxRun stdConfig
        (lineHw (freshState.statusReads + 2 * (DEFAULT_TIMEOUT + 1))
          [97, 98, 13, 120, 121, 122, 13])
        (RxCall.request 100 5 :: RxCall.request 200 5 ::
          List.replicate ([97, 98].length + 1 + ([120, 121, 122].length + 1))
            (RxCall.receive 0)) freshState).2.memLog
      = freshState.memLog ++ lineStores 100 [97, 98] ++ lineStores 200 [120, 121, 122] ∧
    (rxRun stdConfig
        (lineHw (freshState.statusReads + 2 * (DEFAULT_TIMEOUT + 1))
          [97, 98, 13, 120, 121, 122, 13])
        (RxCall.request 100 5 :: RxCall.request 200 5 ::
          List.replicate ([97, 98].length + 1 + ([120, 121, 122].length + 1))
            (RxCall.receive 0)) freshState).2.nInItems = 0 :=
  have h := two_queued_requests stdConfig
    (lineHw (freshState.statusReads + 2 * (DEFAULT_TIMEOUT + 1))
      [97, 98, 13, 120, 121, 122, 13])
    100 200 5 5 [97, 98] [120, 121, 122] freshState
    (by decide) (by decide) (by decide) (by decide) (by decide) (by decide) (by decide)
    (by decide) (by decide) (by decide)
    (fun i hi => by
      have h : freshState.statusReads + i
          < freshState.statusReads + 2 * (DEFAULT_TIMEOUT + 1) := by omega
      simp only [lineHw, h, if_true]
      exact ⟨rfl, rfl⟩)
    (fun i _ => by
      have h : ¬ freshState.statusReads + 2 * (DEFAULT_TIMEOUT + 1) + i
          < freshState.statusReads + 2 * (DEFAULT_TIMEOUT + 1) := by omega
      simp only [lineHw, h, if_false]
      exact (by decide : RXRDY % 256 &&& RXRDY ≠ 0))
    (by decide)
  ⟨h.1, h.2.2.2.2.1, h.2.2.2.2.2.1⟩

/-- C14: non-blocking receive in interrupt mode.  With the receive interrupt enabled,
`nInItems > 0`, the port not transmitting and the trigger flag `isr_pb` clear,
`pBReceive` returns `PB_ERR_NONE` and the whole state is unchanged: no status or receive
register read, no store, queue, `port_mode` and `isr_pb_state` as before. -/
theorem irq_receive_nonblocking (c : Config) (hw : Hw) (start : Int) (st : State)
    (hirq : pBIsIRQEnabled c.PB_EIRC st ≠ 0) (hn : 0 < st.nInItems)
    (hmode : st.port_mode ≠ MODE_TX) (hflag : st.isr_pb = 0) :
    pBReceive c hw start st = (c.PB_ERR_NONE, st) := by
  have h0 : st.nInItems ≠ 0 := by omega
  simp [pBReceive, receiveGate, h0, hmode, hirq, hflag]

theorem irq_receive_nonblocking_witness :
    pBReceive stdConfig (readyHw [97]) 0 waitingRequestState
      = (stdConfig.PB_ERR_NONE, waitingRequestState) :=
  irq_receive_nonblocking stdConfig (readyHw [97]) 0 waitingRequestState
    (by decide) (by decide) (by decide) (by decide)

/-- C15 (counterexample): transmit interrupt enabled, one item queued, the port idle
(`MODE_NONE`) and no interrupt pending: `pBSend(0)` writes the first byte to the
transmit register, advances the head cursor and sets `port_mode` to `MODE_TX`. -/
theorem irq_send_starts_from_idle :
    pBIsIRQEnabled stdConfig.PB_EITR irqQueuedState ≠ 0 ∧
    0 < irqQueuedState.nOutItems ∧
    irqQueuedState.port_mode = MODE_NONE ∧
    irqQueuedState.isr_pb = 0 ∧
    (pBSend stdConfig (readyHw []) 0 irqQueuedState).2.txLog = irqQueuedState.txLog ++ [97] ∧
    (pBSend stdConfig (readyHw []) 0 irqQueuedState).2.pOutItemsQueue
      = irqQueuedState.pOutItemsQueue + 1 ∧
    (pBSend stdConfig (readyHw []) 0 irqQueuedState).2.port_mode = MODE_TX := by
  decide

/-- C15 (amended): non-blocking transmit in interrupt mode, once the transfer is under
way.  With the transmit interrupt enabled, `nOutItems > 0`, `port_mode = MODE_TX` and
the trigger flag `isr_pb` clear, `pBSend(0)` returns `PB_ERR_NONE` and the whole state is
unchanged. -/
theorem irq_send_nonblocking (c : Config) (hw : Hw) (st : State)
    (hirq : pBIsIRQEnabled c.PB_EITR st ≠ 0) (hn : 0 < st.nOutItems)
    (hmode : st.port_mode = MODE_TX) (hflag : st.isr_pb = 0) :
    pBSend c hw 0 st = (c.PB_ERR_NONE, st) := by
  have h0 : st.nOutItems ≠ 0 := by omega
  simp [pBSend, h0, hmode, hirq, hflag, MODE_RX, MODE_TX]

theorem irq_send_nonblocking_witness :
    pBSend stdConfig (readyHw []) 0 irqSendingState
      = (stdConfig.PB_ERR_NONE, irqSendingState) :=
  irq_send_nonblocking stdConfig (readyHw []) irqSendingState
    (by decide) (by decide) (by decide) (by decide)

/-- C16: polled transmit timeout.  With the transmit interrupt disabled, `nOutItems > 0`,
the port not receiving, a non-null byte at the head cursor and `TXRDY` (busy) set at
each of `DEFAULT_TIMEOUT` consecutive status reads, `pBSend` returns
`PB_ERR_IS_NOT_READY` (for status codes with `PB_ERR_NONE = 0` and a non-zero
`PB_ERR_IS_NOT_READY`); the transmit log and the output queue (bytes, both cursors,
`nOutItems`) are unchanged, the only changes being `port_mode = MODE_TX`, the cleared
trigger flag and the status reads spent.  A retry that finds the transmitter ready sends
that same byte. -/
theorem polled_send_timeout (c : Config) (hw : Hw) (start : Int) (st : State)
    (hnone : c.PB_ERR_NONE = 0) (hcode : c.PB_ERR_IS_NOT_READY ≠ 0)
    (hirq : pBIsIRQEnabled c.PB_EITR st = 0) (hn : 0 < st.nOutItems)
    (hmode : st.port_mode ≠ MODE_RX)
    (hbyte : st.aOutItemsQueue.getD st.pOutItemsQueue 0 ≠ 0)
    (hbusy : ∀ i, i < DEFAULT_TIMEOUT →
      hw.status (st.statusReads + i) % 256 &&& TXRDY ≠ 0) :
    pBSend c hw start st =
      (c.PB_ERR_IS_NOT_READY,
        { st with port_mode := MODE_TX, isr_pb := 0,
                  statusReads := st.statusReads + DEFAULT_TIMEOUT }) ∧
    (hw.status (st.statusReads + DEFAULT_TIMEOUT) % 256 &&& TXRDY = 0 →
      (pBSend c hw start (pBSend c hw start st).2).2.txLog
        = st.txLog ++ [st.aOutItemsQueue.getD st.pOutItemsQueue 0]) := by
  have h0 : st.nOutItems ≠ 0 := by omega
  have hb := IsTXPortReady_busy hw { st with port_mode := MODE_TX, isr_pb := 0 } hbusy
  have e : pBSend c hw start st =
      (c.PB_ERR_IS_NOT_READY,
        { st with port_mode := MODE_TX, isr_pb := 0,
                  statusReads := st.statusReads + DEFAULT_TIMEOUT }) := by
    simp only [pBSend, if_neg h0, if_neg hmode, hirq, sendByte, if_neg hbyte, hb]
    simp [hcode, hnone, lor_zero_right]
  refine ⟨e, ?_⟩
  intro hready
  rw [e]
  have hr := IsTXPortReady_ready hw
    { st with
      port_mode := MODE_TX
      isr_pb := 0
      statusReads := st.statusReads + DEFAULT_TIMEOUT } hready
  have hirq2 : pBIsIRQEnabled c.PB_EITR
      { st with
        port_mode := MODE_TX
        isr_pb := 0
        statusReads := st.statusReads + DEFAULT_TIMEOUT } = 0 := hirq
  simp only [pBSend, if_neg h0, hirq2, sendByte, if_neg hbyte, hr]
  simp [lor_zero_left, MODE_RX, MODE_TX]

theorem polled_send_timeout_witness :
    pBSend stdConfig busyHw 0 queuedState =
      (stdConfig.PB_ERR_IS_NOT_READY,
        { queuedState with
          port_mode := MODE_TX
          isr_pb := 0
          statusReads := queuedState.statusReads + DEFAULT_TIMEOUT }) :=
  (polled_send_timeout stdConfig busyHw 0 queuedState (by decide) (by decide) (by decide)
    (by decide) (by decide) (by decide)
    (fun _ _ => (by decide : TXRDY % 256 &&& TXRDY ≠ 0))).1

/-- C17 (counterexample): a polled `pBReceive` with a pending request whose receiver
never becomes ready returns `PB_ERR_NONE`, which is not `PB_ERR_IS_NOT_READY`. -/
theorem polled_receive_timeout_code :
    (pBReceive stdConfig deafHw 0 roomyHeadState).1 = stdConfig.PB_ERR_NONE ∧
    (pBReceive stdConfig deafHw 0 roomyHeadState).1 ≠ stdConfig.PB_ERR_IS_NOT_READY := by
  have h := pBReceive_polled_timeout stdConfig deafHw 0 roomyHeadState (by decide)
    (by decide) (by decide) (fun _ _ => (by decide : 0 % 256 &&& RXRDY = 0))
  rw [h]
  exact ⟨rfl, by decide⟩

/-- C17 (amended): polled receive timeout.  With the receive interrupt disabled,
`nInItems > 0`, the port not transmitting and `RXRDY` clear at each of `DEFAULT_TIMEOUT`
consecutive status reads, `pBReceive` returns `PB_ERR_NONE` (the continue code, not an
error) and changes nothing but the count of status reads: the input queue, `port_mode`,
the receive register and the destination buffers are untouched. -/
theorem polled_receive_timeout (c : Config) (hw : Hw) (start : Int) (st : State)
    (hirq : pBIsIRQEnabled c.PB_EIRC st = 0) (hn : 0 < st.nInItems)
    (hmode : st.port_mode ≠ MODE_TX)
    (hdeaf : ∀ i, i < DEFAULT_TIMEOUT →
      hw.status (st.statusReads + i) % 256 &&& RXRDY = 0) :
    pBReceive c hw start st =
      (c.PB_ERR_NONE, { st with statusReads := st.statusReads + DEFAULT_TIMEOUT }) :=
  pBReceive_polled_timeout c hw start st hirq hn hmode hdeaf

theorem polled_receive_timeout_witness :
    pBReceive stdConfig deafHw 0 roomyHeadState =
      (stdConfig.PB_ERR_NONE,
        { roomyHeadState with statusReads := roomyHeadState.statusReads + DEFAULT_TIMEOUT }) :=
  polled_receive_timeout stdConfig deafHw 0 roomyHeadState (by decide)
    (by decide) (by decide) (fun _ _ => (by decide : 0 % 256 &&& RXRDY = 0))

/-- C18 (counterexample): hardware that reports a parity error (status bit `0x04`) at
every read.  A polled `pBSend` with a queued item writes its first byte, advances the
head cursor, sets `MODE_TX` and returns `PB_ERR_NONE`; a polled `pBReceive` with a
pending request reads a byte, sets `MODE_RX` and returns `PB_ERR_NONE`. -/
theorem steppers_ignore_status_errors :
    errorHw.status queuedState.statusReads % 256 &&& TX_ERROR_MASK = 4 ∧
    (pBSend stdConfig errorHw 0 queuedState).1 = stdConfig.PB_ERR_NONE ∧
    (pBSend stdConfig errorHw 0 queuedState).2.txLog = queuedState.txLog ++ [97] ∧
    (pBSend stdConfig errorHw 0 queuedState).2.pOutItemsQueue
      = queuedState.pOutItemsQueue + 1 ∧
    (pBSend stdConfig errorHw 0 queuedState).2.port_mode = MODE_TX ∧
    (pBReceive stdConfig errorHw 0 roomyHeadState).1 = stdConfig.PB_ERR_NONE ∧
    (pBReceive stdConfig errorHw 0 roomyHeadState).2.rxReads
      = roomyHeadState.rxReads + 1 ∧
    (pBReceive stdConfig errorHw 0 roomyHeadState).2.port_mode = MODE_RX := by
  decide

/-- C18 (amended): the only line-error check of the steppers.  In a build with
`PB_CHECK_ERRORS`, with the receive interrupt enabled, `nInItems > 0`, the port not
transmitting, the trigger flag set and the reason byte captured by the interrupt handler
showing `RXRDY` together with a bit of `TX_ERROR_MASK`, `pBReceive` returns that error
mask; it reads no byte, stores nothing, moves no cursor and leaves `port_mode`
unchanged, the only change being the cleared trigger flag. -/
theorem irq_receive_line_error (c : Config) (hw : Hw) (start : Int) (st : State)
    (hcheck : c.PB_CHECK_ERRORS = true)
    (hirq : pBIsIRQEnabled c.PB_EIRC st ≠ 0) (hn : 0 < st.nInItems)
    (hmode : st.port_mode ≠ MODE_TX) (hflag : st.isr_pb ≠ 0)
    (hready : st.isr_pb_state &&& RXRDY ≠ 0)
    (herr : st.isr_pb_state &&& TX_ERROR_MASK ≠ 0) :
    pBReceive c hw start st =
      (((st.isr_pb_state &&& TX_ERROR_MASK : Nat) : Int), { st with isr_pb := 0 }) := by
  have h0 : st.nInItems ≠ 0 := by omega
  have hs : st.isr_pb_state ≠ 0 := by
    intro h
    rw [h] at hready
    exact hready (by simp)
  have he : ((st.isr_pb_state &&& TX_ERROR_MASK : Nat) : Int) ≠ 0 := by
    exact_mod_cast herr
  simp [pBReceive, receiveGate, h0, hmode, hirq, hflag, IRQ_TIMEOUT, IsRXPortReady, hready,
    hcheck, GetPortErrorMask, hs, he]

theorem irq_receive_line_error_witness :
    pBReceive stdConfig (readyHw [97]) 0 lineErrorState =
      (((lineErrorState.isr_pb_state &&& TX_ERROR_MASK : Nat) : Int),
        { lineErrorState with isr_pb := 0 }) :=
  irq_receive_line_error stdConfig (readyHw [97]) 0 lineErrorState (by decide) (by decide)
    (by decide) (by decide) (by decide) (by decide) (by decide)

/-- C19: initialisation resets all queue state.  For every prior state, after `pBInit`
`nInItems = 0` and `nOutItems = 0`, the head and tail cursors of both queues are at the
first element of their arrays, each of the `MAX_INPUT_ITEMS_COUNTER` input slots is
`{null, 0}`, `aOutItemsQueue[0]` is the null terminator and `port_mode = MODE_NONE`. -/
theorem init_resets_queues (c : Config) (hw : Hw) (rx tx : Int) (st : State) :
    (pBInit c hw rx tx st).2.nInItems = 0 ∧
    (pBInit c hw rx tx st).2.nOutItems = 0 ∧
    (pBInit c hw rx tx st).2.pInItemsQueue = 0 ∧
    (pBInit c hw rx tx st).2.pInNext = 0 ∧
    (pBInit c hw rx tx st).2.pOutItemsQueue = 0 ∧
    (pBInit c hw rx tx st).2.pOutNext = 0 ∧
    (pBInit c hw rx tx st).2.aInItemsQueue.take MAX_INPUT_ITEMS_COUNTER
      = List.replicate MAX_INPUT_ITEMS_COUNTER { pItem := 0, nMaxSize := 0 } ∧
    (pBInit c hw rx tx st).2.aOutItemsQueue.take 1 = [0] ∧
    (pBInit c hw rx tx st).2.port_mode = MODE_NONE := by
  obtain ⟨ier, h⟩ := pBInit_state c hw rx tx st
  rw [h]
  refine ⟨rfl, rfl, rfl, rfl, rfl, rfl, ?_, rfl, rfl⟩
  show (List.replicate MAX_INPUT_ITEMS_COUNTER null_in_item ++ _).take _ = _
  rw [List.take_left' (by simp)]
  rfl

/-- C20 (counterexample): in a build without `PB_CLEAN_REGISTER`, `pBInit` on a control
register holding `0xFF` leaves it at `0xFF`: the loopback bit stays set and the speed
field stays `0x06`, not `SPEED_38400`. -/
theorem init_keeps_prior_bits :
    orOnlyConfig.PB_CLEAN_REGISTER = false ∧
    loopedState.CNR = 0xFF ∧
    (pBInit orOnlyConfig (readyHw []) 0 0 loopedState).2.CNR = 0xFF ∧
    (pBInit orOnlyConfig (readyHw []) 0 0 loopedState).2.CNR &&& 0x08 ≠ 0 ∧
    (pBInit orOnlyConfig (readyHw []) 0 0 loopedState).2.CNR &&& 0x06 ≠ SPEED_38400 := by
  decide

/-- C20 (amended): in a build with `PB_CLEAN_REGISTER`, initialisation applies the
default line settings whatever the control register held before: after `pBInit` the
shadow `pb_cnr_saved` holds the prior value of `CNR`, and `CNR` has the parity bit `0x10`
set, the loopback bit `0x08` clear, the speed field (mask `0x06`) equal to `SPEED_38400`
and the ready bit `0x01` set. -/
theorem init_line_defaults (c : Config) (hw : Hw) (rx tx : Int) (st : State)
    (hclean : c.PB_CLEAN_REGISTER = true) :
    (pBInit c hw rx tx st).2.pb_cnr_saved = st.CNR ∧
    (pBInit c hw rx tx st).2.CNR &&& 0x10 = 0x10 ∧
    (pBInit c hw rx tx st).2.CNR &&& 0x08 = 0 ∧
    (pBInit c hw rx tx st).2.CNR &&& 0x06 = SPEED_38400 ∧
    (pBInit c hw rx tx st).2.CNR &&& 0x01 = 0x01 := by
  obtain ⟨ier, h⟩ := pBInit_state c hw rx tx st
  rw [h]
  show st.CNR = st.CNR ∧ (initPortBController c st).CNR &&& 0x10 = 0x10 ∧ _
  rw [initPortBController_CNR c st hclean]
  exact ⟨rfl, cnrDefaults_bits _ (Nat.mod_lt _ (by decide))⟩

theorem init_line_defaults_witness :
    (pBInit stdConfig (readyHw []) 0 0 loopedState).2.pb_cnr_saved = loopedState.CNR ∧
    (pBInit stdConfig (readyHw []) 0 0 loopedState).2.CNR &&& 0x10 = 0x10 ∧
    (pBInit stdConfig (readyHw []) 0 0 loopedState).2.CNR &&& 0x08 = 0 ∧
    (pBInit stdConfig (readyHw []) 0 0 loopedState).2.CNR &&& 0x06 = SPEED_38400 ∧
    (pBInit stdConfig (readyHw []) 0 0 loopedState).2.CNR &&& 0x01 = 0x01 :=
  init_line_defaults stdConfig (readyHw []) 0 0 loopedState rfl

/-- C21 (counterexample): in a build without `PB_USE_PORT_INTERRUPTS` the body of
`SetIRQStatus` is empty: after `SetIRQStatus(1, 1)` on a cleared register
`pBIsIRQEnabled(1)` is still 0, and after `SetIRQStatus(0, 0)` on a register holding
`0x03` `pBIsIRQEnabled(0)` is still 1. -/
theorem irq_status_without_interrupts :
    noIrqConfig.PB_USE_PORT_INTERRUPTS = false ∧
    SetIRQStatus noIrqConfig 1 1 bootState = bootState ∧
    pBIsIRQEnabled 1 (SetIRQStatus noIrqConfig 1 1 bootState) = 0 ∧
    pBIsIRQEnabled 0 (SetIRQStatus noIrqConfig 0 0 { bootState with IER := 0x03 }) = 1 := by
  decide

/-- C21 (amended): in a build with `PB_USE_PORT_INTERRUPTS`, for every value of the
interrupt-enable register, every mode `m` in `{0, 1}` and every flag `e`: after
`SetIRQStatus(m, e)`, `pBIsIRQEnabled(m)` is 1 if `e` is non-zero and 0 otherwise,
`pBIsIRQEnabled(1 - m)` is what it was before, the register bits other than the one
selected by `m` (`0x02` for receive, `0x01` for transmit) are unchanged and nothing but
the register is touched; `pBIsIRQEnabled` always returns 0 or 1. -/
theorem irq_status_independent (c : Config) (mode e : Int) (st : State)
    (huse : c.PB_USE_PORT_INTERRUPTS = true) (hm : mode = 0 ∨ mode = 1) :
    pBIsIRQEnabled mode (SetIRQStatus c mode e st) = (if e ≠ 0 then 1 else 0) ∧
    pBIsIRQEnabled (1 - mode) (SetIRQStatus c mode e st) = pBIsIRQEnabled (1 - mode) st ∧
    (SetIRQStatus c mode e st).IER &&& (if mode ≠ 0 then 0xFD else 0xFE)
      = st.IER &&& (if mode ≠ 0 then 0xFD else 0xFE) ∧
    (∃ ier, SetIRQStatus c mode e st = { st with IER := ier }) ∧
    (pBIsIRQEnabled mode st = 0 ∨ pBIsIRQEnabled mode st = 1) := by
  obtain ⟨b1, b2, b3, b4, b5, b6, b7, b8, b9, b10, b11, b12⟩ :=
    ier_bits (st.IER % 256) (Nat.mod_lt _ (by decide))
  have m1 := and_mask_mod st.IER 1 (by decide)
  have m2 := and_mask_mod st.IER 2 (by decide)
  have mD := and_mask_mod st.IER 0xFD (by decide)
  have mE := and_mask_mod st.IER 0xFE (by decide)
  have o21 := and_or_bit_mod st.IER 2 1 (by decide)
  have o22 := and_or_bit_mod st.IER 2 2 (by decide)
  have o2D := and_or_bit_mod st.IER 2 0xFD (by decide)
  have o11 := and_or_bit_mod st.IER 1 1 (by decide)
  have o12 := and_or_bit_mod st.IER 1 2 (by decide)
  have o1E := and_or_bit_mod st.IER 1 0xFE (by decide)
  have h10 : (1 : Int) ≠ 0 := by decide
  have hI := SetIRQStatus_IER c mode e st huse
  refine ⟨?_, ?_, ?_, SetIRQStatus_frame c mode e st, ?_⟩
  · rw [pBIsIRQEnabled_eq, hI]
    rcases hm with rfl | rfl <;> by_cases he : e = 0
    · simp only [he, ne_eq, not_true_eq_false, if_false]
      rw [mE, b10]; rfl
    · simp only [he, ne_eq, not_true_eq_false, not_false_eq_true, if_true, if_false]
      rw [o11, if_pos b4]
    · simp only [he, ne_eq, not_true_eq_false, h10, not_false_eq_true, if_true, if_false]
      rw [mD, b7]; rfl
    · simp only [he, ne_eq, h10, not_false_eq_true, if_true]
      rw [o22, if_pos b1]
  · rw [pBIsIRQEnabled_eq, pBIsIRQEnabled_eq, hI]
    rcases hm with rfl | rfl <;> by_cases he : e = 0
    · simp only [he, ne_eq, not_true_eq_false, if_false, sub_zero, h10, not_false_eq_true,
        if_true]
      rw [mE, b11, ← m2]
    · simp only [he, ne_eq, not_true_eq_false, not_false_eq_true, if_true, if_false,
        sub_zero, h10]
      rw [o12, b5, ← m2]
    · simp only [he, ne_eq, not_true_eq_false, h10, not_false_eq_true, if_true, if_false,
        sub_self]
      rw [mD, b8, ← m1]
    · simp only [he, ne_eq, h10, not_false_eq_true, if_true, sub_self, not_true_eq_false,
        if_false]
      rw [o21, b2, ← m1]
  · rw [hI]
    rcases hm with rfl | rfl <;> by_cases he : e = 0
    · simp only [he, ne_eq, not_true_eq_false, if_false]
      rw [mE, b12]
    · simp only [he, ne_eq, not_true_eq_false, not_false_eq_true, if_true, if_false]
      rw [o1E, b6, ← mE]
    · simp only [he, ne_eq, not_true_eq_false, h10, not_false_eq_true, if_true, if_false]
      rw [mD, b9]
    · simp only [he, ne_eq, h10, not_false_eq_true, if_true]
      rw [o2D, b3, ← mD]
  · unfold pBIsIRQEnabled
    split_ifs
    · exact Or.inr rfl
    · exact Or.inl rfl

theorem irq_status_independent_witness :
    pBIsIRQEnabled 1 (SetIRQStatus stdConfig 1 1 bootState) = (if (1 : Int) ≠ 0 then 1 else 0) ∧
    pBIsIRQEnabled (1 - 1) (SetIRQStatus stdConfig 1 1 bootState)
      = pBIsIRQEnabled (1 - 1) bootState :=
  ⟨(irq_status_independent stdConfig 1 1 bootState rfl (Or.inr rfl)).1,
   (irq_status_independent stdConfig 1 1 bootState rfl (Or.inr rfl)).2.1⟩

/-- C22: scoped interrupt suspension.  For every value `v` of `IER`: after
`_saveIERState` the register is 0 and `pb_ier_saved = v`; after the following
`_restoreIERState` the register is `v` again and the state differs from the first one
only in `pb_ier_saved`.  Hence `pBPrintf` and `pBGetchar` (whose console input/output does
not touch the controller) leave `IER` as they found it; `pBGetchar` returns the character
and keeps it in `rx`. -/
theorem ier_round_trip (st : State) (ch : Nat) :
    (saveIERState st).IER = 0 ∧
    (saveIERState st).pb_ier_saved = st.IER ∧
    (restoreIERState (saveIERState st)).IER = st.IER ∧
    restoreIERState (saveIERState st) = { st with pb_ier_saved := st.IER } ∧
    pBPrintf st = { st with pb_ier_saved := st.IER } ∧
    pBGetchar ch st = (ch % 256, { st with pb_ier_saved := st.IER, rx := ch % 256 }) := by
  obtain ⟨h1, h2, h3⟩ := restore_save_IER st
  refine ⟨h1, h2, ?_, h3, pBPrintf_eq st, pBGetchar_eq ch st⟩
  rw [h3]

/-- C23 (counterexample): with the two-byte line terminator `\n\r`, after `pBInit(0,0)`
and `pBPush("abc", 1, 0)` on a transmitter that is always ready, the fifth `pBSend(0)`
call still returns `PB_ERR_NONE` (it emits `\r`) and leaves `nOutItems = 1`; the sixth
call is the one that returns `PB_OK`. -/
theorem abc_fifth_call_continues :
    (pBPush stdConfig [97, 98, 99] 1 0 freshState).1 = 1 ∧
    (sendRun stdConfig (readyHw []) 5 (pBPush stdConfig [97, 98, 99] 1 0 freshState).2).1
      = [stdConfig.PB_ERR_NONE, stdConfig.PB_ERR_NONE, stdConfig.PB_ERR_NONE,
         stdConfig.PB_ERR_NONE, stdConfig.PB_ERR_NONE] ∧
    (sendRun stdConfig (readyHw []) 5 (pBPush stdConfig [97, 98, 99] 1 0 freshState).2).2.txLog
      = [97, 98, 99, 10, 13] ∧
    (sendRun stdConfig (readyHw []) 5
      (pBPush stdConfig [97, 98, 99] 1 0 freshState).2).2.nOutItems = 1 ∧
    (sendRun stdConfig (readyHw []) 6 (pBPush stdConfig [97, 98, 99] 1 0 freshState).2).1
      = [stdConfig.PB_ERR_NONE, stdConfig.PB_ERR_NONE, stdConfig.PB_ERR_NONE,
         stdConfig.PB_ERR_NONE, stdConfig.PB_ERR_NONE, stdConfig.PB_OK] := by
  decide

/-- C23 (amended): the scenario "abc".  After `pBInit(0,0)` (transmit interrupt disabled)
and `pBPush("abc", 1, 0)`, on a transmitter that is always ready, `pBSend(0)` emits the
bytes of the queued item (`"abc"` followed by `NEW_LINE`, if it is not there already),
one byte per call with `PB_ERR_NONE`, and the call after the last byte (call number
`3 + |NEW_LINE| + 1`, the sixth for `\n\r`) returns `PB_OK`, after which `nOutItems` is
0. -/
theorem abc_scenario (c : Config) (hw : Hw) (st : State)
    (hready : ∀ n, hw.status n % 256 &&& TXRDY = 0)
    (hirq : pBIsIRQEnabled c.PB_EITR (pBInit c hw 0 0 st).2 = 0)
    (hfit : (pushedItem c [97, 98, 99] 1).length + 1 ≤ OUTPUT_SIZE) :
    (pBPush c [97, 98, 99] 1 0 (pBInit c hw 0 0 st).2).1 = 1 ∧
    (sendRun c hw ((pushedItem c [97, 98, 99] 1).length + 1)
      (pBPush c [97, 98, 99] 1 0 (pBInit c hw 0 0 st).2).2).1
      = List.replicate (pushedItem c [97, 98, 99] 1).length c.PB_ERR_NONE ++ [c.PB_OK] ∧
    (sendRun c hw ((pushedItem c [97, 98, 99] 1).length + 1)
      (pBPush c [97, 98, 99] 1 0 (pBInit c hw 0 0 st).2).2).2.txLog
      = (pBInit c hw 0 0 st).2.txLog ++ pushedItem c [97, 98, 99] 1 ∧
    (sendRun c hw ((pushedItem c [97, 98, 99] 1).length + 1)
      (pBPush c [97, 98, 99] 1 0 (pBInit c hw 0 0 st).2).2).2.nOutItems = 0 ∧
    (endswith [97, 98, 99] c.NEW_LINE = false →
      pushedItem c [97, 98, 99] 1 = [97, 98, 99] ++ cstr c.NEW_LINE) := by
  obtain ⟨ier, hinit⟩ := pBInit_state c hw 0 0 st
  have hsz : ∀ b ∈ ([97, 98, 99] : List Nat), b ≠ 0 := by decide
  have hP0 : Pushed [] (pBInit c hw 0 0 st).2 := by
    rw [hinit]
    exact ⟨⟨_, rfl⟩, rfl, rfl, rfl, fun _ => rfl⟩
  have hmode : (pBInit c hw 0 0 st).2.port_mode ≠ MODE_RX := by
    rw [hinit]; show MODE_NONE ≠ MODE_RX; decide
  obtain ⟨r1, r2, r4⟩ := Pushed_push c (pBInit c hw 0 0 st).2 [] [97, 98, 99] 1 hP0
    (by simp) (by decide) hsz (by decide) (fun _ => by decide)
    (by
      rw [List.nil_append, packed_cons, packed_nil]
      simp
      omega)
  obtain ⟨b, p, n, r4⟩ := r4
  obtain ⟨hqz, _⟩ := pushedItem_shape c [97, 98, 99] 1 hsz
  simp only [List.nil_append] at r2
  obtain ⟨⟨junk, hbuf⟩, hnext, hhead, hcount, _⟩ := r2
  have hS : Sending c (pushedItem c [97, 98, 99] 1) []
      (pBPush c [97, 98, 99] 1 0 (pBInit c hw 0 0 st).2).2 := by
    refine ⟨⟨[], junk, ?_, hhead⟩, ?_, ?_, ?_, ?_⟩
    · rw [hbuf, packed_cons]; simp
    · rw [hnext, hhead, packed_cons]; simp; omega
    · rw [hcount]; simp
    · rw [r4]; exact hmode
    · rw [r4]; exact hirq
  obtain ⟨d1, d2, d3⟩ := sendRun_drain c hw hready [] (by simp) _ _ hS hqz
  have hc : callsFor [pushedItem c [97, 98, 99] 1] = (pushedItem c [97, 98, 99] 1).length + 1 := by
    simp [callsFor]
  have hcodes : codesFor c [pushedItem c [97, 98, 99] 1]
      = List.replicate (pushedItem c [97, 98, 99] 1).length c.PB_ERR_NONE ++ [c.PB_OK] := by
    simp [codesFor]
  rw [hc] at d1 d2 d3
  refine ⟨r1, ?_, ?_, d3, ?_⟩
  · rw [d1, hcodes]
  · rw [d2, r4]; simp
  · intro h
    simp [pushedItem, h, stradd, cstr]

theorem abc_scenario_witness :
    (sendRun stdConfig (readyHw []) ((pushedItem stdConfig [97, 98, 99] 1).length + 1)
      (pBPush stdConfig [97, 98, 99] 1 0 (pBInit stdConfig (readyHw []) 0 0 bootState).2).2).1
      = List.replicate (pushedItem stdConfig [97, 98, 99] 1).length stdConfig.PB_ERR_NONE
        ++ [stdConfig.PB_OK] ∧
    (sendRun stdConfig (readyHw []) ((pushedItem stdConfig [97, 98, 99] 1).length + 1)
      (pBPush stdConfig [97, 98, 99] 1 0
        (pBInit stdConfig (readyHw []) 0 0 bootState).2).2).2.nOutItems = 0 ∧
    pushedItem stdConfig [97, 98, 99] 1 = [97, 98, 99] ++ cstr stdConfig.NEW_LINE :=
  ⟨(abc_scenario stdConfig (readyHw []) bootState
      (fun _ => (by decide : RXRDY % 256 &&& TXRDY = 0)) (by decide) (by decide)).2.1,
   (abc_scenario stdConfig (readyHw []) bootState
      (fun _ => (by decide : RXRDY % 256 &&& TXRDY = 0)) (by decide) (by decide)).2.2.2.1,
   (abc_scenario stdConfig (readyHw []) bootState
      (fun _ => (by decide : RXRDY % 256 &&& TXRDY = 0)) (by decide) (by decide)).2.2.2.2
      (by decide)⟩

/-- C25 (counterexample): a request pushed with `maxSize = 0` is completed by the first
`pBReceive` that finds the receiver ready, and its slot is left with `nMaxSize = -1`. -/
theorem completed_slot_negative :
    zeroRequestState.nInItems = 1 ∧
    headItem zeroRequestState = { pItem := 0, nMaxSize := 0 } ∧
    (pBReceive stdConfig (readyHw []) 0 zeroRequestState).1 = stdConfig.PB_OK ∧
    (pBReceive stdConfig (readyHw []) 0 zeroRequestState).2.aInItemsQueue.getD 0 null_in_item
      = { pItem := 0, nMaxSize := -1 } := by
  decide

/-- C25 (amended): the remaining capacity of a pending request is never negative, and no
slot goes below `-1`.  In every state reached from `pBInit` by `pBInRequest`, `pBReceive`
and interrupt events along a run that stays inside the arrays: every slot of the table
has `nMaxSize ≥ -1`; the head slot of a non-empty queue has `nMaxSize ≥ 0`; under the
shifting policy every slot but the head slot of an empty queue, and under the ring policy
every slot from the head cursor up to the tail cursor, has `nMaxSize ≥ 0`. -/
theorem capacity_counters_inside_table (c : Config) (hw : Hw) (a b : Int) (st : State)
    (calls : List RxCall)
    (hin : rxRunInside c hw calls (pBInit c hw a b st).2) :
    (∀ i, i < MAX_INPUT_ITEMS_COUNTER →
      -1 ≤ ((rxRun c hw calls (pBInit c hw a b st).2).2.aInItemsQueue.getD i
        null_in_item).nMaxSize) ∧
    ((rxRun c hw calls (pBInit c hw a b st).2).2.nInItems ≠ 0 →
      (rxRun c hw calls (pBInit c hw a b st).2).2.pInItemsQueue < MAX_INPUT_ITEMS_COUNTER ∧
      0 ≤ (headItem (rxRun c hw calls (pBInit c hw a b st).2).2).nMaxSize) ∧
    (c.PB_RING_QUEUE = false →
      ∀ i, i < MAX_INPUT_ITEMS_COUNTER →
        ¬ (i = 0 ∧ (rxRun c hw calls (pBInit c hw a b st).2).2.nInItems = 0) →
        0 ≤ ((rxRun c hw calls (pBInit c hw a b st).2).2.aInItemsQueue.getD i
          null_in_item).nMaxSize) ∧
    (c.PB_RING_QUEUE = true →
      ∀ i, (rxRun c hw calls (pBInit c hw a b st).2).2.pInItemsQueue ≤ i →
        i < (rxRun c hw calls (pBInit c hw a b st).2).2.pInNext →
        i < MAX_INPUT_ITEMS_COUNTER ∧
        0 ≤ ((rxRun c hw calls (pBInit c hw a b st).2).2.aInItemsQueue.getD i
          null_in_item).nMaxSize) := by
  have hd := (pBInit_inside_table c hw a b st (rxRunInside_start c hw calls _ hin)).1
  have hfin := rxRunInside_final c hw calls _ hin
  have h := CapacityInv_rxRun c hw calls _ (CapacityInv_pBInit c hw a b st (by
    intro slot hslot
    rw [hd] at hslot
    exact absurd hslot (List.not_mem_nil _)))
  refine ⟨fun i _ => h.2.2.2.2.1 i, fun hne => ⟨hfin.2.1, CapacityInv_head c _ h hne⟩, ?_, ?_⟩
  · intro hr i _ hi
    obtain ⟨_, _, _, h4, _, h6⟩ := h
    have hz := h4 hr
    exact h6 i (by omega) (fun hr2 => by rw [hr] at hr2; exact absurd hr2 (by decide))
      (fun e => hi ⟨by rw [e.1, hz], e.2⟩)
  · intro hr i h1 h2
    obtain ⟨_, h2', h3, _, _, h6⟩ := h
    have hn := hfin.2.2.1
    refine ⟨by omega, ?_⟩
    exact h6 i h1 (fun _ => h2) (fun e => by
      have := h3 e.2
      omega)

set_option maxRecDepth 100000 in
theorem capacity_counters_inside_table_witness :
    (∀ i, i < MAX_INPUT_ITEMS_COUNTER → -1 ≤ ((rxRun stdConfig (readyHw [])
      [RxCall.request 0 0, RxCall.irq 1 RXRDY, RxCall.receive 0]
      (pBInit stdConfig (readyHw []) 1 1 bootState).2).2.aInItemsQueue.getD i
      null_in_item).nMaxSize) ∧
    ((rxRun stdConfig (readyHw [97])
      [RxCall.request 100 5, RxCall.irq 1 RXRDY, RxCall.receive 0]
      (pBInit stdConfig (readyHw [97]) 1 1 bootState).2).2.nInItems ≠ 0 ∧
     (rxRun stdConfig (readyHw [97])
      [RxCall.request 100 5, RxCall.irq 1 RXRDY, RxCall.receive 0]
      (pBInit stdConfig (readyHw [97]) 1 1 bootState).2).2.pInItemsQueue
        < MAX_INPUT_ITEMS_COUNTER ∧
      0 ≤ (headItem (rxRun stdConfig (readyHw [97])
        [RxCall.request 100 5, RxCall.irq 1 RXRDY, RxCall.receive 0]
        (pBInit stdConfig (readyHw [97]) 1 1 bootState).2).2).nMaxSize) :=
  ⟨(capacity_counters_inside_table stdConfig (readyHw []) 1 1 bootState
      [RxCall.request 0 0, RxCall.irq 1 RXRDY, RxCall.receive 0]
      (by unfold rxRunInside InsideArrays; decide)).1,
   by decide,
   (capacity_counters_inside_table stdConfig (readyHw [97]) 1 1 bootState
      [RxCall.request 100 5, RxCall.irq 1 RXRDY, RxCall.receive 0]
      (by unfold rxRunInside InsideArrays; decide)).2.1 (by decide)⟩

/-- C26 (counterexample): a null byte read from the receive register while the head slot
has room for four more bytes: `pBReceive` returns `PB_ERR_NONE`, the byte is consumed,
nothing is stored, and the slot keeps its cursor and its remaining capacity. -/
theorem zero_byte_not_stored :
    1 < (headItem roomyHeadState).nMaxSize ∧
    (readyHw [0]).rxd roomyHeadState.rxReads % 256 = 0 ∧
    (pBReceive stdConfig (readyHw [0]) 0 roomyHeadState).1 = stdConfig.PB_ERR_NONE ∧
    (pBReceive stdConfig (readyHw [0]) 0 roomyHeadState).2.rxReads
      = roomyHeadState.rxReads + 1 ∧
    (pBReceive stdConfig (readyHw [0]) 0 roomyHeadState).2.memLog = roomyHeadState.memLog ∧
    headItem (pBReceive stdConfig (readyHw [0]) 0 roomyHeadState).2
      = headItem roomyHeadState := by
  decide

/-- C26 (amended): every received byte other than the null and the terminator is stored.
When a `pBReceive` call gets past its readiness checks while the remaining capacity of
the head slot is above the overflow boundary (`> 1`), and the byte `b` read from the
receive register is neither 0 nor `ENTER_CODE`: `b` is written into the destination
buffer at the cursor of the slot, the cursor goes up by one, the remaining capacity goes
down by one, `nInItems` is unchanged and the call returns `PB_ERR_NONE`.  When `b` is 0,
the call returns `PB_ERR_NONE` as well, but nothing is stored and the slot is
unchanged. -/
theorem received_byte_stored (c : Config) (hw : Hw) (start : Int) (st st1 : State)
    (hgate : receiveGate c hw st = Gate.pass st1)
    (hroom : 1 < (headItem st).nMaxSize) :
    (hw.rxd st.rxReads % 256 ≠ 0 → hw.rxd st.rxReads % 256 ≠ ENTER_CODE →
      pBReceive c hw start st = (c.PB_ERR_NONE, { st1 with
        port_mode := MODE_RX
        rxReads := st.rxReads + 1
        memLog := st.memLog ++ [((headItem st).pItem, hw.rxd st.rxReads % 256)]
        aInItemsQueue := pokes null_in_item st.aInItemsQueue st.pInItemsQueue
          [{ pItem := (headItem st).pItem + 1, nMaxSize := (headItem st).nMaxSize - 1 }] }) ∧
      (pBReceive c hw start st).2.nInItems = st.nInItems ∧
      headItem (pBReceive c hw start st).2
        = { pItem := (headItem st).pItem + 1, nMaxSize := (headItem st).nMaxSize - 1 }) ∧
    (hw.rxd st.rxReads % 256 = 0 →
      pBReceive c hw start st = (c.PB_ERR_NONE, { st1 with
        port_mode := MODE_RX
        rxReads := st.rxReads + 1 }) ∧
      (pBReceive c hw start st).2.memLog = st.memLog ∧
      (pBReceive c hw start st).2.nInItems = st.nInItems ∧
      headItem (pBReceive c hw start st).2 = headItem st) := by
  obtain ⟨_, _, k, f, s, hst1⟩ := receiveGate_pass c hw st st1 hgate
  have e : pBReceive c hw start st = receiveByte c hw st1 := by
    simp only [pBReceive, hgate]
  rw [e]
  subst hst1
  have hh : headItem { st with statusReads := k, isr_pb := f, isr_pb_state := s }
      = headItem st := rfl
  have hr : ({ st with statusReads := k, isr_pb := f, isr_pb_state := s } : State).rxReads
      = st.rxReads := rfl
  constructor
  · intro hb0 hbe
    rcases receiveByte_cases c hw { st with statusReads := k, isr_pb := f, isr_pb_state := s }
      with ⟨h, _⟩ | ⟨_, h, _⟩ | ⟨_, h, _⟩ | ⟨_, _, _, h⟩
    · rw [hh] at h; omega
    · rw [hr] at h; exact absurd h hb0
    · rw [hr] at h; exact absurd h hbe
    · rw [h]
      exact ⟨rfl, rfl, getD_pokes_self _ _ _ _ _⟩
  · intro hb0
    rcases receiveByte_cases c hw { st with statusReads := k, isr_pb := f, isr_pb_state := s }
      with ⟨h, _⟩ | ⟨_, _, h⟩ | ⟨_, h, _⟩ | ⟨_, h, _⟩
    · rw [hh] at h; omega
    · rw [h]
      exact ⟨rfl, rfl, rfl, rfl⟩
    · rw [hr, hb0] at h; exact absurd h (by decide)
    · rw [hr] at h; exact absurd hb0 h

theorem received_byte_stored_witness :
    pBReceive stdConfig (readyHw [97]) 0 roomyHeadState = (stdConfig.PB_ERR_NONE,
      { ({ roomyHeadState with statusReads := roomyHeadState.statusReads + 1 } : State) with
        port_mode := MODE_RX
        rxReads := roomyHeadState.rxReads + 1
        memLog := roomyHeadState.memLog ++
          [((headItem roomyHeadState).pItem, (readyHw [97]).rxd roomyHeadState.rxReads % 256)]
        aInItemsQueue := pokes null_in_item roomyHeadState.aInItemsQueue
          roomyHeadState.pInItemsQueue
          [{ pItem := (headItem roomyHeadState).pItem + 1,
             nMaxSize := (headItem roomyHeadState).nMaxSize - 1 }] }) :=
  ((received_byte_stored stdConfig (readyHw [97]) 0 roomyHeadState
    { roomyHeadState with statusReads := roomyHeadState.statusReads + 1 }
    (by decide) (by decide)).1 (by decide) (by decide)).1

set_option maxRecDepth 1000000 in
/-- C27 (counterexample): pushing `s` and pushing `s` followed by `NEW_LINE` with the flag
on do not always queue the same bytes, and a non-empty item that passes the size checks
is not always queued.  An item `s` of 1022 bytes passes the size checks and does not end
with `NEW_LINE`: `pBPush(s, 1, 0)` returns 1 and queues the 1024 bytes of `s` followed by
`NEW_LINE`, while `pBPush` of those 1024 bytes returns 0 and queues nothing.  In a
`PB_NO_EMPTY_REQUEST` build `pBPush("\n", 1, 0)` returns 1 and leaves the queue as it was,
`nOutItems` included. -/
theorem terminator_push_asymmetry :
    strsize (List.replicate 1022 65) + SIZE_OFFSET ≤ MAX_OUTPUT_ITEM_SIZE ∧
    endswith (List.replicate 1022 65) stdConfig.NEW_LINE = false ∧
    (pBPush stdConfig (List.replicate 1022 65) 1 0 freshState).1 = 1 ∧
    (pBPush stdConfig (List.replicate 1022 65) 1 0 freshState).2.nOutItems = 1 ∧
    (pBPush stdConfig (List.replicate 1022 65) 1 0 freshState).2.pOutNext = 1025 ∧
    (pBPush stdConfig (stradd (List.replicate 1022 65) stdConfig.NEW_LINE) 1 0
      freshState).1 = 0 ∧
    (pBPush stdConfig (stradd (List.replicate 1022 65) stdConfig.NEW_LINE) 1 0
      freshState).2.nOutItems = 0 ∧
    (pBPush stdConfig (stradd (List.replicate 1022 65) stdConfig.NEW_LINE) 1 0
      freshState).2.pOutNext = 0 ∧
    0 < strsize [10] ∧
    pBPush emptyDropConfig [10] 1 0 freshState = (1, freshState) := by
  decide

/-- C27 (amended): the line terminator is appended only when absent.  Take an item `s`
that is not empty (nor, in a `PB_NO_EMPTY_REQUEST` build, an empty request), passes the
two size checks of `pBPush`, and whose queued bytes and null fit between the tail cursor
and the end of `aOutItemsQueue`.  Then `pBPush(s, nl, _)` returns 1, stores the bytes of
the queued item and a null at the tail cursor, moves the tail cursor behind them and adds
one to `nOutItems`.  The queued item is `s` when `nl = 0` or `s` ends with `NEW_LINE`
already, and `s` followed by `NEW_LINE` otherwise; in that last case, if `s` followed by
`NEW_LINE` passes the two size checks as well, pushing it gives the same return value and
the same state as pushing `s`.  The bytes below the old tail cursor (the items queued
before) are unchanged. -/
theorem terminator_appended_when_absent (c : Config) (s : List Nat) (nl lg : Int)
    (st : State)
    (hne : 0 < strsize s)
    (hreq : c.PB_NO_EMPTY_REQUEST = true → isEmptyRequest s = false)
    (hsize : strsize s + SIZE_OFFSET ≤ MAX_OUTPUT_ITEM_SIZE)
    (hfit : strsize s + SIZE_OFFSET + strsize st.aOutItemsQueue ≤ OUTPUT_SIZE)
    (hroom : st.pOutNext + (cstr (pushedItem c s nl)).length + 1 ≤ OUTPUT_SIZE) :
    pBPush c s nl lg st = (1, { st with
      aOutItemsQueue := pokes 0 st.aOutItemsQueue st.pOutNext
        (cstr (pushedItem c s nl) ++ [0])
      pOutNext := st.pOutNext + (cstr (pushedItem c s nl)).length + 1
      nOutItems := st.nOutItems + 1 }) ∧
    (nl = 0 → cstr (pushedItem c s nl) = cstr s) ∧
    (nl ≠ 0 → endswith s c.NEW_LINE = true → cstr (pushedItem c s nl) = cstr s) ∧
    (nl ≠ 0 → endswith s c.NEW_LINE = false →
      cstr (pushedItem c s nl) = cstr s ++ cstr c.NEW_LINE ∧
      (strsize (stradd s c.NEW_LINE) + SIZE_OFFSET ≤ MAX_OUTPUT_ITEM_SIZE →
        strsize (stradd s c.NEW_LINE) + SIZE_OFFSET + strsize st.aOutItemsQueue
          ≤ OUTPUT_SIZE →
        pBPush c (stradd s c.NEW_LINE) nl lg st = pBPush c s nl lg st)) ∧
    (∀ i, i < st.pOutNext →
      (pBPush c s nl lg st).2.aOutItemsQueue.getD i 0 = st.aOutItemsQueue.getD i 0) ∧
    (∀ j, j ≤ (cstr (pushedItem c s nl)).length →
      (pBPush c s nl lg st).2.aOutItemsQueue.getD (st.pOutNext + j) 0
        = (cstr (pushedItem c s nl) ++ [0]).getD j 0) ∧
    (pBPush c s nl lg st).2.nOutItems = st.nOutItems + 1 := by
  have e := pBPush_queued c s nl lg st hne hreq hsize hfit
  refine ⟨e, ?_, ?_, ?_, ?_, ?_, ?_⟩
  · intro h0
    simp [pushedItem, h0]
  · intro h0 h1
    simp [pushedItem, h1]
  · intro h0 h1
    have e1 : pushedItem c s nl = stradd s c.NEW_LINE := by
      simp [pushedItem, h0, h1]
    have e2 : pushedItem c (stradd s c.NEW_LINE) nl = stradd s c.NEW_LINE := by
      simp [pushedItem, endswith_stradd]
    refine ⟨by rw [e1, cstr_stradd], ?_⟩
    intro hs2 hf2
    have hne2 : 0 < strsize (stradd s c.NEW_LINE) := by
      have : strsize (stradd s c.NEW_LINE) = strsize s + strsize c.NEW_LINE := by
        unfold strsize
        rw [cstr_stradd, List.length_append]
      omega
    have e3 := pBPush_queued c (stradd s c.NEW_LINE) nl lg st hne2
      (fun hc => isEmptyRequest_stradd s c.NEW_LINE hne (hreq hc)) hs2 hf2
    rw [e3, e, e2, e1]
  · intro i hi
    rw [e]
    exact getD_pokes_below 0 _ _ _ _ hi
  · intro j hj
    rw [e]
    exact getD_pokes_inside 0 _ _ _ _ (by simp; omega)
  · rw [e]

theorem terminator_appended_when_absent_witness :
    pBPush stdConfig [97, 98, 99] 1 0 queuedState = (1, { queuedState with
      aOutItemsQueue := pokes 0 queuedState.aOutItemsQueue queuedState.pOutNext
        (cstr (pushedItem stdConfig [97, 98, 99] 1) ++ [0])
      pOutNext := queuedState.pOutNext + (cstr (pushedItem stdConfig [97, 98, 99] 1)).length + 1
      nOutItems := queuedState.nOutItems + 1 }) ∧
    cstr (pushedItem stdConfig [97, 98, 99] 1) = cstr [97, 98, 99] ++ cstr stdConfig.NEW_LINE ∧
    pBPush stdConfig (stradd [97, 98, 99] stdConfig.NEW_LINE) 1 0 queuedState
      = pBPush stdConfig [97, 98, 99] 1 0 queuedState ∧
    cstr (pushedItem stdConfig [97, 98, 99, 10, 13] 1) = cstr [97, 98, 99, 10, 13] :=
  ⟨(terminator_appended_when_absent stdConfig [97, 98, 99] 1 0 queuedState (by decide)
      (by decide) (by decide) (by decide) (by decide)).1,
   ((terminator_appended_when_absent stdConfig [97, 98, 99] 1 0 queuedState (by decide)
      (by decide) (by decide) (by decide) (by decide)).2.2.2.1 (by decide) (by decide)).1,
   ((terminator_appended_when_absent stdConfig [97, 98, 99] 1 0 queuedState (by decide)
      (by decide) (by decide) (by decide) (by decide)).2.2.2.1 (by decide) (by decide)).2
      (by decide) (by decide),
   (terminator_appended_when_absent stdConfig [97, 98, 99, 10, 13] 1 0 queuedState
      (by decide) (by decide) (by decide) (by decide) (by decide)).2.2.1 (by decide)
      (by decide)⟩

/-- C28: bounded busy-wait.  For every `Timeout = T ≥ 1` and every sequence of status
values, `IsTXPortReady(T)` returns after `k` reads of the status register, `1 ≤ k ≤ T`,
and touches nothing else; every read before the last shows the transmitter busy
(`TXRDY` set); the result is 0 or 1, and it is 0 exactly when the first `T` reads all
show busy.  The same holds for `IsRXPortReady(T)` with not-ready meaning `RXRDY` clear.
With `T = 0` both functions read no register and answer from the captured interrupt
reason `isr_pb_state`. -/
theorem busy_wait_bounded (hw : Hw) (T : Nat) (st : State) (hT : 1 ≤ T) :
    (∃ k, 1 ≤ k ∧ k ≤ T ∧
      (IsTXPortReady hw T st).2 = { st with statusReads := st.statusReads + k } ∧
      (∀ i, i + 1 < k → hw.status (st.statusReads + i) % 256 &&& TXRDY ≠ 0) ∧
      ((IsTXPortReady hw T st).1 = 1 →
        hw.status (st.statusReads + (k - 1)) % 256 &&& TXRDY = 0)) ∧
    ((IsTXPortReady hw T st).1 = 0 ∨ (IsTXPortReady hw T st).1 = 1) ∧
    ((IsTXPortReady hw T st).1 = 0 ↔
      ∀ i, i < T → hw.status (st.statusReads + i) % 256 &&& TXRDY ≠ 0) ∧
    (∃ k, 1 ≤ k ∧ k ≤ T ∧
      (IsRXPortReady hw T st).2 = { st with statusReads := st.statusReads + k } ∧
      (∀ i, i + 1 < k → hw.status (st.statusReads + i) % 256 &&& RXRDY = 0) ∧
      ((IsRXPortReady hw T st).1 = 1 →
        hw.status (st.statusReads + (k - 1)) % 256 &&& RXRDY ≠ 0)) ∧
    ((IsRXPortReady hw T st).1 = 0 ∨ (IsRXPortReady hw T st).1 = 1) ∧
    ((IsRXPortReady hw T st).1 = 0 ↔
      ∀ i, i < T → hw.status (st.statusReads + i) % 256 &&& RXRDY = 0) ∧
    IsTXPortReady hw 0 st = (if st.isr_pb_state &&& TXRDY = 0 then 1 else 0, st) ∧
    IsRXPortReady hw 0 st = (if st.isr_pb_state &&& RXRDY ≠ 0 then 1 else 0, st) := by
  obtain ⟨n, rfl⟩ : ∃ n, T = n + 1 := ⟨T - 1, by omega⟩
  obtain ⟨k, hk1, hk2, hst, hbusy, hres⟩ := txSpin_spec hw n st
  obtain ⟨j, hj1, hj2, hst2, hdeaf, hres2⟩ := rxSpin_spec hw n st
  have eT : IsTXPortReady hw (n + 1) st = txSpin hw n st := rfl
  have eR : IsRXPortReady hw (n + 1) st = rxSpin hw n st := rfl
  rw [eT, eR]
  refine ⟨⟨k, hk1, hk2, hst, hbusy, ?_⟩, ?_, ?_, ⟨j, hj1, hj2, hst2, hdeaf, ?_⟩, ?_, ?_,
    rfl, rfl⟩
  · intro h1
    rcases hres with ⟨h0, _, _⟩ | ⟨_, hb⟩
    · rw [h0] at h1; exact absurd h1 (by decide)
    · exact hb
  · rcases hres with ⟨h0, _, _⟩ | ⟨h1, _⟩
    · exact Or.inl h0
    · exact Or.inr h1
  · constructor
    · intro h0 i hi
      rcases hres with ⟨_, hk, hb⟩ | ⟨h1, _⟩
      · by_cases hin : i = n
        · rw [hin]; exact hb
        · exact hbusy i (by omega)
      · rw [h1] at h0; exact absurd h0 (by decide)
    · intro hall
      rcases hres with ⟨h0, _, _⟩ | ⟨_, hb⟩
      · exact h0
      · exact absurd hb (hall (k - 1) (by omega))
  · intro h1
    rcases hres2 with ⟨h0, _, _⟩ | ⟨_, hb⟩
    · rw [h0] at h1; exact absurd h1 (by decide)
    · exact hb
  · rcases hres2 with ⟨h0, _, _⟩ | ⟨h1, _⟩
    · exact Or.inl h0
    · exact Or.inr h1
  · constructor
    · intro h0 i hi
      rcases hres2 with ⟨_, hk, hb⟩ | ⟨h1, _⟩
      · by_cases hin : i = n
        · rw [hin]; exact hb
        · exact hdeaf i (by omega)
      · rw [h1] at h0; exact absurd h0 (by decide)
    · intro hall
      rcases hres2 with ⟨h0, _, _⟩ | ⟨_, hb⟩
      · exact h0
      · exact absurd (hall (j - 1) (by omega)) hb

theorem busy_wait_bounded_witness :
    ((IsTXPortReady busyHw 3 freshState).1 = 0 ↔
      ∀ i, i < 3 → busyHw.status (freshState.statusReads + i) % 256 &&& TXRDY ≠ 0) ∧
    ((IsRXPortReady (readyHw []) 3 freshState).1 = 0 ∨
      (IsRXPortReady (readyHw []) 3 freshState).1 = 1) :=
  ⟨(busy_wait_bounded busyHw 3 freshState (by decide)).2.2.1,
   (busy_wait_bounded (readyHw []) 3 freshState (by decide)).2.2.2.2.1⟩

set_option maxRecDepth 100000 in
/-- C29 (code bug): under the shifting policy the tail cursor of the input queue is not
moved back when the head request is popped.  Two requests and one completion leave
`nInItems = 1` with `pInNext` at slot 2.  With two requests queued and then rounds of
(completion of the head, new request), `nInItems` stays at 2 while `pInNext` climbs by
one per round: after eight rounds it is at `MAX_INPUT_ITEMS_COUNTER`, the request of the
ninth round is accepted (`PB_ERR_NONE`) and written to slot index
`MAX_INPUT_ITEMS_COUNTER`, one past the slot table. -/
theorem input_tail_not_moved_back :
    (rxRun stdConfig terminatorHw
      [RxCall.request 100 5, RxCall.request 200 5, RxCall.irq 1 RXRDY, RxCall.receive 0]
      irqState).1 = [stdConfig.PB_ERR_NONE, stdConfig.PB_ERR_NONE, stdConfig.PB_OK] ∧
    (rxRun stdConfig terminatorHw
      [RxCall.request 100 5, RxCall.request 200 5, RxCall.irq 1 RXRDY, RxCall.receive 0]
      irqState).2.nInItems = 1 ∧
    (rxRun stdConfig terminatorHw
      [RxCall.request 100 5, RxCall.request 200 5, RxCall.irq 1 RXRDY, RxCall.receive 0]
      irqState).2.pInNext = 2 ∧
    irqState.aInItemsQueue.length = MAX_INPUT_ITEMS_COUNTER ∧
    (rxRun stdConfig terminatorHw (tailDriftCalls 8) irqState).2.nInItems = 2 ∧
    (rxRun stdConfig terminatorHw (tailDriftCalls 8) irqState).2.pInNext
      = MAX_INPUT_ITEMS_COUNTER ∧
    (pBInRequest stdConfig terminatorHw 300 5
      (rxRun stdConfig terminatorHw (tailDriftCalls 8 ++ [RxCall.irq 1 RXRDY, RxCall.receive 0])
        irqState).2).1 = stdConfig.PB_ERR_NONE ∧
    (rxRun stdConfig terminatorHw (tailDriftCalls 9) irqState).2.nInItems = 2 ∧
    (rxRun stdConfig terminatorHw (tailDriftCalls 9) irqState).2.pInNext
      = MAX_INPUT_ITEMS_COUNTER + 1 ∧
    (rxRun stdConfig terminatorHw (tailDriftCalls 9) irqState).2.aInItemsQueue.length
      = MAX_INPUT_ITEMS_COUNTER + 1 ∧
    (rxRun stdConfig terminatorHw (tailDriftCalls 9) irqState).2.aInItemsQueue.getD
      MAX_INPUT_ITEMS_COUNTER null_in_item = { pItem := 300, nMaxSize := 5 } := by
  decide

set_option maxRecDepth 100000 in
/-- C30 (code bug): the shift loop of `_termPortBController`, traced with the indices it
reads and writes (`shiftInItemsTraced`, equal to the loop of the embedding for every
array and count), leaves the slot table when the table is full.  With
`nInItems = MAX_INPUT_ITEMS_COUNTER` it reads `aInItemsQueue[MAX_INPUT_ITEMS_COUNTER]`
in its last round and the null-slot assignment behind it writes that same index.  A full
table is reachable (ten requests in interrupt mode), and completing its head request
extends the modelled array from ten to eleven cells. -/
theorem input_shift_leaves_table :
    (∀ (a : List TInItem) (n : Nat),
      shiftInItemsTraced a n =
        (pokes null_in_item (shiftInItems a n) n [null_in_item],
          (List.range n).map (fun i => i + 1), List.range n ++ [n])) ∧
    MAX_INPUT_ITEMS_COUNTER ∈
      (shiftInItemsTraced fullQueueState.aInItemsQueue MAX_INPUT_ITEMS_COUNTER).2.1 ∧
    MAX_INPUT_ITEMS_COUNTER ∈
      (shiftInItemsTraced fullQueueState.aInItemsQueue MAX_INPUT_ITEMS_COUNTER).2.2 ∧
    fullQueueState.nInItems = MAX_INPUT_ITEMS_COUNTER ∧
    fullQueueState.pInNext > fullQueueState.pInItemsQueue ∧
    fullQueueState.aInItemsQueue.length = MAX_INPUT_ITEMS_COUNTER ∧
    (termPortBController stdConfig { fullQueueState with port_mode := MODE_RX }).aInItemsQueue
      = (shiftInItemsTraced fullQueueState.aInItemsQueue MAX_INPUT_ITEMS_COUNTER).1 ∧
    (termPortBController stdConfig
      { fullQueueState with port_mode := MODE_RX }).aInItemsQueue.length
      = MAX_INPUT_ITEMS_COUNTER + 1 ∧
    (rxRun stdConfig terminatorHw [RxCall.irq 1 RXRDY, RxCall.receive 0]
      fullQueueState).1 = [stdConfig.PB_OK] ∧
    (rxRun stdConfig terminatorHw [RxCall.irq 1 RXRDY, RxCall.receive 0]
      fullQueueState).2.aInItemsQueue.length = MAX_INPUT_ITEMS_COUNTER + 1 := by
  refine ⟨shiftInItemsTraced_eq, ?_⟩
  decide

end PBController
